import Mathlib

/-!
# A verification model of the `mysqlite` storage engine

This file gives a shallow embedding, in Lean 4, of the on-disk storage
engine of the `mysqlite` repository (modules `src/storage/btree.rs`,
`src/storage/cursor.rs`, `src/storage/table.rs`, `src/storage/row.rs`,
`src/storage/column.rs`, `src/storage/encoding.rs`, `src/errors.rs`),
together with theorems settling the behavioural claims about it.

Modelling conventions:

* A page is an array of bytes.  We model it as a total function
  `Nat → Nat`; every read truncates the stored value `% 256`, so an
  arbitrary function denotes exactly a `u8` array.  Writes store raw
  values; `% 256` on the read side keeps the model faithful.
* Rust functions taking `&mut` are translated into explicit
  state-passing style: they consume a state and return the new state
  together with the `Result`.  A `MutexGuard` obtained from the pager is
  modelled as a local copy of the page that is written back at the point
  the guard is dropped (the engine is single threaded, and every
  mutation performed through a guard becomes visible exactly when the
  guard is dropped and the page is next read).
* Unbounded source loops/recursions (binary search, the recursive
  `Pager::get_node_max_key`, the mutually recursive internal-node
  insert/split, the cursor scan loop) are given an explicit fuel
  parameter.  In the Rust code a cyclic page chain makes the nested
  `try_lock` fail with a `LockTable` error, so bounded unfolding is
  faithful: we return an error when fuel runs out, and callers pass
  enough fuel for every acyclic configuration.
* Machine integers are `Nat`/`Int` with explicit `% 2 ^ 32` (`u32`) or
  `% 256` (`u8`) where overflow can occur.
-/

namespace MySqlite

/-! ## Definitions -/

/-- The error enum of `src/errors.rs` (variants relevant to the storage
core; the payload of `Io` is reduced to its message). -/
inductive Err where
  | Io (msg : String)
  | Syntax (msg : String)
  | LockTable (msg : String)
  | Schema (msg : String)
  | Encoding (msg : String)
  | Command (msg : String)
  | Storage (msg : String)
  | Other (msg : String)

deriving DecidableEq

/-! ## Byte-level page model -/
/-- A page buffer: byte index to stored value.  Reads truncate `% 256`. -/
def Bytes : Type := Nat → Nat

/-- Write a single byte. -/
def setByte (s : Bytes) (i v : Nat) : Bytes :=
  fun j => if j = i then v else s j

/-- Write a list of bytes starting at `off` (`copy_from_slice`). -/
def writeList (s : Bytes) (off : Nat) : List Nat → Bytes
  | [] => s
  | b :: bs => writeList (setByte s off b) (off + 1) bs

/-- Read one byte (as a `u8` value). -/
def readByte (s : Bytes) (i : Nat) : Nat := s i % 256

/-- Read `n` consecutive bytes starting at `off`. -/
def readBytes (s : Bytes) (off n : Nat) : List Nat :=
  (List.range n).map (fun k => readByte s (off + k))

/-- Little-endian bytes of a `u32` value (`u32::to_le_bytes`). -/
def u32le (v : Nat) : List Nat :=
  [v % 256, v / 256 % 256, v / 65536 % 256, v / 16777216 % 256]

/-- Little-endian bytes of a `u16` value (`u16::to_le_bytes`). -/
def u16le (v : Nat) : List Nat := [v % 256, v / 256 % 256]

/-- Decode a little-endian `u32` at `off` (`u32::from_le_bytes`). -/
def readU32 (s : Bytes) (off : Nat) : Nat :=
  readByte s off + 256 * readByte s (off + 1) +
    65536 * readByte s (off + 2) + 16777216 * readByte s (off + 3)

/-- The all-zero page (`[0u8; 4096]`). -/
def zeroBytes : Bytes := fun _ => 0

/-! ## Layout constants (`src/storage/table.rs`, `src/storage/btree.rs`) -/
def PAGE_SIZE : Nat := 4096

def TABLE_MAX_PAGES : Nat := 100

def TABLESPACE_HEADER_SIZE : Nat := 16

def PAGE_HEADER_SIZE : Nat := 24

def NODE_TYPE_OFFSET : Nat := 0

def NODE_TYPE_SIZE : Nat := 1

def IS_ROOT_OFFSET : Nat := 1

def IS_ROOT_SIZE : Nat := 1

def PARENT_POINTER_OFFSET : Nat := 2

def PARENT_POINTER_SIZE : Nat := 4

def COMMON_NODE_HEADER_SIZE : Nat := 6

def LEAF_NODE_NUM_CELLS_OFFSET : Nat := 6

def LEAF_NODE_NUM_CELLS_SIZE : Nat := 4

def LEAF_NODE_NEXT_LEAF_OFFSET : Nat := 10

def LEAF_NODE_NEXT_LEAF_SIZE : Nat := 4

def LEAF_NODE_HEADER_SIZE : Nat := 14

def LEAF_NODE_KEY_SIZE : Nat := 4

def LEAF_NODE_SPACE_FOR_CELLS : Nat := PAGE_SIZE - LEAF_NODE_HEADER_SIZE

def INTERNAL_NODE_NUM_KEYS_OFFSET : Nat := 6

def INTERNAL_NODE_NUM_KEYS_SIZE : Nat := 4

def INTERNAL_NODE_RIGHT_CHILD_OFFSET : Nat := 10

def INTERNAL_NODE_RIGHT_CHILD_SIZE : Nat := 4

def INTERNAL_NODE_HEADER_SIZE : Nat := 14

def INTERNAL_NODE_CHILD_SIZE : Nat := 4

def INTERNAL_NODE_KEY_SIZE : Nat := 4

def INTERNAL_NODE_CELL_SIZE : Nat := 8

def INTERNAL_NODE_MAX_CELLS : Nat := 3

def INVALID_PAGE_NUM : Nat := 4294967295

/-! ## Node view (`src/storage/btree.rs`) -/
/-- Node type discriminant (`NodeType`). -/
inductive NodeType where
  | NodeLeaf
  | NodeInternal

deriving DecidableEq

/-- `btree::Node`: an owned page buffer plus the row size the leaf-cell
geometry is derived from (`Node::new` stores `leaf_node_value_size`,
`leaf_node_cell_size`, `leaf_node_max_cells`; we keep `row_size` and
derive the rest). -/
structure Node where
  data : Bytes
  row_size : Nat

def Node.leaf_node_value_size (n : Node) : Nat := n.row_size

def Node.leaf_node_cell_size (n : Node) : Nat :=
  LEAF_NODE_KEY_SIZE + n.leaf_node_value_size

def Node.leaf_node_max_cells (n : Node) : Nat :=
  LEAF_NODE_SPACE_FOR_CELLS / n.leaf_node_cell_size

def Node.max_cells (n : Node) : Nat := n.leaf_node_max_cells

/-- `Node::slice_at`: bounds-checked read of `size` bytes at `offset`. -/
def Node.slice_at (n : Node) (off size : Nat) : Except Err (List Nat) :=
  if off + size > PAGE_SIZE then
    .error (.Storage s!"Offset {off + size} exceeds buffer size {PAGE_SIZE}")
  else
    .ok (readBytes n.data off size)

def Node.leaf_node_num_cells (n : Node) : Except Err Nat := do
  let _ ← n.slice_at LEAF_NODE_NUM_CELLS_OFFSET LEAF_NODE_NUM_CELLS_SIZE
  pure (readU32 n.data LEAF_NODE_NUM_CELLS_OFFSET)

def Node.set_leaf_node_num_cells (n : Node) (num : Nat) : Node :=
  { n with data := writeList n.data LEAF_NODE_NUM_CELLS_OFFSET (u32le num) }

/-- `Node::get_leaf_node_cell_offset`. -/
def Node.get_leaf_node_cell_offset (n : Node) (cell_num : Nat) :
    Except Err Nat :=
  if cell_num ≥ n.leaf_node_max_cells then
    .error (.Storage s!"Cell index {cell_num} exceeds max_cells {n.leaf_node_max_cells}")
  else
    let off := LEAF_NODE_HEADER_SIZE + cell_num * n.leaf_node_cell_size
    if off + n.leaf_node_cell_size > PAGE_SIZE then
      .error (.Storage s!"Cell offset {off + n.leaf_node_cell_size} exceeds buffer size {PAGE_SIZE}")
    else
      .ok off

def Node.leaf_node_cell (n : Node) (cell_num : Nat) : Except Err (List Nat) := do
  let off ← n.get_leaf_node_cell_offset cell_num
  pure (readBytes n.data off n.leaf_node_cell_size)

/-- `leaf_node_cell_mut(i).copy_from_slice(src)`: overwrite cell `i`. -/
def Node.write_leaf_node_cell (n : Node) (cell_num : Nat) (src : List Nat) :
    Except Err Node := do
  let off ← n.get_leaf_node_cell_offset cell_num
  pure { n with data := writeList n.data off src }

def Node.leaf_node_value (n : Node) (cell_num : Nat) : Except Err (List Nat) := do
  let off ← n.get_leaf_node_cell_offset cell_num
  pure (readBytes n.data (off + LEAF_NODE_KEY_SIZE) n.leaf_node_value_size)

def Node.set_leaf_node_value (n : Node) (cell_num : Nat) (buf : List Nat) :
    Except Err Node := do
  if buf.length ≠ n.leaf_node_value_size then
    .error (.Storage s!"Value size mismatch (expected {n.leaf_node_value_size}, got {buf.length})")
  else
    let off ← n.get_leaf_node_cell_offset cell_num
    pure { n with data := writeList n.data (off + LEAF_NODE_KEY_SIZE) buf }

def Node.leaf_node_key (n : Node) (cell_num : Nat) : Except Err Nat := do
  let off ← n.get_leaf_node_cell_offset cell_num
  pure (readU32 n.data off)

def Node.set_leaf_node_key (n : Node) (cell_num key : Nat) : Except Err Node := do
  let off ← n.get_leaf_node_cell_offset cell_num
  pure { n with data := writeList n.data off (u32le key) }

def Node.get_node_type (n : Node) : Except Err NodeType := do
  let _ ← n.slice_at NODE_TYPE_OFFSET NODE_TYPE_SIZE
  match readByte n.data NODE_TYPE_OFFSET with
  | 0 => .ok .NodeLeaf
  | 1 => .ok .NodeInternal
  | invalid => .error (.Storage s!"Invalid node type: {invalid}")

def Node.set_node_type (n : Node) (t : NodeType) : Node :=
  let value : Nat := match t with | .NodeLeaf => 0 | .NodeInternal => 1
  { n with data := setByte n.data NODE_TYPE_OFFSET value }

def Node.is_node_root (n : Node) : Except Err Bool := do
  let _ ← n.slice_at IS_ROOT_OFFSET IS_ROOT_SIZE
  pure (readByte n.data IS_ROOT_OFFSET = 1)

def Node.set_node_root (n : Node) (is_root : Bool) : Node :=
  { n with data := setByte n.data IS_ROOT_OFFSET (if is_root then 1 else 0) }

def Node.internal_node_num_keys (n : Node) : Except Err Nat := do
  let _ ← n.slice_at INTERNAL_NODE_NUM_KEYS_OFFSET INTERNAL_NODE_NUM_KEYS_SIZE
  pure (readU32 n.data INTERNAL_NODE_NUM_KEYS_OFFSET)

def Node.set_internal_node_num_keys (n : Node) (num_keys : Nat) : Node :=
  { n with data := writeList n.data INTERNAL_NODE_NUM_KEYS_OFFSET (u32le num_keys) }

def Node.internal_node_right_child (n : Node) : Except Err Nat := do
  let _ ← n.slice_at INTERNAL_NODE_RIGHT_CHILD_OFFSET INTERNAL_NODE_RIGHT_CHILD_SIZE
  pure (readU32 n.data INTERNAL_NODE_RIGHT_CHILD_OFFSET)

def Node.set_internal_node_right_child (n : Node) (right_child : Nat) : Node :=
  { n with data := writeList n.data INTERNAL_NODE_RIGHT_CHILD_OFFSET (u32le right_child) }

def Node.internal_node_cell_offset (cell_num : Nat) : Nat :=
  INTERNAL_NODE_HEADER_SIZE + cell_num * INTERNAL_NODE_CELL_SIZE

def Node.internal_node_cell (n : Node) (cell_num : Nat) : Except Err (List Nat) :=
  n.slice_at (Node.internal_node_cell_offset cell_num) INTERNAL_NODE_CELL_SIZE

/-- `internal_node_cell_mut(i).copy_from_slice(src)` (bounds check as in
`slice_at_mut`). -/
def Node.write_internal_node_cell (n : Node) (cell_num : Nat) (src : List Nat) :
    Except Err Node :=
  if Node.internal_node_cell_offset cell_num + INTERNAL_NODE_CELL_SIZE > PAGE_SIZE then
    .error (.Storage "Offset exceeds buffer size")
  else
    .ok { n with data := writeList n.data (Node.internal_node_cell_offset cell_num) src }

/-- `internal_node_child_mut(i).copy_from_slice(&v.to_le_bytes())`: write
the child pointer at index `i`, `i == num_keys` addressing `right_child`. -/
def Node.write_internal_node_child (n : Node) (cell_num v : Nat) :
    Except Err Node := do
  let num_keys ← n.internal_node_num_keys
  if cell_num > num_keys then
    .error (.Storage s!"Cell index {cell_num} exceeds num_keys {num_keys}")
  else if cell_num = num_keys then
    pure (n.set_internal_node_right_child v)
  else if Node.internal_node_cell_offset cell_num + INTERNAL_NODE_CHILD_SIZE > PAGE_SIZE then
    .error (.Storage "Offset exceeds buffer size")
  else
    pure { n with data := writeList n.data (Node.internal_node_cell_offset cell_num) (u32le v) }

def Node.internal_node_child (n : Node) (child_num : Nat) : Except Err Nat := do
  let num_keys ← n.internal_node_num_keys
  if child_num > num_keys then
    .error (.Storage s!"Child index {child_num} exceeds num_keys {num_keys}")
  else
    let child ←
      if child_num = num_keys then
        n.internal_node_right_child
      else do
        let _ ← n.internal_node_cell child_num
        pure (readU32 n.data (Node.internal_node_cell_offset child_num))
    if child = INVALID_PAGE_NUM then
      .error (.Storage s!"Child {child_num} is invalid page number")
    else
      pure child

def Node.set_internal_node_child (n : Node) (cell_num child_num : Nat) :
    Except Err Node :=
  n.write_internal_node_child cell_num child_num

def Node.internal_node_key (n : Node) (cell_num : Nat) : Except Err Nat := do
  let _ ← n.internal_node_cell cell_num
  pure (readU32 n.data (Node.internal_node_cell_offset cell_num + INTERNAL_NODE_CHILD_SIZE))

def Node.set_internal_node_key (n : Node) (cell_num key_value : Nat) :
    Except Err Node :=
  if Node.internal_node_cell_offset cell_num + INTERNAL_NODE_CELL_SIZE > PAGE_SIZE then
    .error (.Storage "Offset exceeds buffer size")
  else
    .ok { n with data := (writeList n.data
      (Node.internal_node_cell_offset cell_num + INTERNAL_NODE_CHILD_SIZE)
      (u32le key_value)) }

/-- `Node::get_node_max_key` (the non-recursive `Node` method): last
internal key, or last leaf key.  When the node is empty the Rust
`num_cells - 1` underflows and the subsequent cell access fails with a
`Storage` bounds error; we return that error directly. -/
def Node.get_node_max_key (n : Node) : Except Err Nat := do
  match ← n.get_node_type with
  | .NodeInternal =>
    let k ← n.internal_node_num_keys
    if k = 0 then .error (.Storage "Cell index underflow")
    else n.internal_node_key (k - 1)
  | .NodeLeaf =>
    let c ← n.leaf_node_num_cells
    if c = 0 then .error (.Storage "Cell index underflow")
    else n.leaf_node_key (c - 1)

def Node.leaf_node_right_split_count (n : Node) : Nat :=
  (n.leaf_node_max_cells + 1) / 2

def Node.leaf_node_left_split_count (n : Node) : Nat :=
  (n.leaf_node_max_cells + 1) - n.leaf_node_right_split_count

def Node.leaf_node_next_leaf (n : Node) : Except Err Nat := do
  let _ ← n.slice_at LEAF_NODE_NEXT_LEAF_OFFSET LEAF_NODE_NEXT_LEAF_SIZE
  pure (readU32 n.data LEAF_NODE_NEXT_LEAF_OFFSET)

def Node.set_leaf_node_next_leaf (n : Node) (next_leaf : Nat) : Node :=
  { n with data := writeList n.data LEAF_NODE_NEXT_LEAF_OFFSET (u32le next_leaf) }

def Node.node_parent (n : Node) : Except Err Nat := do
  let _ ← n.slice_at PARENT_POINTER_OFFSET PARENT_POINTER_SIZE
  pure (readU32 n.data PARENT_POINTER_OFFSET)

def Node.set_node_parent (n : Node) (parent : Nat) : Node :=
  { n with data := writeList n.data PARENT_POINTER_OFFSET (u32le parent) }

/-- The binary-search loop of `Node::internal_node_find_child`, with
fuel (`max - min` strictly decreases, so `num_keys + 1` fuel always
suffices). -/
def internalFindChildLoop (n : Node) (key : Nat) :
    Nat → Nat → Nat → Except Err Nat
  | 0, _, _ => .error (.Other "loop limit")
  | fuel + 1, min, max =>
    if min < max then do
      let key_at_mid ← n.internal_node_key ((min + max) / 2)
      if key ≤ key_at_mid then
        internalFindChildLoop n key fuel min ((min + max) / 2)
      else
        internalFindChildLoop n key fuel ((min + max) / 2 + 1) max
    else
      .ok min

/-- `Node::internal_node_find_child`. -/
def Node.internal_node_find_child (n : Node) (key : Nat) : Except Err Nat := do
  let num_keys ← n.internal_node_num_keys
  internalFindChildLoop n key (num_keys + 1) 0 num_keys

/-- `Node::update_internal_node_key`. -/
def Node.update_internal_node_key (n : Node) (old_key new_key : Nat) :
    Except Err Node := do
  let old_child_index ← n.internal_node_find_child old_key
  n.set_internal_node_key old_child_index new_key

/-! ## Columns, schema, rows (`src/storage/column.rs`, `src/storage/schema.rs`,
`src/storage/row.rs`) -/
/-- `ColumnType` (the `u16` of `VARCHAR` becomes a `Nat`). -/
inductive ColumnType where
  | INT
  | SMALLINT
  | TINYINT
  | BIGINT
  | FLOAT
  | DOUBLE
  | VARCHAR (max_length : Nat)
  | TEXT
  | DATETIME
  | TIMESTAMP
  | BOOLEAN

deriving DecidableEq

/-- `ColumnValue`.  `f32`/`f64` are carried as their IEEE-754 bit
patterns (a `Nat`), which is exactly what `bincode` reads and writes;
integer variants are `Int` with the width enforced at en/decoding. -/
inductive ColumnValue where
  | Int (v : Int)
  | SmallInt (v : Int)
  | TinyInt (v : Int)
  | BigInt (v : Int)
  | Float (bits : Nat)
  | Double (bits : Nat)
  | VarChar (bytes : List Nat)
  | Text (bytes : List Nat)
  | DateTime (bytes : List Nat)
  | Timestamp (bytes : List Nat)
  | Boolean (v : Bool)

deriving DecidableEq

structure ColumnSchema where
  name : String
  type_ : ColumnType
  default : Option String
  is_primary : Bool
  is_nullable : Bool

deriving DecidableEq

structure TableSchema where
  columns : List ColumnSchema
  version : Nat

deriving DecidableEq

def TEXT_SIZE : Nat := 65535

def DATETIME_SIZE : Nat := 8

def TIMESTAMP_SIZE : Nat := 8

def VARCHAR_MAXSIZE : Nat := 2048

/-- `ColumnType::fixed_size`. -/
def ColumnType.fixed_size : ColumnType → Nat
  | .INT => 8
  | .SMALLINT => 2
  | .TINYINT => 1
  | .BIGINT => 16
  | .FLOAT => 4
  | .DOUBLE => 8
  | .TEXT => TEXT_SIZE
  | .DATETIME => DATETIME_SIZE
  | .TIMESTAMP => TIMESTAMP_SIZE
  | .VARCHAR max_len => max_len
  | .BOOLEAN => 1

/-- `TableSchema::get_row_size`. -/
def TableSchema.get_row_size (s : TableSchema) : Nat :=
  (s.columns.map (fun c => c.type_.fixed_size)).sum

/-- `Row`: the `HashMap<String, ColumnValue>` is modelled as an
association list; only `get`/`insert` are observed. -/
structure Row where
  inner : List (String × ColumnValue)

deriving DecidableEq

/-- `HashMap::get`. -/
def Row.get (r : Row) (name : String) : Option ColumnValue :=
  r.inner.lookup name

/-- `HashMap::insert` (replace any existing binding). -/
def Row.insert (r : Row) (name : String) (v : ColumnValue) : Row :=
  { inner := (name, v) :: r.inner.filter (fun p => p.1 ≠ name) }

/-- `Row::get_id`: first `is_primary` column; `v as u32` is the
two's-complement truncation `v mod 2^32`. -/
def Row.get_id (r : Row) (schema : TableSchema) : Except Err Nat :=
  match schema.columns.find? (fun col_schema => col_schema.is_primary) with
  | none => .error (.Schema "No primary key column defined")
  | some primary_col =>
    match r.get primary_col.name with
    | none => .error (.Schema "Primary key column missing in the row")
    | some (ColumnValue.Int v) => .ok (v % (2 ^ 32 : Int)).toNat
    | some _ => .error (.Schema "Invalid primary key type")

/-- The built-in schema `table::SCHEMA` (note: both `id` and `email`
carry `is_primary: true` in the source). -/
def SCHEMA : TableSchema :=
  { columns :=
      [ { name := "id", type_ := .INT, default := none,
          is_primary := true, is_nullable := false },
        { name := "username", type_ := .VARCHAR 32, default := some "guest",
          is_primary := false, is_nullable := false },
        { name := "email", type_ := .VARCHAR 255, default := none,
          is_primary := true, is_nullable := false } ],
    version := 0 }

/-! ## The `bincode` standard configuration (used by
`src/storage/encoding.rs` and the file headers)

`config::standard()` uses little-endian, *variable-length* integer
encoding: `u < 251` is one byte; otherwise a class marker `251`/`252`/
`253`/`254` followed by the value as a little-endian `u16`/`u32`/`u64`/
`u128`.  Signed integers wider than one byte are zigzag-transformed
first; `u8`/`i8`/`bool` are a single raw byte; floats are their raw
little-endian IEEE bits. -/
/-- `n`-byte little-endian representation. -/
def leBytes (n v : Nat) : List Nat :=
  (List.range n).map (fun k => v / 256 ^ k % 256)

/-- Value of a little-endian byte list. -/
def leVal : List Nat → Nat
  | [] => 0
  | b :: bs => b % 256 + 256 * leVal bs

/-- Variable-length encoding of an unsigned value. -/
def varintEncodeU (u : Nat) : List Nat :=
  if u < 251 then [u]
  else if u < 2 ^ 16 then 251 :: leBytes 2 u
  else if u < 2 ^ 32 then 252 :: leBytes 4 u
  else if u < 2 ^ 64 then 253 :: leBytes 8 u
  else 254 :: leBytes 16 u

/-- Zigzag transform of a signed value. -/
def zigzag (v : Int) : Nat :=
  if 0 ≤ v then 2 * v.toNat else 2 * (-v).toNat - 1

/-- Inverse zigzag transform. -/
def unzigzag (u : Nat) : Int :=
  if u % 2 = 0 then (u / 2 : Nat) else -((u / 2 : Nat) : Int) - 1

/-- Variable-length decoding, restricted to class markers `≤ maxMarker`
(the decoder for an `n`-byte integer type rejects wider classes).
Returns the value and the number of bytes consumed. -/
def varintDecodeU (maxMarker : Nat) : List Nat → Option (Nat × Nat)
  | [] => none
  | b :: rest =>
    if b < 251 then some (b, 1)
    else if b > maxMarker then none
    else if b = 251 then
      if rest.length < 2 then none else some (leVal (rest.take 2), 3)
    else if b = 252 then
      if rest.length < 4 then none else some (leVal (rest.take 4), 5)
    else if b = 253 then
      if rest.length < 8 then none else some (leVal (rest.take 8), 9)
    else if b = 254 then
      if rest.length < 16 then none else some (leVal (rest.take 16), 17)
    else none

/-! ### UTF-8 lossy decoding (`String::from_utf8_lossy`)

Valid UTF-8 sequences are kept byte-for-byte; each maximal invalid
prefix is replaced by U+FFFD (bytes `EF BF BD`), following the
substitution-of-maximal-subparts policy the Rust standard library
implements. -/
/-- Continuation byte `0x80..=0xBF`. -/
def isCont (b : Nat) : Bool := 128 ≤ b && b ≤ 191

/-- The replacement character U+FFFD as UTF-8 bytes. -/
def replacementChar : List Nat := [239, 191, 189]

/-- Range check for the second byte of a sequence, given its lead. -/
def utf8SecondOk (lead b : Nat) : Bool :=
  if lead = 224 then 160 ≤ b && b ≤ 191
  else if lead = 237 then 128 ≤ b && b ≤ 159
  else if lead = 240 then 144 ≤ b && b ≤ 191
  else if lead = 244 then 128 ≤ b && b ≤ 143
  else isCont b

def utf8Lossy : List Nat → List Nat
  | [] => []
  | b :: rest =>
    if b < 128 then b :: utf8Lossy rest
    else if 194 ≤ b && b ≤ 223 then
      match rest with
      | [] => replacementChar
      | c1 :: rest1 =>
        if isCont c1 then b :: c1 :: utf8Lossy rest1
        else replacementChar ++ utf8Lossy (c1 :: rest1)
    else if 224 ≤ b && b ≤ 239 then
      match rest with
      | [] => replacementChar
      | c1 :: rest1 =>
        if utf8SecondOk b c1 then
          match rest1 with
          | [] => replacementChar
          | c2 :: rest2 =>
            if isCont c2 then b :: c1 :: c2 :: utf8Lossy rest2
            else replacementChar ++ utf8Lossy (c2 :: rest2)
        else replacementChar ++ utf8Lossy (c1 :: rest1)
    else if 240 ≤ b && b ≤ 244 then
      match rest with
      | [] => replacementChar
      | c1 :: rest1 =>
        if utf8SecondOk b c1 then
          match rest1 with
          | [] => replacementChar
          | c2 :: rest2 =>
            if isCont c2 then
              match rest2 with
              | [] => replacementChar
              | c3 :: rest3 =>
                if isCont c3 then b :: c1 :: c2 :: c3 :: utf8Lossy rest3
                else replacementChar ++ utf8Lossy (c3 :: rest3)
            else replacementChar ++ utf8Lossy (c2 :: rest2)
        else replacementChar ++ utf8Lossy (c1 :: rest1)
    else
      replacementChar ++ utf8Lossy rest

/-- `str::trim_end_matches('\0')`, seen on the byte level (a trailing
`'\0'` char is exactly a trailing `0` byte). -/
def trimEndZeros (l : List Nat) : List Nat :=
  (l.reverse.dropWhile (fun b => b = 0)).reverse

/-! ## Row codec (`src/storage/encoding.rs`) -/
/-- `bincode::encode_into_slice` into a zeroed buffer of `max_size`
bytes: the encoding at the front, zeros after; error if it does not
fit. -/
def encodeIntoSlice (enc : List Nat) (max_size : Nat) (what : String) :
    Except Err (List Nat) :=
  if enc.length > max_size then
    .error (.Encoding s!"Failed to encode {what}.")
  else
    .ok (enc ++ List.replicate (max_size - enc.length) 0)

/-- `ColumnValue::to_fixed_bytes`.  The two `copy_from_slice` calls of
the text/blob arms panic in Rust when the lengths disagree; the model
returns an `Other` error for those cases. -/
def ColumnValue.to_fixed_bytes (v : ColumnValue) (max_size : Nat) :
    Except Err (List Nat) :=
  match v with
  | .Int v => encodeIntoSlice (varintEncodeU (zigzag v)) max_size "INT"
  | .SmallInt v => encodeIntoSlice (varintEncodeU (zigzag v)) max_size "SMALLINT"
  | .TinyInt v => encodeIntoSlice [(v % 256).toNat] max_size "TINYINT"
  | .BigInt v => encodeIntoSlice (varintEncodeU (zigzag v)) max_size "BIGINT"
  | .Float bits => encodeIntoSlice (leBytes 4 bits) max_size "FLOAT"
  | .Double bits => encodeIntoSlice (leBytes 8 bits) max_size "DOUBLE"
  | .Text s =>
    if s.length > TEXT_SIZE then
      .error (.Schema s!"Text exceeds max length: {s.length} > {TEXT_SIZE}")
    else if s.length ≠ TEXT_SIZE ∨ max_size < TEXT_SIZE then
      .error (.Other "copy length mismatch")
    else
      .ok (s ++ List.replicate (max_size - TEXT_SIZE) 0)
  | .DateTime bytes =>
    if bytes.length ≠ max_size then .error (.Other "copy length mismatch")
    else .ok bytes
  | .Timestamp bytes =>
    if bytes.length ≠ max_size then .error (.Other "copy length mismatch")
    else .ok bytes
  | .VarChar s =>
    if s.length > VARCHAR_MAXSIZE then
      .error (.Schema s!"Varchar exceeds max length: {s.length} > {VARCHAR_MAXSIZE}")
    else if s.length > max_size then
      .error (.Other "copy length mismatch")
    else
      .ok (s ++ List.replicate (max_size - s.length) 0)
  | .Boolean v => encodeIntoSlice [if v then 1 else 0] max_size "BOOLEAN"

/-- `ColumnType::from_fixed_bytes`. -/
def ColumnType.from_fixed_bytes (t : ColumnType) (buffer : List Nat) :
    Except Err ColumnValue :=
  match t with
  | .INT =>
    match varintDecodeU 253 buffer with
    | some (u, _) => .ok (.Int (unzigzag u))
    | none => .error (.Encoding "Failed to decode INT.")
  | .SMALLINT =>
    match varintDecodeU 251 buffer with
    | some (u, _) => .ok (.SmallInt (unzigzag u))
    | none => .error (.Encoding "Failed to decode SMALLINT.")
  | .TINYINT =>
    match buffer with
    | b :: _ => .ok (.TinyInt (if b % 256 < 128 then (b % 256 : Nat) else (b % 256 : Nat) - 256))
    | [] => .error (.Encoding "Failed to decode TINYINT.")
  | .BIGINT =>
    match varintDecodeU 254 buffer with
    | some (u, _) => .ok (.BigInt (unzigzag u))
    | none => .error (.Encoding "Failed to decode BIGINT.")
  | .FLOAT =>
    if buffer.length < 4 then .error (.Encoding "Failed to decode FLOAT.")
    else .ok (.Float (leVal (buffer.take 4)))
  | .DOUBLE =>
    if buffer.length < 8 then .error (.Encoding "Failed to decode DOUBLE.")
    else .ok (.Double (leVal (buffer.take 8)))
  | .TEXT => .ok (.Text (trimEndZeros (utf8Lossy buffer)))
  | .DATETIME => .ok (.DateTime buffer)
  | .TIMESTAMP => .ok (.Timestamp buffer)
  | .VARCHAR _ => .ok (.VarChar (trimEndZeros (utf8Lossy buffer)))
  | .BOOLEAN =>
    match buffer with
    | 0 :: _ => .ok (.Boolean false)
    | 1 :: _ => .ok (.Boolean true)
    | _ => .error (.Encoding "Failed to decode BOOLEAN.")

/-- The per-column body of `encode_row`. -/
def encodeRowColumn (row : Row) (result : List Nat) (column : ColumnSchema) :
    Except Err (List Nat) := do
  match row.get column.name with
  | none => .error (.Schema s!"Missing column: {column.name}")
  | some value => do
    let fixed_bytes ← value.to_fixed_bytes column.type_.fixed_size
    pure (result ++ fixed_bytes)

/-- `encoding::encode_row`. -/
def encode_row (schema : TableSchema) (row : Row) : Except Err (List Nat) :=
  schema.columns.foldlM (encodeRowColumn row) []

/-- The per-column body of `decode_row` (`size` and `slice` inlined). -/
def decodeRowColumn (encoded : List Nat) (st : Row × Nat) (column : ColumnSchema) :
    Except Err (Row × Nat) :=
  if st.2 + column.type_.fixed_size > encoded.length then
    .error (.Schema s!"Not enough data for column {column.name}")
  else do
    let v ← column.type_.from_fixed_bytes
      ((encoded.drop st.2).take column.type_.fixed_size)
    pure (st.1.insert column.name v, st.2 + column.type_.fixed_size)

/-- `encoding::decode_row`. -/
def decode_row (schema : TableSchema) (encoded : List Nat) : Except Err Row :=
  if encoded.length ≠ schema.get_row_size then
    .error (.Schema s!"Encoded row size mismatch: expected {schema.get_row_size}, got {encoded.length}")
  else do
    let st ← schema.columns.foldlM (decodeRowColumn encoded) (⟨[]⟩, 0)
    pure st.1

/-! ## Pager and table (`src/storage/table.rs`) -/
/-- `Pager`: the `heapless::Vec<Arc<Mutex<Node>>, TABLE_MAX_PAGES>` of
page buffers, plus the row size every `Node` view is built with. -/
structure Pager where
  pages : List Bytes
  row_size : Nat

/-- `Pager::push` as used by its callers: the `heapless` push fails when
the vector is at capacity, and every call site discards that error
(`if let Err(_) = self.pages.push(..) {}`), so at capacity this is a
silent no-op. -/
def Pager.push (p : Pager) (node : Bytes) : Pager :=
  if p.pages.length < TABLE_MAX_PAGES then
    { p with pages := p.pages ++ [node] }
  else p

/-- `Pager::try_create`: if `page_num` is not yet allocated, append one
freshly zeroed page initialized as an empty leaf, root iff it is the
first page; always returns `Ok(())`. -/
def Pager.try_create (p : Pager) (page_num : Nat) : Pager :=
  if page_num ≥ p.pages.length then
    let n := Node.mk zeroBytes p.row_size
    let n := n.set_node_type .NodeLeaf
    let n := n.set_leaf_node_num_cells 0
    let n := n.set_node_root (p.pages.length = 0)
    p.push n.data
  else p

/-- `Pager::get` (the `try_lock` of the single-threaded engine always
succeeds on distinct pages; see the module comment). -/
def Pager.get (p : Pager) (page_num : Nat) : Except Err Node :=
  match p.pages[page_num]? with
  | some d => .ok (Node.mk d p.row_size)
  | none => .error (.Storage s!"Memory page {page_num} not found.")

/-- Model plumbing: dropping a `MutexGuard` makes the mutations applied
through it visible; we re-store the page buffer at that point. -/
def Pager.commit (p : Pager) (page_num : Nat) (n : Node) : Pager :=
  { p with pages := p.pages.set page_num n.data }

def Pager.len (p : Pager) : Nat := p.pages.length

def Pager.get_unused_page_num (p : Pager) : Nat := p.pages.length

/-- `Pager::get_node_max_key` (the recursive pager method): descend
`right_child` pointers until a leaf.  `fuel` bounds the descent; in Rust
a cyclic chain fails on the nested `try_lock` with a `LockTable` error. -/
def Pager.get_node_max_key (p : Pager) : Nat → Node → Except Err Nat
  | 0, _ => .error (.LockTable "Failed to lock the node")
  | fuel + 1, node => do
    if (← node.get_node_type) = NodeType.NodeLeaf then
      let c ← node.leaf_node_num_cells
      if c = 0 then .error (.Storage "Cell index underflow")
      else node.leaf_node_key (c - 1)
    else do
      let right_child ← p.get (← node.internal_node_right_child)
      p.get_node_max_key fuel right_child

/-- `Pager::get_node_max_key` with always-sufficient fuel: an acyclic
descent visits pairwise distinct pages, so `len + 1` steps reach a leaf. -/
def Pager.node_max_key (p : Pager) (node : Node) : Except Err Nat :=
  p.get_node_max_key (p.len + 1) node

/-- `Pager::table_n_recs`: sum of `num_cells` over the leaf pages. -/
def Pager.table_n_recs (p : Pager) : Except Err Nat :=
  (List.range p.pages.length).foldlM
    (fun total i => do
      let node ← p.get i
      if (← node.get_node_type) = NodeType.NodeLeaf then
        pure (total + (← node.leaf_node_num_cells))
      else
        pure total)
    0

/-- `table::Table` (the `name`/`path`/`database` strings play no role in
the storage behaviour and are omitted). -/
structure Table where
  root_page_num : Nat
  pager : Pager
  schema : TableSchema

/-! ## Cursor (`src/storage/cursor.rs`) -/
structure Cursor where
  page_num : Nat
  cell_num : Nat
  end_of_table : Bool

deriving DecidableEq

/-- `Cursor::read_value`: copy the current cell's value bytes out. -/
def Cursor.read_value (t : Table) (c : Cursor) : Except Err (List Nat) := do
  let page ← t.pager.get c.page_num
  page.leaf_node_value c.cell_num

/-- The binary-search loop inside `Cursor::leaf_node_find`: returns the
matching index, or `min_index` once the range is empty.  The range
shrinks strictly, so `num_cells + 1` fuel always suffices. -/
def leafNodeFindLoop (node : Node) (key : Nat) :
    Nat → Nat → Nat → Except Err Nat
  | 0, min_index, _ => .ok min_index
  | fuel + 1, min_index, one_past_max_index =>
    if one_past_max_index ≠ min_index then
      let index := (min_index + one_past_max_index) / 2
      match node.leaf_node_key index with
      | .error e => .error e
      | .ok key_at_index =>
        if key = key_at_index then .ok index
        else if key < key_at_index then
          leafNodeFindLoop node key fuel min_index index
        else
          leafNodeFindLoop node key fuel (index + 1) one_past_max_index
    else .ok min_index

/-- `Cursor::leaf_node_find`. -/
def Cursor.leaf_node_find (t : Table) (page_num key : Nat) :
    Except Err Cursor := do
  let node ← t.pager.get page_num
  let num_cells ← node.leaf_node_num_cells
  let cell_num ← leafNodeFindLoop node key (num_cells + 1) 0 num_cells
  pure { page_num, cell_num, end_of_table := false }

/-- `Cursor::find`: note that the source dispatch on the node type is
commented out ("Need to implement searching an internal node"); the
binary search always runs directly on the root page. -/
def Cursor.find (t : Table) (key : Nat) : Except Err Cursor :=
  Cursor.leaf_node_find t t.root_page_num key

/-- `Cursor::start`. -/
def Cursor.start (t : Table) : Except Err Cursor := do
  let page_num := t.root_page_num
  let cell_num := 0
  let root ← t.pager.get t.root_page_num
  let num_cells ← root.leaf_node_num_cells
  pure { page_num, cell_num, end_of_table := num_cells = 0 }

/-- `Cursor::advance`: increment `cell_num`; set `end_of_table` once it
reaches `num_cells` of the current page.  (No `next_leaf` following.) -/
def Cursor.advance (t : Table) (c : Cursor) : Except Err Cursor := do
  let node ← t.pager.get c.page_num
  let cell_num := c.cell_num + 1
  let num_cells ← node.leaf_node_num_cells
  pure { c with
    cell_num,
    end_of_table := if cell_num ≥ num_cells then true else c.end_of_table }

/-! ## The state-passing engine monad

A Rust function mutating the table through `&mut` becomes a function
`Table → Except Err α × Table`; the state reached so far is preserved
on the error path, matching §7 of the engine's error policy (no
rollback). -/
def EngineM (α : Type) : Type := Table → Except Err α × Table

def EngineM.pure' {α : Type} (a : α) : EngineM α := fun t => (.ok a, t)

def EngineM.bind' {α β : Type} (x : EngineM α) (f : α → EngineM β) :
    EngineM β := fun t =>
  match x t with
  | (.ok a, t') => f a t'
  | (.error e, t') => (.error e, t')

instance : Monad EngineM where
  pure := EngineM.pure'
  bind := EngineM.bind'

/-- Raise an error, keeping the state. -/
def throwE {α : Type} (e : Err) : EngineM α := fun t => (.error e, t)

/-- Lift a pure `Result` (state untouched). -/
def liftE {α : Type} (x : Except Err α) : EngineM α := fun t => (x, t)

/-- Read the table state. -/
def getT : EngineM Table := fun t => (.ok t, t)

/-- Replace the table state. -/
def setT (t' : Table) : EngineM Unit := fun _ => (.ok (), t')

/-- Update the pager. -/
def modifyPager (f : Pager → Pager) : EngineM Unit :=
  fun t => (.ok (), { t with pager := f t.pager })

/-- Commit a guard-held page back into the pager (guard drop). -/
def commitPage (page_num : Nat) (n : Node) : EngineM Unit :=
  modifyPager (fun p => p.commit page_num n)

/-! ## B+-tree operations (`src/storage/table.rs`) -/
/-- `initialize_leaf_node`. -/
def initialize_leaf_node (node : Node) : Node :=
  let node := node.set_node_type .NodeLeaf
  let node := node.set_node_root false
  let node := node.set_leaf_node_num_cells 0
  node.set_leaf_node_next_leaf 0

/-- `initialize_internal_node`. -/
def initialize_internal_node (node : Node) : Node :=
  let node := node.set_node_type .NodeInternal
  let node := node.set_node_root false
  let node := node.set_internal_node_num_keys 0
  node.set_internal_node_right_child INVALID_PAGE_NUM

/-- `create_new_root`: copy the current root into a freshly allocated
left child, re-initialize the root page as an internal node over the
two children. -/
def create_new_root (right_child_page_num : Nat) : EngineM Unit := do
  let t ← getT
  let left_child_page_num := t.pager.get_unused_page_num
  modifyPager (fun p => p.try_create right_child_page_num)
  modifyPager (fun p => p.try_create left_child_page_num)
  let t ← getT
  let root ← liftE (t.pager.get t.root_page_num)
  let right_child ← liftE (t.pager.get right_child_page_num)
  let left_child ← liftE (t.pager.get left_child_page_num)
  -- left_child.data.copy_from_slice(&root.data)
  let left_child := { left_child with data := root.data }
  let left_child := left_child.set_node_root false
  let root := initialize_internal_node root
  let root := root.set_node_root true
  let root := root.set_internal_node_num_keys 1
  let root ← liftE (root.write_internal_node_child 0 left_child_page_num)
  let left_child_max_key ← liftE (t.pager.node_max_key left_child)
  let root ← liftE (root.set_internal_node_key 0 left_child_max_key)
  let root := root.set_internal_node_right_child right_child_page_num
  let left_child := left_child.set_node_parent t.root_page_num
  let right_child := right_child.set_node_parent t.root_page_num
  commitPage t.root_page_num root
  commitPage right_child_page_num right_child
  commitPage left_child_page_num left_child

/-- The cell-shifting loop of `internal_node_insert` ("make room for the
new cell"), over the descending index sequence
`(index + 1 ..= original_num_keys).rev()`; `source_parent` is the clone
taken before the loop. -/
def internalShiftLoop (source_parent : Node) :
    List Nat → Node → Except Err Node
  | [], parent => .ok parent
  | i :: rest, parent => do
    let src ← source_parent.internal_node_cell (i - 1)
    let parent ← parent.write_internal_node_cell i src
    internalShiftLoop source_parent rest parent

mutual

/-- `internal_node_insert`.  `fuel` bounds the mutual recursion with
`internal_node_split_and_insert` (unbounded in the source). -/
def internal_node_insert :
    Nat → Nat → Nat → EngineM Unit
  | 0, _, _ => throwE (.Other "recursion limit")
  | fuel + 1, parent_page_num, child_page_num => do
    let t ← getT
    let parent ← liftE (t.pager.get parent_page_num)
    let child ← liftE (t.pager.get child_page_num)
    let child_max_key ← liftE (t.pager.node_max_key child)
    let index ← liftE (parent.internal_node_find_child child_max_key)
    let original_num_keys ← liftE parent.internal_node_num_keys
    let parent := parent.set_internal_node_num_keys (original_num_keys + 1)
    if original_num_keys ≥ INTERNAL_NODE_MAX_CELLS then do
      -- drop(parent); drop(child): the pre-incremented num_keys becomes
      -- visible before delegating to the split.
      commitPage parent_page_num parent
      internal_node_split_and_insert fuel parent_page_num child_page_num
    else do
      let right_child_page_num ← liftE parent.internal_node_right_child
      if right_child_page_num = INVALID_PAGE_NUM then do
        -- An internal node with a right child of INVALID_PAGE_NUM is empty
        let parent := parent.set_internal_node_right_child child_page_num
        commitPage parent_page_num parent
      else do
        let right_child ← liftE (t.pager.get right_child_page_num)
        let parent := parent.set_internal_node_num_keys (original_num_keys + 1)
        let right_max ← liftE (t.pager.node_max_key right_child)
        if child_max_key > right_max then do
          -- Replace right child
          let parent ← liftE
            (parent.write_internal_node_child original_num_keys right_child_page_num)
          let right_max2 ← liftE (t.pager.node_max_key right_child)
          let parent ← liftE (parent.set_internal_node_key original_num_keys right_max2)
          let parent := parent.set_internal_node_right_child child_page_num
          commitPage parent_page_num parent
        else do
          -- Make room for the new cell
          let source_parent := parent
          let idxs := (List.range' (index + 1) (original_num_keys - index)).reverse
          let parent ← liftE (internalShiftLoop source_parent idxs parent)
          let parent ← liftE (parent.set_internal_node_child index child_page_num)
          let parent ← liftE (parent.set_internal_node_key index child_max_key)
          commitPage parent_page_num parent

/-- `internal_node_split_and_insert`.  (Transcribed mechanically; note
that in the non-root branch the source fetches `new_page_num` from the
pager without ever creating it, and that the single iteration of the
move loop is the Rust range `(MAX/2 + 1 .. MAX).rev() = [2]`.) -/
def internal_node_split_and_insert :
    Nat → Nat → Nat → EngineM Unit
  | 0, _, _ => throwE (.Other "recursion limit")
  | fuel + 1, parent_page_num, child_page_num => do
    let old_page_num := parent_page_num
    let t ← getT
    -- Precompute all values that require immutable borrows
    let old_node ← liftE (t.pager.get old_page_num)
    let child ← liftE (t.pager.get child_page_num)
    let old_max ← liftE (t.pager.node_max_key old_node)
    let child_max ← liftE (t.pager.node_max_key child)
    let splitting_root ← liftE old_node.is_node_root
    let old_node_parent ← liftE old_node.node_parent
    let old_num_keys ← liftE old_node.internal_node_num_keys
    let right_child_page_num ← liftE old_node.internal_node_right_child
    let new_page_num := t.pager.get_unused_page_num
    -- Initialize the parent node
    let parent_id ←
      if splitting_root then do
        create_new_root new_page_num
        let t ← getT
        pure t.root_page_num
      else do
        let t ← getT
        let new_node ← liftE (t.pager.get new_page_num)
        let new_node := initialize_internal_node new_node
        commitPage new_page_num new_node
        pure old_node_parent
    -- Split the old node and move keys/children
    let t ← getT
    let old_node ← liftE (t.pager.get old_page_num)
    let current_num_keys := old_num_keys
    -- Move the right child to the new node
    let cur ← liftE (t.pager.get right_child_page_num)
    let cur := cur.set_node_parent new_page_num
    commitPage right_child_page_num cur
    let old_node := old_node.set_internal_node_right_child INVALID_PAGE_NUM
    -- Collect children to move (the range is the single index 2)
    let cur_page_num ← liftE (old_node.internal_node_child 2)
    let children_to_move := [cur_page_num]
    let current_num_keys := current_num_keys - 1
    let old_node := old_node.set_internal_node_num_keys current_num_keys
    -- Update the old node's right child
    let new_right_child ← liftE (old_node.internal_node_child (current_num_keys - 1))
    let old_node := old_node.set_internal_node_right_child new_right_child
    let current_num_keys := current_num_keys - 1
    let old_node := old_node.set_internal_node_num_keys current_num_keys
    -- Drop old_node borrow before mutable operations
    commitPage old_page_num old_node
    -- Perform insertions into the new node
    let _ ← children_to_move.foldlM
      (fun _ cur_page_num => do
        internal_node_insert fuel new_page_num cur_page_num
        let t ← getT
        let cur ← liftE (t.pager.get cur_page_num)
        let cur := cur.set_node_parent new_page_num
        commitPage cur_page_num cur)
      ()
    -- Compute max_after_split and determine destination
    let t ← getT
    let old_node2 ← liftE (t.pager.get old_page_num)
    let max_after_split ← liftE (t.pager.node_max_key old_node2)
    let destination_page_num :=
      if child_max < max_after_split then old_page_num else new_page_num
    -- Insert the child
    internal_node_insert fuel destination_page_num child_page_num
    let t ← getT
    let child2 ← liftE (t.pager.get child_page_num)
    let child2 := child2.set_node_parent destination_page_num
    commitPage child_page_num child2
    -- Update parent key and handle root splitting
    let t ← getT
    let old_node3 ← liftE (t.pager.get old_page_num)
    let parent ← liftE (t.pager.get parent_id)
    let mx ← liftE (t.pager.node_max_key old_node3)
    let parent ← liftE (parent.update_internal_node_key old_max mx)
    commitPage parent_id parent
    if splitting_root then do
      let t ← getT
      let old_node4 ← liftE (t.pager.get old_page_num)
      let pp ← liftE old_node4.node_parent
      internal_node_insert fuel pp new_page_num
      let t ← getT
      let new_node ← liftE (t.pager.get new_page_num)
      let new_node := new_node.set_node_parent pp
      commitPage new_page_num new_node
    else
      pure ()

end

/-- One iteration of the cell-distribution loop of
`leaf_node_split_and_insert`: `old` is the clone of the old node taken
before the loop, `cc` the cursor's cell number, `left` the left split
count.  Destination node and index follow the virtual-array rule. -/
def leafSplitStep (old : Node) (cc row_id : Nat) (row_bin : List Nat)
    (left i : Nat) (dest_node : Node) : Except Err Node := do
  let cell_num := i % left
  let _ ← dest_node.get_leaf_node_cell_offset cell_num
  if i = cc then do
    let dest_node ← dest_node.set_leaf_node_key cell_num row_id
    dest_node.set_leaf_node_value cell_num row_bin
  else if i > cc then do
    let src ← old.leaf_node_cell (i - 1)
    dest_node.write_leaf_node_cell cell_num src
  else do
    let src ← old.leaf_node_cell i
    dest_node.write_leaf_node_cell cell_num src

/-- The cell-distribution loop of `leaf_node_split_and_insert`, over the
descending index sequence `(0 ..= max_cells).rev()`. -/
def leafSplitLoop (old : Node) (cc row_id : Nat) (row_bin : List Nat)
    (left : Nat) : List Nat → Node × Node → Except Err (Node × Node)
  | [], acc => .ok acc
  | i :: rest, (old_node, new_node) => do
    if i ≥ left then do
      let new_node ← leafSplitStep old cc row_id row_bin left i new_node
      leafSplitLoop old cc row_id row_bin left rest (old_node, new_node)
    else do
      let old_node ← leafSplitStep old cc row_id row_bin left i old_node
      leafSplitLoop old cc row_id row_bin left rest (old_node, new_node)

/-- `leaf_node_split_and_insert`. -/
def leaf_node_split_and_insert (fuel : Nat) (cursor : Cursor)
    (row_id : Nat) (row_bin : List Nat) : EngineM Unit := do
  let t ← getT
  let new_page_num := t.pager.get_unused_page_num
  modifyPager (fun p => p.try_create new_page_num)
  let t ← getT
  let old_node ← liftE (t.pager.get cursor.page_num)
  let old_max ← liftE old_node.get_node_max_key
  let new_node ← liftE (t.pager.get new_page_num)
  let new_node := initialize_leaf_node new_node
  let new_node := new_node.set_node_parent (← liftE old_node.node_parent)
  -- Whenever we split a leaf node, update the sibling pointers.
  let new_node := new_node.set_leaf_node_next_leaf (← liftE old_node.leaf_node_next_leaf)
  let old_node := old_node.set_leaf_node_next_leaf new_page_num
  let leaf_node_left_split_count := old_node.leaf_node_left_split_count
  let leaf_node_max_cells := old_node.leaf_node_max_cells
  let old := old_node
  -- All existing keys plus new key divided evenly between old (left)
  -- and new (right) nodes, moving from the right.
  let pair ← liftE (leafSplitLoop old cursor.cell_num row_id row_bin
    leaf_node_left_split_count ((List.range (leaf_node_max_cells + 1)).reverse)
    (old_node, new_node))
  let old_node := pair.1
  let new_node := pair.2
  -- Update cell count on both leaf nodes
  let old_node := old_node.set_leaf_node_num_cells old.leaf_node_left_split_count
  let new_node := new_node.set_leaf_node_num_cells old.leaf_node_right_split_count
  if (← liftE old_node.is_node_root) then do
    commitPage cursor.page_num old_node
    commitPage new_page_num new_node
    create_new_root new_page_num
  else do
    let parent_page_num ← liftE old_node.node_parent
    let new_max ← liftE old_node.get_node_max_key
    commitPage cursor.page_num old_node
    commitPage new_page_num new_node
    let t ← getT
    let parent ← liftE (t.pager.get parent_page_num)
    let parent ← liftE (parent.update_internal_node_key old_max new_max)
    commitPage parent_page_num parent
    internal_node_insert fuel parent_page_num new_page_num

/-- The cell-shifting loop of `insert_row` ("make room for new cell"),
over `(cell_num + 1 ..= num_cells).rev()`; reads and writes go through
the same live node, exactly as the Rust loop reads `prev` before
overwriting. -/
def insertShiftLoop : List Nat → Node → Except Err Node
  | [], node => .ok node
  | i :: rest, node => do
    let prev ← node.leaf_node_cell (i - 1)
    let node ← node.write_leaf_node_cell i prev
    insertShiftLoop rest node

/-- `insert_row`. -/
def insert_row (fuel : Nat) (row : Row) : EngineM Unit := do
  let t ← getT
  let row_size := t.schema.get_row_size
  let row_id ← liftE (row.get_id t.schema)
  let row_bin ← liftE (encode_row t.schema row)
  if row_bin.length ≠ row_size then
    throwE (.Storage s!"Unexpected row size {row_bin.length}. Table row size is {row_size}.")
  else do
    let cursor ← liftE (Cursor.find t row_id)
    let node ← liftE (t.pager.get cursor.page_num)
    let num_cells ← liftE node.leaf_node_num_cells
    let dup ←
      if cursor.cell_num < num_cells then do
        let key_at_index ← liftE (node.leaf_node_key cursor.cell_num)
        pure (key_at_index == row_id)
      else
        pure false
    if dup then
      throwE (.Storage "Duplicate key")
    else if num_cells ≥ node.max_cells then do
      -- Node full. Splitting a leaf node...
      leaf_node_split_and_insert fuel cursor row_id row_bin
    else do
      let node ←
        if cursor.cell_num < num_cells then
          liftE (insertShiftLoop
            ((List.range' (cursor.cell_num + 1) (num_cells - cursor.cell_num)).reverse)
            node)
        else
          pure node
      let node := node.set_leaf_node_num_cells (num_cells + 1)
      let node ← liftE (node.set_leaf_node_key cursor.cell_num row_id)
      let node ← liftE (node.set_leaf_node_value cursor.cell_num row_bin)
      commitPage cursor.page_num node

/-- The `while !cursor.end_of_table` loop of `select_rows`, with fuel. -/
def selectLoop : Nat → Cursor → List Row → EngineM (List Row)
  | 0, _, _ => throwE (.Other "loop limit")
  | fuel + 1, cursor, rows => do
    if cursor.end_of_table then
      pure rows
    else do
      let t ← getT
      let buf ← liftE (Cursor.read_value t cursor)
      let row ← liftE (decode_row SCHEMA buf)
      let cursor ← liftE (Cursor.advance t cursor)
      selectLoop fuel cursor (rows ++ [row])

/-- `select_rows` (note the source decodes against the global `SCHEMA`,
not `table.schema`). -/
def select_rows (fuel : Nat) : EngineM (List Row) := do
  let t ← getT
  let cursor ← liftE (Cursor.start t)
  selectLoop fuel cursor []

/-! ## File headers and `Table::flush` (`src/storage/table.rs`)

`flush` writes to the backing file; the model returns the byte sequence
written.  Both headers go through `bincode::encode_to_vec` with the
standard (varint) configuration and are zero-padded to their frame
size by `encode_header`. -/
structure TablespaceHeader where
  table_n_recs : Nat
  page_first : Nat
  root_page_num : Nat

/-- Derived `bincode` encoding: the three `u32` fields in declaration
order, each varint-encoded. -/
def TablespaceHeader.bincode (h : TablespaceHeader) : List Nat :=
  varintEncodeU h.table_n_recs ++ varintEncodeU h.page_first ++
    varintEncodeU h.root_page_num

structure PageHeader where
  page_n_recs : Nat
  page_n_heap : Nat
  page_free : Nat
  page_garbage : Nat
  page_prev : Nat
  page_next : Nat

/-- Derived `bincode` encoding: four `u16` then two `u32` fields, each
varint-encoded. -/
def PageHeader.bincode (h : PageHeader) : List Nat :=
  varintEncodeU h.page_n_recs ++ varintEncodeU h.page_n_heap ++
    varintEncodeU h.page_free ++ varintEncodeU h.page_garbage ++
    varintEncodeU h.page_prev ++ varintEncodeU h.page_next

/-- `encode_header`: the `bincode` bytes, zero-padded to the `N`-byte
frame; error if they do not fit. -/
def encode_header (encoded : List Nat) (N : Nat) : Except Err (List Nat) :=
  if encoded.length > N then
    .error (.Encoding s!"Header size ({encoded.length}) does not fit within the frame ({N}).")
  else
    .ok (encoded ++ List.replicate (N - encoded.length) 0)

/-- The loop body of `Table::flush`: append one page frame (bookkeeping
header then page body) to the file bytes. -/
def flushPageFrame (p : Pager) (file : List Nat) (i : Nat) :
    Except Err (List Nat) := do
  let page ← p.get i
  let page_header ← encode_header
    (PageHeader.bincode
      { page_n_recs := 0, page_n_heap := 0, page_free := 0,
        page_garbage := 0, page_prev := 0, page_next := 0 })
    PAGE_HEADER_SIZE
  pure (file ++ page_header ++ readBytes page.data 0 PAGE_SIZE)

/-- `Table::flush`: the bytes written to the table file. -/
def Table.flush (t : Table) : Except Err (List Nat) := do
  let n_recs ← t.pager.table_n_recs
  let tablespace_header ← encode_header
    (TablespaceHeader.bincode
      { table_n_recs := n_recs, page_first := 0, root_page_num := t.root_page_num })
    TABLESPACE_HEADER_SIZE
  (List.range t.pager.len).foldlM (flushPageFrame t.pager) tablespace_header

/-- Modelled from the spec: the on-disk format claimed in §3/§6 — a
16-byte tablespace header with `table_n_recs`, `page_first`,
`root_page_num` packed as little-endian `u32` at offsets 0, 4, 8, then
per page a 28-byte bookkeeping header followed by the 4096-byte body.
Used only to compare against `Table.flush`. -/
def specFlushFile (t : Table) : Except Err (List Nat) := do
  let n_recs ← t.pager.table_n_recs
  pure (u32le n_recs ++ u32le 0 ++ u32le t.root_page_num ++ List.replicate 4 0 ++
    (t.pager.pages.map
      (fun d => List.replicate 28 0 ++ readBytes d 0 PAGE_SIZE)).flatten)

/-! ## Concrete states used by the claim-level evaluations -/
deriving instance DecidableEq for Except

/-- Write a `u32` at `off` (helper for concrete pages). -/
def w32 (s : Bytes) (off v : Nat) : Bytes := writeList s off (u32le v)

/-- A one-column schema: `id INT PRIMARY KEY` (row size 8). -/
def intSchema : TableSchema :=
  { columns :=
      [ { name := "id", type_ := .INT, default := none,
          is_primary := true, is_nullable := false } ],
    version := 0 }

/-- An internal root page: `num_keys = 1`, `child[0] = 1`, `key[0] = 3`,
`right_child = 2` (the shape `create_new_root` produces). -/
def pageInternalRoot : Bytes :=
  w32 (w32 (w32 (w32 (setByte (setByte zeroBytes 0 1) 1 1) 6 1) 10 2) 14 1) 18 3

/-- Leaf page with keys `1, 2, 3` (row size 8), `next_leaf = 2`,
`parent = 0`. -/
def leafPage123 : Bytes :=
  w32 (w32 (w32 (w32 (w32 zeroBytes 6 3) 10 2) 14 1) 26 2) 38 3

/-- Leaf page with keys `4, 5` (row size 8), `next_leaf = 0`,
`parent = 0`. -/
def leafPage45 : Bytes :=
  w32 (w32 (w32 zeroBytes 6 2) 14 4) 26 5

/-- A three-page table whose root is the internal node: leaves `1` and
`2` hold keys `1..3` and `4..5`. -/
def splitTable : Table :=
  { root_page_num := 0,
    pager := { pages := [pageInternalRoot, leafPage123, leafPage45], row_size := 8 },
    schema := intSchema }

/-- Read `num_keys` of page `i` (observation helper). -/
def readNumKeys (t : Table) (i : Nat) : Except Err Nat := do
  (← t.pager.get i).internal_node_num_keys

/-- Read `right_child` of page `i` (observation helper). -/
def readRightChild (t : Table) (i : Nat) : Except Err Nat := do
  (← t.pager.get i).internal_node_right_child

/-- Read `num_cells` of page `i` (observation helper). -/
def readNumCells (t : Table) (i : Nat) : Except Err Nat := do
  (← t.pager.get i).leaf_node_num_cells

/-- A row `{id: 4}` whose key already sits in leaf page `2` of
`splitTable`. -/
def dupRow : Row := ⟨[("id", .Int 4)]⟩

/-- A full leaf for row size 8: `num_cells = 340 = max_cells`, cell `q`
holding key `q + 1`. -/
def fullLeafPage : Bytes := fun i =>
  if i < 6 then 0
  else if i = 6 then 84
  else if i = 7 then 1
  else if i < 14 then 0
  else
    let q := (i - 14) / 12
    let r := (i - 14) % 12
    if r = 0 then (q + 1) % 256
    else if r = 1 then (q + 1) / 256 % 256
    else 0

/-- A table already holding `TABLE_MAX_PAGES = 100` pages whose root
leaf is full, so the next insert needs a fresh page. -/
def capTable : Table :=
  { root_page_num := 0,
    pager := { pages := fullLeafPage :: List.replicate 99 zeroBytes, row_size := 8 },
    schema := intSchema }

/-- A row with a fresh key, to be inserted into the full `capTable`. -/
def row500 : Row := ⟨[("id", .Int 500)]⟩

/-- An empty internal parent: `num_keys = 0`,
`right_child = INVALID_PAGE_NUM`. -/
def pageEmptyInternal : Bytes :=
  w32 (w32 (setByte zeroBytes 0 1) 6 0) 10 INVALID_PAGE_NUM

/-- A single-cell leaf with key `7`. -/
def leafPage7 : Bytes := w32 (w32 zeroBytes 6 1) 14 7

/-- Parent page `0` (empty internal) plus leaf page `1` with key `7`. -/
def emptyParentTable : Table :=
  { root_page_num := 0,
    pager := { pages := [pageEmptyInternal, leafPage7], row_size := 8 },
    schema := intSchema }

/-! ## State-preservation combinators -/
/-- An engine computation that returns whatever state it was given. -/
def Preserves {α : Type} (x : EngineM α) : Prop := ∀ t, (x t).2 = t

/-- A one-page table with a nonzero `root_page_num`, to expose the
header packing. -/
def flushTable : Table :=
  { root_page_num := 3,
    pager := { pages := [zeroBytes], row_size := 8 },
    schema := intSchema }

/-- The actual 16-byte header `flush` writes for `flushTable`. -/
def flushHdr : List Nat := [0, 0, 3, 0, 0, 0, 0, 0, 0, 0, 0, 0, 0, 0, 0, 0]

/-- The header the claimed format would write for `flushTable`. -/
def specHdr : List Nat := [0, 0, 0, 0, 0, 0, 0, 0, 3, 0, 0, 0, 0, 0, 0, 0]

/-- `Row::validate` (`src/storage/row.rs`): every schema column is
either present with a value of the matching constructor, or absent but
covered by a default. -/
def Row.validate (r : Row) (schema : TableSchema) : Bool :=
  schema.columns.all (fun col_schema =>
    match r.get col_schema.name with
    | none => col_schema.default.isSome
    | some value =>
      match col_schema.type_, value with
      | .INT, .Int _ => true
      | .SMALLINT, .SmallInt _ => true
      | .TINYINT, .TinyInt _ => true
      | .BIGINT, .BigInt _ => true
      | .FLOAT, .Float _ => true
      | .DOUBLE, .Double _ => true
      | .VARCHAR _, .VarChar _ => true
      | .TEXT, .Text _ => true
      | .DATETIME, .DateTime _ => true
      | .TIMESTAMP, .Timestamp _ => true
      | .BOOLEAN, .Boolean _ => true
      | _, _ => false)

/-- A one-column schema `v VARCHAR(2)`. -/
def varchar2Schema : TableSchema :=
  { columns :=
      [ { name := "v", type_ := .VARCHAR 2, default := none,
          is_primary := false, is_nullable := false } ],
    version := 0 }

/-- A schema-valid row whose text value ends in a zero byte. -/
def rowTrailingZero : Row := ⟨[("v", .VarChar [97, 0])]⟩

/-- The value/column pairs covered by the amended round-trip law:
`INT` values whose zigzag varint fits the 8-byte field (exactly the
`i32` range) and ASCII `VARCHAR` values with no trailing zero byte that
fit both their column and the 2048-byte cap. -/
def goodColumnValue : ColumnType → ColumnValue → Prop
  | .INT, .Int v => -(2 ^ 31) ≤ v ∧ v < 2 ^ 31
  | .VARCHAR m, .VarChar s =>
      s.length ≤ m ∧ s.length ≤ VARCHAR_MAXSIZE ∧
      (∀ b ∈ s, b < 128) ∧ s.getLast? ≠ some 0
  | _, _ => False

/-- One encoded field per column: correct width, and decoding it gives
back exactly the value the row holds for that column. -/
def colEnc (row : Row) (c : ColumnSchema) (e : List Nat) : Prop :=
  e.length = c.type_.fixed_size ∧
  ∃ v, row.get c.name = some v ∧ c.type_.from_fixed_bytes e = .ok v

/-- A concrete row for the built-in `SCHEMA`: `{id: 7, username: "g",
email: "e"}` (as raw bytes). -/
def wRow : Row :=
  ⟨[("id", .Int 7), ("username", .VarChar [103]), ("email", .VarChar [101])]⟩

/-- Byte positions covered by internal cells `lo ..= hi`. -/
def inCellRange (lo hi b : Nat) : Prop :=
  ∃ j, lo ≤ j ∧ j ≤ hi ∧ Node.internal_node_cell_offset j ≤ b ∧
    b < Node.internal_node_cell_offset j + INTERNAL_NODE_CELL_SIZE

/-- The "virtual array" prescription for the split: cell `i` of the
combined (old cells plus new row, in position order) sequence. -/
def leafVirtualCell (old : Node) (cc row_id : Nat) (row_bin : List Nat)
    (i : Nat) : List Nat :=
  if i = cc then u32le row_id ++ row_bin
  else if cc < i then
    readBytes old.data (LEAF_NODE_HEADER_SIZE + (i - 1) * old.leaf_node_cell_size)
      old.leaf_node_cell_size
  else
    readBytes old.data (LEAF_NODE_HEADER_SIZE + i * old.leaf_node_cell_size)
      old.leaf_node_cell_size

/-- Byte positions covered by leaf cells `0 ..< m` (cell size `cs`). -/
def inLeafCellRange (cs m b : Nat) : Prop :=
  ∃ j, j < m ∧ LEAF_NODE_HEADER_SIZE + j * cs ≤ b ∧
    b < LEAF_NODE_HEADER_SIZE + j * cs + cs

/-- A full leaf for `row_size = 2000` (`max_cells = 2`): keys 5 and 9,
parent page `1`, not root. -/
def c4OldPage : Bytes := w32 (w32 (w32 (w32 zeroBytes 2 1) 6 2) 14 5) 2018 9

/-- Old full leaf on page `0`, empty internal parent on page `1`. -/
def c4Table : Table :=
  { root_page_num := 0,
    pager := { pages := [c4OldPage, pageEmptyInternal], row_size := 2000 },
    schema := intSchema }

/-! ## Theorems -/

/-- Claim C1: `Cursor::find(table, key)` is claimed to descend from the
root, dispatching on the node type and recursing through internal
nodes so that the returned position is always in the leaf that should
contain the key.  Evaluating the code on a three-page tree whose root
is an internal node shows otherwise: `find` runs the leaf binary search
directly on the internal root page (the dispatch is commented out in
the source, "Need to implement searching an internal node") and returns
position `(page 0, cell 1)` on the internal root, even though key `4`
lives in leaf page `2`. -/
theorem C1_find_never_descends :
    Cursor.find splitTable 4 =
      .ok { page_num := 0, cell_num := 1, end_of_table := false } ∧
    (Node.mk pageInternalRoot 8).get_node_type = .ok .NodeInternal ∧
    (Node.mk leafPage45 8).get_node_type = .ok .NodeLeaf ∧
    (Node.mk leafPage45 8).leaf_node_key 0 = .ok 4 := by
  decide

/-- Claim C2: `Cursor::advance` is claimed to follow the leaf's
`next_leaf` pointer when `cell_num` moves past `num_cells`, marking
`end_of_table` only when `next_leaf == 0`.  Evaluating the code on a
cursor sitting on the last cell of leaf page `1` — whose `next_leaf`
is `2`, not `0` — shows that `advance` stays on the same page and sets
`end_of_table` anyway. -/
theorem C2_advance_ignores_next_leaf :
    Cursor.advance splitTable { page_num := 1, cell_num := 2, end_of_table := false } =
      .ok { page_num := 1, cell_num := 3, end_of_table := true } ∧
    (Node.mk leafPage123 8).leaf_node_next_leaf = .ok 2 ∧ (2 : Nat) ≠ 0 := by
  decide

/-- Claim C3: inserting a row whose key already exists is claimed to
yield `Storage("Duplicate key")` for *every* table state, leaving the
tree untouched.  On the three-page tree `splitTable` the key `4` is
present in leaf page `2`, yet `insert_row` — whose cursor never
descends past the internal root — returns `Ok(())` and corrupts the
root: its `num_keys` word (read through the leaf `num_cells` accessor)
changes from `1` to `2`, and internal cell `1` is overwritten with the
key. -/
theorem C3_duplicate_key_not_detected_after_split :
    (Node.mk leafPage45 8).get_node_type = .ok .NodeLeaf ∧
    (Node.mk leafPage45 8).leaf_node_key 0 = .ok 4 ∧
    (insert_row 1 dupRow splitTable).1 = .ok () ∧
    (insert_row 1 dupRow splitTable).1 ≠ .error (.Storage "Duplicate key") ∧
    readNumKeys splitTable 0 = .ok 1 ∧
    readNumKeys (insert_row 1 dupRow splitTable).2 0 = .ok 2 := by
  decide

/-- Claim C7: exceeding `TABLE_MAX_PAGES` is claimed to fail with
`Storage("table full")`.  Evaluating an insert that needs page `100`:
`Pager::try_create` discards the failed `heapless` push
(`if let Err(_) = self.pages.push(..) {}`), so no error is raised
there; the subsequent `pager.get(100)` inside the leaf split then fails
with `Storage("Memory page 100 not found.")` instead.  No page is
allocated, and no `"table full"` error exists in this code path. -/
theorem C7_no_table_full_error :
    capTable.pager.len = TABLE_MAX_PAGES ∧
    readNumCells capTable 0 = .ok 340 ∧
    (Node.mk fullLeafPage 8).max_cells = 340 ∧
    (insert_row 1 row500 capTable).1 =
      .error (.Storage "Memory page 100 not found.") ∧
    (insert_row 1 row500 capTable).1 ≠ .error (.Storage "table full") ∧
    (insert_row 1 row500 capTable).2.pager.len = 100 ∧
    (capTable.pager.try_create 100).len = 100 := by
  decide

/-- Claim C5 (counterexample): when `parent.right_child ==
INVALID_PAGE_NUM` the claim says `internal_node_insert` *only* sets
`right_child = child`, leaving `num_keys` unchanged.  In the code,
`num_keys` is incremented (`set_internal_node_num_keys(original + 1)`)
*before* the empty-parent branch is examined, so after inserting child
`1` into the empty parent `0` the parent ends with `num_keys = 1`, not
`0`. -/
theorem C5_empty_internal_increments_num_keys :
    readNumKeys emptyParentTable 0 = .ok 0 ∧
    readRightChild emptyParentTable 0 = .ok INVALID_PAGE_NUM ∧
    (internal_node_insert 1 0 1 emptyParentTable).1 = .ok () ∧
    readRightChild (internal_node_insert 1 0 1 emptyParentTable).2 0 = .ok 1 ∧
    readNumKeys (internal_node_insert 1 0 1 emptyParentTable).2 0 = .ok 1 ∧
    (1 : Nat) ≠ 0 := by
  decide

/-! ## Read-over-write lemmas for the byte model -/
theorem setByte_self (s : Bytes) (i v : Nat) : setByte s i v i = v := by
  simp [setByte]

theorem setByte_other (s : Bytes) (i v j : Nat) (h : j ≠ i) :
    setByte s i v j = s j := by
  simp [setByte, h]

theorem writeList_outside (s : Bytes) (off : Nat) (l : List Nat) (j : Nat)
    (h : j < off ∨ off + l.length ≤ j) : writeList s off l j = s j := by
  induction l generalizing s off with
  | nil => rfl
  | cons b bs ih =>
    simp only [List.length_cons] at h
    simp only [writeList]
    rw [ih _ _ (by omega)]
    exact setByte_other s off b j (by omega)

theorem writeList_getD (s : Bytes) (off : Nat) (l : List Nat) (k : Nat)
    (h : k < l.length) : writeList s off l (off + k) = l.getD k 0 := by
  induction l generalizing s off k with
  | nil => simp at h
  | cons b bs ih =>
    simp only [writeList]
    cases k with
    | zero =>
      rw [writeList_outside _ _ _ _ (Or.inl (by omega))]
      simp [setByte_self]
    | succ k =>
      have hoff : off + (k + 1) = (off + 1) + k := by omega
      rw [hoff, ih _ _ _ (by simpa using h)]
      simp

theorem readByte_writeList_outside (s : Bytes) (off : Nat) (l : List Nat)
    (j : Nat) (h : j < off ∨ off + l.length ≤ j) :
    readByte (writeList s off l) j = readByte s j := by
  simp [readByte, writeList_outside s off l j h]

theorem readBytes_writeList_outside (s : Bytes) (off : Nat) (l : List Nat)
    (off' n : Nat) (h : off' + n ≤ off ∨ off + l.length ≤ off') :
    readBytes (writeList s off l) off' n = readBytes s off' n := by
  unfold readBytes
  apply List.map_congr_left
  intro k hk
  simp only [List.mem_range] at hk
  exact readByte_writeList_outside s off l (off' + k) (by omega)

theorem readBytes_writeList_self (s : Bytes) (off : Nat) (l : List Nat) :
    readBytes (writeList s off l) off l.length = l.map (fun b => b % 256) := by
  unfold readBytes readByte
  apply List.ext_getElem
  · simp
  · intro k hk hk'
    simp only [List.getElem_map, List.getElem_range]
    rw [writeList_getD s off l k (by simpa using hk)]
    simp only [List.getD_eq_getElem?_getD]
    rw [List.getElem?_eq_getElem (by simpa using hk)]
    simp

theorem readU32_writeList_outside (s : Bytes) (off : Nat) (l : List Nat)
    (off' : Nat) (h : off' + 4 ≤ off ∨ off + l.length ≤ off') :
    readU32 (writeList s off l) off' = readU32 s off' := by
  unfold readU32
  rw [readByte_writeList_outside s off l off' (by omega),
      readByte_writeList_outside s off l (off' + 1) (by omega),
      readByte_writeList_outside s off l (off' + 2) (by omega),
      readByte_writeList_outside s off l (off' + 3) (by omega)]

theorem u32le_length (v : Nat) : (u32le v).length = 4 := by
  simp [u32le]

theorem readU32_writeList_u32le (s : Bytes) (off v : Nat) :
    readU32 (writeList s off (u32le v)) off = v % 2 ^ 32 := by
  unfold readU32 readByte
  have h0 := writeList_getD s off (u32le v) 0 (by simp [u32le])
  have h1 := writeList_getD s off (u32le v) 1 (by simp [u32le])
  have h2 := writeList_getD s off (u32le v) 2 (by simp [u32le])
  have h3 := writeList_getD s off (u32le v) 3 (by simp [u32le])
  simp only [Nat.add_zero] at h0
  rw [h0, h1, h2, h3]
  have e0 : (u32le v).getD 0 0 = v % 256 := rfl
  have e1 : (u32le v).getD 1 0 = v / 256 % 256 := rfl
  have e2 : (u32le v).getD 2 0 = v / 65536 % 256 := rfl
  have e3 : (u32le v).getD 3 0 = v / 16777216 % 256 := rfl
  rw [e0, e1, e2, e3]
  have hp : (2 : Nat) ^ 32 = 4294967296 := by norm_num
  rw [hp]
  omega

theorem preserves_bind {α β : Type} {x : EngineM α} {f : α → EngineM β}
    (hx : Preserves x) (hf : ∀ a, Preserves (f a)) : Preserves (x >>= f) := by
  intro t
  have hxt := hx t
  show (EngineM.bind' x f t).2 = t
  unfold EngineM.bind'
  cases hx' : x t with
  | mk r t' =>
    rw [hx'] at hxt
    simp only at hxt
    subst hxt
    cases r with
    | ok a => exact hf a t'
    | error e => rfl

theorem preserves_pure {α : Type} (a : α) : Preserves (pure a : EngineM α) :=
  fun _ => rfl

theorem preserves_liftE {α : Type} (x : Except Err α) : Preserves (liftE x) :=
  fun _ => rfl

theorem preserves_getT : Preserves getT := fun _ => rfl

theorem preserves_throwE {α : Type} (e : Err) : Preserves (throwE e : EngineM α) :=
  fun _ => rfl

theorem preserves_selectLoop :
    ∀ (fuel : Nat) (c : Cursor) (rows : List Row),
      Preserves (selectLoop fuel c rows) := by
  intro fuel
  induction fuel with
  | zero => intro c rows; exact preserves_throwE _
  | succ fuel ih =>
    intro c rows
    show Preserves (selectLoop (fuel + 1) c rows)
    simp only [selectLoop]
    split
    · exact preserves_pure _
    · exact preserves_bind preserves_getT (fun t =>
        preserves_bind (preserves_liftE _) (fun buf =>
          preserves_bind (preserves_liftE _) (fun row =>
            preserves_bind (preserves_liftE _) (fun c' => ih c' _))))

/-- Claim C9: `select_rows` is read-only — whatever its result (rows,
or an error from a missing page, a decode failure, or loop-limit fuel),
the table state it returns is exactly the one it was given: same pager
pages (hence the same 4096 bytes of every allocated page), same page
count, same `root_page_num`. -/
theorem C9_select_rows_read_only :
    ∀ (fuel : Nat) (t : Table),
      (select_rows fuel t).2 = t ∧
      (select_rows fuel t).2.pager.pages = t.pager.pages ∧
      (select_rows fuel t).2.pager.len = t.pager.len ∧
      (select_rows fuel t).2.root_page_num = t.root_page_num := by
  intro fuel t
  have h : Preserves (select_rows fuel) := by
    unfold select_rows
    exact preserves_bind preserves_getT (fun t' =>
      preserves_bind (preserves_liftE _) (fun c => preserves_selectLoop fuel c []))
  have ht := h t
  exact ⟨ht, by rw [ht], by rw [ht], by rw [ht]⟩

/-- Claim C10: `Row::get_id` uses the *first* schema column whose
`is_primary` flag is set — any later primary column (the built-in
`SCHEMA` marks both `id` and `email`) is ignored — returning the row's
value for it truncated from `i64` to `u32` (`v mod 2^32`); it returns a
`Schema` error exactly when no column is primary, when the first
primary column is absent from the row, or when its value is not an
`Int`. -/
theorem C10_get_id_first_primary (schema : TableSchema) (row : Row) :
    (∀ pre c post, schema.columns = pre ++ c :: post →
        (∀ c' ∈ pre, c'.is_primary = false) → c.is_primary = true →
        Row.get_id row schema =
          (match row.get c.name with
           | some (ColumnValue.Int v) => .ok (v % (2 ^ 32 : Int)).toNat
           | some _ => .error (.Schema "Invalid primary key type")
           | none => .error (.Schema "Primary key column missing in the row"))) ∧
    ((∀ c ∈ schema.columns, c.is_primary = false) →
        Row.get_id row schema = .error (.Schema "No primary key column defined")) := by
  constructor
  · intro pre c post hdec hpre hc
    have hfind : schema.columns.find? (fun col_schema => col_schema.is_primary) = some c := by
      rw [hdec, List.find?_append]
      have hnone : pre.find? (fun col_schema => col_schema.is_primary) = none := by
        rw [List.find?_eq_none]
        intro x hx
        simp [hpre x hx]
      rw [hnone]
      simp [List.find?_cons, hc]
    unfold Row.get_id
    simp only [hfind]
    cases hg : row.get c.name with
    | none => rfl
    | some v => cases v <;> rfl
  · intro hall
    have hfind : schema.columns.find? (fun col_schema => col_schema.is_primary) = none := by
      rw [List.find?_eq_none]
      intro x hx
      simp [hall x hx]
    unfold Row.get_id
    simp only [hfind]

/-- Witness for C10: on the built-in `SCHEMA` (where both `id` and
`email` are marked primary) and the row `{id: -1}`, `get_id` picks the
first primary column `id` and wraps `-1` to `u32::MAX = 4294967295`. -/
theorem C10_get_id_witness :
    Row.get_id ⟨[("id", .Int (-1))]⟩ SCHEMA = .ok 4294967295 := by
  have h := (C10_get_id_first_primary SCHEMA ⟨[("id", .Int (-1))]⟩).1 []
    { name := "id", type_ := .INT, default := none,
      is_primary := true, is_nullable := false }
    [ { name := "username", type_ := .VARCHAR 32, default := some "guest",
        is_primary := false, is_nullable := false },
      { name := "email", type_ := .VARCHAR 255, default := none,
        is_primary := true, is_nullable := false } ]
    (by rfl) (by intro c' hc'; simp at hc') (by rfl)
  rw [h]
  decide

/-! ## Claim C8: the on-disk flush format -/
/-- `>>=` on an `ok` value in the `Except` monad. -/
theorem except_bind_ok {α β : Type} (a : α) (f : α → Except Err β) :
    (Except.ok a >>= f) = f a := rfl

/-- `Except.map` on an `ok` value. -/
theorem except_map_ok {α β : Type} (f : α → β) (a : α) :
    (Except.ok a : Except Err α).map f = .ok (f a) := rfl

theorem readBytes_length (s : Bytes) (off n : Nat) :
    (readBytes s off n).length = n := by
  simp [readBytes]

theorem leBytes_length (n v : Nat) : (leBytes n v).length = n := by
  simp [leBytes]

theorem varintEncodeU_length_le_five (u : Nat) (h : u < 2 ^ 32) :
    (varintEncodeU u).length ≤ 5 := by
  unfold varintEncodeU
  split_ifs <;> simp [leBytes_length]

/-- The page-frame fold of `flush` over allocated pages: each frame is
a 24-byte zero header followed by the page body. -/
theorem flush_fold (p : Pager) :
    ∀ (m k : Nat), k + m ≤ p.pages.length → ∀ acc,
      (List.range' k m).foldlM (flushPageFrame p) acc =
        .ok (acc ++
          (((p.pages.drop k).take m).map
            (fun d => List.replicate PAGE_HEADER_SIZE 0 ++ readBytes d 0 PAGE_SIZE)).flatten) := by
  intro m
  induction m with
  | zero => intro k hk acc; simp; rfl
  | succ m ih =>
    intro k hk acc
    rw [List.range'_succ]
    have hklt : k < p.pages.length := by omega
    have hget : p.get k = .ok (Node.mk (p.pages[k]) p.row_size) := by
      unfold Pager.get
      rw [List.getElem?_eq_getElem hklt]
    have hbody : flushPageFrame p acc k =
        .ok (acc ++ List.replicate PAGE_HEADER_SIZE 0 ++
          readBytes (p.pages[k]) 0 PAGE_SIZE) := by
      unfold flushPageFrame
      rw [hget]
      have hph : encode_header
          (PageHeader.bincode
            { page_n_recs := 0, page_n_heap := 0, page_free := 0,
              page_garbage := 0, page_prev := 0, page_next := 0 })
          PAGE_HEADER_SIZE = .ok (List.replicate PAGE_HEADER_SIZE 0) := by decide
      rw [except_bind_ok, hph]
      rfl
    rw [List.foldlM_cons, hbody]
    show (List.range' (k + 1) m).foldlM (flushPageFrame p) _ = _
    rw [ih (k + 1) (by omega) _]
    have hdk : p.pages.drop k = p.pages[k] :: p.pages.drop (k + 1) :=
      List.drop_eq_getElem_cons hklt
    rw [hdk, List.take_succ_cons, List.map_cons, List.flatten_cons]
    simp [List.append_assoc]

/-- Claim C8 (counterexample): the claim says the 16-byte tablespace
header packs `table_n_recs`, `page_first`, `root_page_num` as plain
little-endian `u32` at offsets 0, 4, 8, and that each page frame starts
with a 28-byte bookkeeping header.  On a one-page table with
`root_page_num = 3`, the real `flush` output puts the `3` at offset 2
(the bincode varint fields are one byte each here) and emits a 24-byte
page header, so the file is 4136 bytes, not the 4140 bytes of the
claimed format (`specFlushFile`, written from the spec text). -/
theorem C8_flush_format_counterexample :
    (Table.flush flushTable).map List.length = .ok 4136 ∧
    (specFlushFile flushTable).map List.length = .ok 4140 ∧
    (Table.flush flushTable).map (List.take 16) = .ok flushHdr ∧
    (specFlushFile flushTable).map (List.take 16) = .ok specHdr ∧
    Table.flush flushTable ≠ specFlushFile flushTable := by
  have hnrecs : flushTable.pager.table_n_recs = .ok 0 := by decide
  have hflush : Table.flush flushTable =
      .ok (flushHdr ++
        (List.replicate PAGE_HEADER_SIZE 0 ++ readBytes zeroBytes 0 PAGE_SIZE)) := by
    unfold Table.flush
    rw [hnrecs, except_bind_ok]
    rw [show encode_header
        (TablespaceHeader.bincode
          { table_n_recs := 0, page_first := 0, root_page_num := flushTable.root_page_num })
        TABLESPACE_HEADER_SIZE = .ok flushHdr from by decide]
    rw [except_bind_ok, List.range_eq_range']
    rw [flush_fold flushTable.pager flushTable.pager.len 0 (by decide) flushHdr]
    show Except.ok (flushHdr ++
      ([List.replicate PAGE_HEADER_SIZE 0 ++ readBytes zeroBytes 0 PAGE_SIZE] :
        List (List Nat)).flatten) = _
    rw [List.flatten_cons, List.flatten_nil, List.append_nil]
  have hspec : specFlushFile flushTable =
      .ok (specHdr ++
        (List.replicate 28 0 ++ readBytes zeroBytes 0 PAGE_SIZE)) := by
    unfold specFlushFile
    rw [hnrecs, except_bind_ok]
    show Except.ok (u32le 0 ++ u32le 0 ++ u32le 3 ++ List.replicate 4 0 ++
      ([List.replicate 28 0 ++ readBytes zeroBytes 0 PAGE_SIZE] :
        List (List Nat)).flatten) = _
    rw [List.flatten_cons, List.flatten_nil, List.append_nil,
      show (u32le 0 ++ u32le 0 ++ u32le 3 ++ List.replicate 4 0 : List Nat) = specHdr
        from by decide]
  have hL1 : (flushHdr ++
      (List.replicate PAGE_HEADER_SIZE 0 ++ readBytes zeroBytes 0 PAGE_SIZE)).length = 4136 := by
    simp only [List.length_append, List.length_replicate, readBytes_length]
    norm_num [flushHdr, PAGE_HEADER_SIZE, PAGE_SIZE]
  have hlen1 : (Table.flush flushTable).map List.length = .ok 4136 := by
    rw [hflush, except_map_ok, hL1]
  have hL2 : (specHdr ++
      (List.replicate 28 0 ++ readBytes zeroBytes 0 PAGE_SIZE)).length = 4140 := by
    simp only [List.length_append, List.length_replicate, readBytes_length]
    norm_num [specHdr, PAGE_SIZE]
  have hlen2 : (specFlushFile flushTable).map List.length = .ok 4140 := by
    rw [hspec, except_map_ok, hL2]
  refine ⟨hlen1, hlen2, ?_, ?_, ?_⟩
  · have hT : (flushHdr ++
        (List.replicate PAGE_HEADER_SIZE 0 ++ readBytes zeroBytes 0 PAGE_SIZE)).take 16 =
        flushHdr := by
      rw [List.take_append_of_le_length (by decide)]
      decide
    rw [hflush, except_map_ok, hT]
  · have hT : (specHdr ++
        (List.replicate 28 0 ++ readBytes zeroBytes 0 PAGE_SIZE)).take 16 = specHdr := by
      rw [List.take_append_of_le_length (by decide)]
      decide
    rw [hspec, except_map_ok, hT]
  · intro heq
    rw [heq] at hlen1
    rw [hlen1] at hlen2
    exact absurd (Except.ok.inj hlen2) (by norm_num)

/-- Claim C8 (amended): `flush` writes a 16-byte tablespace header
holding the *bincode varint* encoding of `(table_n_recs, page_first,
root_page_num)` zero-padded to 16 bytes, then for each allocated page a
*24-byte* all-zero bookkeeping header followed by the 4096 page bytes;
consequently the file is `16 + N·(24 + 4096)` bytes long. -/
theorem C8_amended_flush_format (t : Table) (r : Nat)
    (h : t.pager.table_n_recs = .ok r) (hr : r < 2 ^ 32)
    (hroot : t.root_page_num < 2 ^ 32) :
    Table.flush t = .ok (
      (TablespaceHeader.bincode
        { table_n_recs := r, page_first := 0, root_page_num := t.root_page_num } ++
       List.replicate (TABLESPACE_HEADER_SIZE -
         (TablespaceHeader.bincode
           { table_n_recs := r, page_first := 0, root_page_num := t.root_page_num }).length) 0) ++
      (t.pager.pages.map
        (fun d => List.replicate PAGE_HEADER_SIZE 0 ++ readBytes d 0 PAGE_SIZE)).flatten) ∧
    (∀ f, Table.flush t = .ok f →
      f.length = TABLESPACE_HEADER_SIZE + t.pager.len * (PAGE_HEADER_SIZE + PAGE_SIZE)) := by
  have hlen : (TablespaceHeader.bincode
      { table_n_recs := r, page_first := 0, root_page_num := t.root_page_num }).length ≤ 15 := by
    unfold TablespaceHeader.bincode
    simp only [List.length_append]
    have h1 := varintEncodeU_length_le_five r hr
    have h2 := varintEncodeU_length_le_five 0 (by norm_num)
    have h3 := varintEncodeU_length_le_five t.root_page_num hroot
    omega
  have hmain : Table.flush t = .ok (
      (TablespaceHeader.bincode
        { table_n_recs := r, page_first := 0, root_page_num := t.root_page_num } ++
       List.replicate (TABLESPACE_HEADER_SIZE -
         (TablespaceHeader.bincode
           { table_n_recs := r, page_first := 0, root_page_num := t.root_page_num }).length) 0) ++
      (t.pager.pages.map
        (fun d => List.replicate PAGE_HEADER_SIZE 0 ++ readBytes d 0 PAGE_SIZE)).flatten) := by
    unfold Table.flush
    rw [h, except_bind_ok]
    rw [show encode_header
        (TablespaceHeader.bincode
          { table_n_recs := r, page_first := 0, root_page_num := t.root_page_num })
        TABLESPACE_HEADER_SIZE =
      .ok (TablespaceHeader.bincode
          { table_n_recs := r, page_first := 0, root_page_num := t.root_page_num } ++
        List.replicate (TABLESPACE_HEADER_SIZE -
          (TablespaceHeader.bincode
            { table_n_recs := r, page_first := 0, root_page_num := t.root_page_num }).length) 0)
      from by
        unfold encode_header
        rw [if_neg (by unfold TABLESPACE_HEADER_SIZE; omega)]]
    rw [except_bind_ok, List.range_eq_range']
    rw [flush_fold t.pager t.pager.len 0 (by simp [Pager.len]) _]
    rw [List.drop_zero, show t.pager.len = t.pager.pages.length from rfl,
      List.take_length]
  refine ⟨hmain, ?_⟩
  intro f hf
  rw [hmain] at hf
  have hfe := Except.ok.inj hf
  rw [← hfe]
  simp only [List.length_append, List.length_flatten, List.map_map, List.length_replicate]
  have hsum : ((t.pager.pages.map
      (List.length ∘
        (fun d => List.replicate PAGE_HEADER_SIZE 0 ++ readBytes d 0 PAGE_SIZE)))).sum =
      t.pager.pages.length * (PAGE_HEADER_SIZE + PAGE_SIZE) := by
    have hfun : (List.length ∘
        (fun d => List.replicate PAGE_HEADER_SIZE 0 ++ readBytes d 0 PAGE_SIZE)) =
        fun (_ : Bytes) => PAGE_HEADER_SIZE + PAGE_SIZE := by
      funext d
      simp [readBytes_length]
    rw [hfun, List.map_const']
    simp [List.sum_replicate, smul_eq_mul, Nat.mul_comm]
  rw [hsum]
  unfold Pager.len TABLESPACE_HEADER_SIZE
  omega

/-- Witness for the amended C8 statement at the concrete one-page table. -/
theorem C8_amended_flush_format_witness :
    Table.flush flushTable = .ok (
      (TablespaceHeader.bincode
        { table_n_recs := 0, page_first := 0, root_page_num := 3 } ++
       List.replicate (TABLESPACE_HEADER_SIZE -
         (TablespaceHeader.bincode
           { table_n_recs := 0, page_first := 0, root_page_num := 3 }).length) 0) ++
      (flushTable.pager.pages.map
        (fun d => List.replicate PAGE_HEADER_SIZE 0 ++ readBytes d 0 PAGE_SIZE)).flatten) :=
  (C8_amended_flush_format flushTable 0 (by decide) (by norm_num) (by decide)).1

/-- Claim C6 (counterexample): the row-codec laws fail as stated.
(1) `decode ∘ encode` is not the identity on valid rows: the valid
`VARCHAR(2)` value `[97, 0]` encodes to `[97, 0]` but decodes to
`[97]`, because the decoder strips trailing zero bytes.
(2) `encode ∘ decode` is not the identity on arbitrary `row_size`
buffers: the 8-byte INT buffer `[251,0,0,0,0,0,0,0]` is a non-canonical
varint for `0` and re-encodes to `[0,0,0,0,0,0,0,0]`.
(3) Decode does not trim "at the first zero byte": `[97,0,98,0]`
decodes to `[97,0,98]` (only *trailing* zeros are trimmed), not `[97]`. -/
theorem C6_roundtrip_counterexample :
    rowTrailingZero.validate varchar2Schema = true ∧
    encode_row varchar2Schema rowTrailingZero = .ok [97, 0] ∧
    decode_row varchar2Schema [97, 0] = .ok ⟨[("v", .VarChar [97])]⟩ ∧
    (Row.get ⟨[("v", .VarChar [97])]⟩ "v") ≠ rowTrailingZero.get "v" ∧
    decode_row intSchema [251, 0, 0, 0, 0, 0, 0, 0] = .ok ⟨[("id", .Int 0)]⟩ ∧
    encode_row intSchema ⟨[("id", .Int 0)]⟩ = .ok [0, 0, 0, 0, 0, 0, 0, 0] ∧
    ([0, 0, 0, 0, 0, 0, 0, 0] : List Nat) ≠ [251, 0, 0, 0, 0, 0, 0, 0] ∧
    (ColumnType.VARCHAR 4).from_fixed_bytes [97, 0, 98, 0] =
      .ok (.VarChar [97, 0, 98]) := by
  decide

/-! ## Round-trip lemmas for the bincode layer -/
theorem leBytes_succ (n u : Nat) :
    leBytes (n + 1) u = u % 256 :: leBytes n (u / 256) := by
  unfold leBytes
  rw [List.range_succ_eq_map]
  simp only [List.map_cons, List.map_map, pow_zero, Nat.div_one]
  congr 1
  apply List.map_congr_left
  intro k _
  simp only [Function.comp_apply]
  rw [Nat.div_div_eq_div_mul]
  congr 1
  rw [pow_succ, Nat.mul_comm]

theorem leVal_leBytes (n u : Nat) : leVal (leBytes n u) = u % 256 ^ n := by
  induction n generalizing u with
  | zero => simp [leBytes, leVal, Nat.mod_one]
  | succ n ih =>
    rw [leBytes_succ]
    unfold leVal
    rw [ih]
    rw [pow_succ, Nat.mul_comm (256 ^ n) 256, Nat.mod_mul]
    omega

theorem unzigzag_zigzag (v : Int) : unzigzag (zigzag v) = v := by
  unfold zigzag unzigzag
  by_cases h : 0 ≤ v
  · rw [if_pos h]
    have h2 : (2 * v.toNat) % 2 = 0 := by omega
    rw [if_pos h2]
    have : (2 * v.toNat) / 2 = v.toNat := by omega
    rw [this]
    exact_mod_cast Int.toNat_of_nonneg h
  · rw [if_neg h]
    have hv : 1 ≤ (-v).toNat := by omega
    have h2 : (2 * (-v).toNat - 1) % 2 = 1 := by omega
    rw [if_neg (by omega)]
    have hdiv : (2 * (-v).toNat - 1) / 2 = (-v).toNat - 1 := by omega
    rw [hdiv]
    have : ((-v).toNat : Int) = -v := Int.toNat_of_nonneg (by omega)
    push_cast [Nat.cast_sub hv]
    omega

theorem zigzag_lt (v : Int) (h1 : -(2 ^ 31) ≤ v) (h2 : v < 2 ^ 31) :
    zigzag v < 2 ^ 32 := by
  unfold zigzag
  split_ifs with h
  · have : v.toNat < 2 ^ 31 := by omega
    omega
  · have : (-v).toNat ≤ 2 ^ 31 := by omega
    omega

theorem varintDecodeU_encode (maxMarker u : Nat) (rest : List Nat)
    (hu : u < 2 ^ 32) (hm : 252 ≤ maxMarker) (hm2 : maxMarker ≤ 254) :
    ∃ c, varintDecodeU maxMarker (varintEncodeU u ++ rest) = some (u, c) := by
  unfold varintEncodeU
  by_cases h1 : u < 251
  · rw [if_pos h1]
    refine ⟨1, ?_⟩
    unfold varintDecodeU
    simp only [List.cons_append]
    rw [if_pos h1]
  · rw [if_neg h1]
    by_cases h2 : u < 2 ^ 16
    · rw [if_pos h2]
      refine ⟨3, ?_⟩
      unfold varintDecodeU
      simp only [List.cons_append]
      rw [if_neg (by omega), if_neg (by omega), if_pos (by trivial)]
      rw [if_neg (by simp [leBytes_length])]
      rw [List.take_append_of_le_length (by simp [leBytes_length])]
      rw [List.take_of_length_le (by simp [leBytes_length])]
      rw [leVal_leBytes]
      rw [Nat.mod_eq_of_lt (by norm_num at h2 ⊢; omega)]
    · rw [if_neg h2, if_pos hu]
      refine ⟨5, ?_⟩
      unfold varintDecodeU
      simp only [List.cons_append]
      rw [if_neg (by omega), if_neg (by omega), if_neg (by omega), if_pos (by trivial)]
      rw [if_neg (by simp [leBytes_length])]
      rw [List.take_append_of_le_length (by simp [leBytes_length])]
      rw [List.take_of_length_le (by simp [leBytes_length])]
      rw [leVal_leBytes]
      rw [Nat.mod_eq_of_lt (by norm_num at hu ⊢; omega)]

theorem utf8Lossy_ascii (l : List Nat) (h : ∀ b ∈ l, b < 128) :
    utf8Lossy l = l := by
  induction l with
  | nil => rfl
  | cons b rest ih =>
    have hb : b < 128 := h b (by simp)
    unfold utf8Lossy
    rw [if_pos hb, ih (fun x hx => h x (by simp [hx]))]

theorem trimEndZeros_append_replicate (s : List Nat) (k : Nat)
    (h : s.getLast? ≠ some 0) :
    trimEndZeros (s ++ List.replicate k 0) = s := by
  unfold trimEndZeros
  rw [List.reverse_append, List.reverse_replicate]
  have hdrop0 : ∀ (m : Nat) (l : List Nat),
      (List.replicate m 0 ++ l).dropWhile (fun b => b = 0) =
        l.dropWhile (fun b => b = 0) := by
    intro m
    induction m with
    | zero => intro l; rfl
    | succ m ihm =>
      intro l
      rw [List.replicate_succ, List.cons_append, List.dropWhile_cons]
      simp only [decide_eq_true_eq, if_pos rfl]
      exact ihm l
  rw [hdrop0]
  cases hs : s.reverse with
  | nil =>
    have : s = [] := by simpa using congrArg List.reverse hs
    simp [this]
  | cons x xs =>
    have hx : x ≠ 0 := by
      have hlast : s.getLast? = some x := by
        rw [← List.head?_reverse, hs]
        rfl
      intro hx0
      rw [hx0] at hlast
      exact h hlast
    rw [List.dropWhile_cons]
    simp only [decide_eq_true_eq, hx, if_false]
    rw [← hs, List.reverse_reverse]

/-- Per-column round trip: a good value encodes to exactly
`fixed_size` bytes and decodes back to itself. -/
theorem column_roundtrip (t : ColumnType) (v : ColumnValue)
    (h : goodColumnValue t v) :
    ∃ enc, v.to_fixed_bytes t.fixed_size = .ok enc ∧
      enc.length = t.fixed_size ∧
      t.from_fixed_bytes enc = .ok v := by
  cases t with
  | INT =>
    cases v with
    | Int n =>
      obtain ⟨h1, h2⟩ := h
      have hzz : zigzag n < 2 ^ 32 := zigzag_lt n h1 h2
      have hlen : (varintEncodeU (zigzag n)).length ≤ 5 :=
        varintEncodeU_length_le_five _ hzz
      refine ⟨varintEncodeU (zigzag n) ++
        List.replicate (ColumnType.INT.fixed_size - (varintEncodeU (zigzag n)).length) 0,
        ?_, ?_, ?_⟩
      · simp only [ColumnValue.to_fixed_bytes, encodeIntoSlice]
        rw [if_neg (by simp only [ColumnType.fixed_size]; omega)]
      · simp only [List.length_append, List.length_replicate, ColumnType.fixed_size]
        omega
      · simp only [ColumnType.from_fixed_bytes]
        have hrest : varintEncodeU (zigzag n) ++
            List.replicate (ColumnType.INT.fixed_size - (varintEncodeU (zigzag n)).length) 0 =
            varintEncodeU (zigzag n) ++
            List.replicate (ColumnType.INT.fixed_size - (varintEncodeU (zigzag n)).length) 0 := rfl
        obtain ⟨c, hc⟩ := varintDecodeU_encode 253 (zigzag n)
          (List.replicate (ColumnType.INT.fixed_size - (varintEncodeU (zigzag n)).length) 0)
          hzz (by omega) (by omega)
        rw [hc]
        show Except.ok (ColumnValue.Int (unzigzag (zigzag n))) = _
        rw [unzigzag_zigzag]
    | SmallInt n => exact absurd h (by simp [goodColumnValue])
    | TinyInt n => exact absurd h (by simp [goodColumnValue])
    | BigInt n => exact absurd h (by simp [goodColumnValue])
    | Float b => exact absurd h (by simp [goodColumnValue])
    | Double b => exact absurd h (by simp [goodColumnValue])
    | VarChar s => exact absurd h (by simp [goodColumnValue])
    | Text s => exact absurd h (by simp [goodColumnValue])
    | DateTime s => exact absurd h (by simp [goodColumnValue])
    | Timestamp s => exact absurd h (by simp [goodColumnValue])
    | Boolean b => exact absurd h (by simp [goodColumnValue])
  | VARCHAR m =>
    cases v with
    | VarChar s =>
      obtain ⟨h1, h2, h3, h4⟩ := h
      refine ⟨s ++ List.replicate (ColumnType.fixed_size (.VARCHAR m) - s.length) 0,
        ?_, ?_, ?_⟩
      · simp only [ColumnValue.to_fixed_bytes]
        rw [if_neg (by omega), if_neg (by simp only [ColumnType.fixed_size]; omega)]
      · simp only [List.length_append, List.length_replicate, ColumnType.fixed_size]
        omega
      · simp only [ColumnType.from_fixed_bytes]
        rw [utf8Lossy_ascii _ (by
          intro b hb
          rcases List.mem_append.mp hb with hb | hb
          · exact h3 b hb
          · have := List.eq_of_mem_replicate hb
            omega)]
        rw [trimEndZeros_append_replicate s _ h4]
    | Int n => exact absurd h (by simp [goodColumnValue])
    | SmallInt n => exact absurd h (by simp [goodColumnValue])
    | TinyInt n => exact absurd h (by simp [goodColumnValue])
    | BigInt n => exact absurd h (by simp [goodColumnValue])
    | Float b => exact absurd h (by simp [goodColumnValue])
    | Double b => exact absurd h (by simp [goodColumnValue])
    | Text s => exact absurd h (by simp [goodColumnValue])
    | DateTime s => exact absurd h (by simp [goodColumnValue])
    | Timestamp s => exact absurd h (by simp [goodColumnValue])
    | Boolean b => exact absurd h (by simp [goodColumnValue])
  | SMALLINT => exact absurd h (by cases v <;> simp [goodColumnValue])
  | TINYINT => exact absurd h (by cases v <;> simp [goodColumnValue])
  | BIGINT => exact absurd h (by cases v <;> simp [goodColumnValue])
  | FLOAT => exact absurd h (by cases v <;> simp [goodColumnValue])
  | DOUBLE => exact absurd h (by cases v <;> simp [goodColumnValue])
  | TEXT => exact absurd h (by cases v <;> simp [goodColumnValue])
  | DATETIME => exact absurd h (by cases v <;> simp [goodColumnValue])
  | TIMESTAMP => exact absurd h (by cases v <;> simp [goodColumnValue])
  | BOOLEAN => exact absurd h (by cases v <;> simp [goodColumnValue])

/-! ## Row-level round trip (claim C6, amended) -/
@[simp] theorem except_pure_eq {α : Type} (a : α) :
    (pure a : Except Err α) = .ok a := rfl

theorem lookup_filter_ne (l : List (String × ColumnValue)) (n n' : String)
    (h : n' ≠ n) :
    (l.filter (fun p => p.1 ≠ n)).lookup n' = l.lookup n' := by
  induction l with
  | nil => rfl
  | cons a l ih =>
    by_cases ha : a.1 = n
    · rw [List.filter_cons_of_neg (by simp [ha])]
      rw [ih]
      rw [List.lookup_cons]
      have : (n' == a.1) = false := by
        simp [ha]
        exact h
      rw [this]
    · rw [List.filter_cons_of_pos (by simp [ha])]
      rw [List.lookup_cons, List.lookup_cons]
      cases hb : n' == a.1 with
      | true => rfl
      | false => exact ih

theorem Row.get_insert (r : Row) (n : String) (v : ColumnValue) (n' : String) :
    (r.insert n v).get n' = if n' = n then some v else r.get n' := by
  unfold Row.insert Row.get
  simp only [List.lookup_cons]
  by_cases h : n' = n
  · simp [h]
  · rw [if_neg h]
    have : (n' == n) = false := by simp [h]
    rw [this]
    exact lookup_filter_ne r.inner n n' h

theorem encode_row_fold (row : Row) :
    ∀ (cs : List ColumnSchema),
      (∀ col ∈ cs, ∃ v, row.get col.name = some v ∧ goodColumnValue col.type_ v) →
      ∀ acc, ∃ encs,
        cs.foldlM (encodeRowColumn row) acc = .ok (acc ++ encs.flatten) ∧
        List.Forall₂ (colEnc row) cs encs := by
  intro cs
  induction cs with
  | nil =>
    intro _ acc
    exact ⟨[], by simp [List.foldlM], List.Forall₂.nil⟩
  | cons c cs ih =>
    intro hgood acc
    obtain ⟨v, hv, hgv⟩ := hgood c (by simp)
    obtain ⟨enc, henc, hlen, hdec⟩ := column_roundtrip c.type_ v hgv
    obtain ⟨encs, hfold, hall⟩ := ih (fun col hc => hgood col (by simp [hc]))
      (acc ++ enc)
    refine ⟨enc :: encs, ?_, ?_⟩
    · rw [List.foldlM_cons]
      have hbody : encodeRowColumn row acc c = .ok (acc ++ enc) := by
        unfold encodeRowColumn
        rw [hv]
        simp only [henc, except_bind_ok, except_pure_eq]
      rw [hbody]
      show cs.foldlM (encodeRowColumn row) (acc ++ enc) = _
      rw [hfold]
      simp [List.append_assoc]
    · exact List.Forall₂.cons ⟨hlen, v, hv, hdec⟩ hall

/-- Encoding reads the row only through `get` at the schema's column
names. -/
theorem encode_row_fold_congr (row row2 : Row) :
    ∀ (cs : List ColumnSchema),
      (∀ col ∈ cs, row2.get col.name = row.get col.name) →
      ∀ acc, cs.foldlM (encodeRowColumn row2) acc =
        cs.foldlM (encodeRowColumn row) acc := by
  intro cs
  induction cs with
  | nil => intro _ acc; rfl
  | cons c cs ih =>
    intro hsame acc
    rw [List.foldlM_cons, List.foldlM_cons]
    have hb : encodeRowColumn row2 acc c = encodeRowColumn row acc c := by
      unfold encodeRowColumn
      rw [hsame c (by simp)]
    rw [hb]
    cases hres : encodeRowColumn row acc c with
    | error e => rfl
    | ok acc2 =>
      show cs.foldlM (encodeRowColumn row2) acc2 = cs.foldlM (encodeRowColumn row) acc2
      exact ih (fun col hc => hsame col (by simp [hc])) acc2

theorem flatten_length_of_forall₂ (row : Row) :
    ∀ (cs : List ColumnSchema) (encs : List (List Nat)),
      List.Forall₂ (colEnc row) cs encs →
      encs.flatten.length = (cs.map (fun c => c.type_.fixed_size)).sum := by
  intro cs encs hall
  induction hall with
  | nil => rfl
  | cons h _ ih =>
    simp only [List.flatten_cons, List.length_append, List.map_cons, List.sum_cons, ih]
    rw [h.1]

theorem decode_row_fold (row : Row) (encoded : List Nat) :
    ∀ (cs : List ColumnSchema) (encs : List (List Nat)),
      List.Forall₂ (colEnc row) cs encs →
      ∀ (racc : Row) (offset : Nat),
        encoded.drop offset = encs.flatten →
        encoded.length = offset + encs.flatten.length →
        ∃ st, cs.foldlM (decodeRowColumn encoded) (racc, offset) = .ok st ∧
          ∀ name, st.1.get name =
            if cs.any (fun c => c.name = name) then row.get name else racc.get name := by
  intro cs encs hall
  induction hall with
  | nil =>
    intro racc offset _ _
    exact ⟨(racc, offset), by simp [List.foldlM], fun name => by simp⟩
  | @cons c e cs encs hce hrest ih =>
    intro racc offset hdrop hlen
    obtain ⟨helen, v, hv, hdec⟩ := hce
    have hsz : e.length + encs.flatten.length = encoded.length - offset := by
      simp only [List.flatten_cons, List.length_append] at hlen
      omega
    have hslice : (encoded.drop offset).take c.type_.fixed_size = e := by
      rw [hdrop, List.flatten_cons, ← helen, List.take_left]
    have hdrop2 : encoded.drop (offset + c.type_.fixed_size) = encs.flatten := by
      rw [← helen, ← List.drop_drop, hdrop, List.flatten_cons, List.drop_left]
    have hbody : decodeRowColumn encoded (racc, offset) c =
        .ok (racc.insert c.name v, offset + c.type_.fixed_size) := by
      unfold decodeRowColumn
      rw [if_neg (by
        simp only [List.flatten_cons, List.length_append] at hlen
        omega)]
      rw [hslice, hdec]
      rfl
    rw [List.foldlM_cons, hbody]
    obtain ⟨st, hfold, hget⟩ := ih (racc.insert c.name v) (offset + c.type_.fixed_size)
      hdrop2 (by simp only [List.flatten_cons, List.length_append] at hlen; omega)
    refine ⟨st, hfold, ?_⟩
    intro name
    rw [hget name, Row.get_insert]
    by_cases hany : cs.any (fun col => col.name = name) = true
    · rw [if_pos hany]
      rw [if_pos (by simp only [List.any_cons, hany, Bool.or_true])]
    · rw [if_neg hany]
      by_cases hn : name = c.name
      · subst hn
        rw [if_pos rfl, hv]
        rw [if_pos (by simp only [List.any_cons]; simp)]
      · rw [if_neg hn]
        rw [if_neg (by
          simp only [List.any_cons, Bool.or_eq_true, decide_eq_true_eq]
          push_neg
          exact ⟨fun hc => hn hc.symm, by simpa using hany⟩)]

/-- Claim C6 (amended): the row-codec laws hold in the following form.
For every schema and row such that each schema column holds a row value
in the supported domain (`INT` values in the `i32` range whose varint
fits the 8-byte field; ASCII `VARCHAR` values with no trailing zero
byte that fit their column and the 2048-byte cap — zero-padding on
encode and *trailing-zero* trimming on decode make other text values
non-recoverable), `encode_row` produces exactly `row_size` bytes,
`decode_row` maps them back to a row agreeing with the original on
every schema column, and re-encoding that decoded row reproduces the
same buffer (the second law holds on the image of `encode_row`, not on
arbitrary buffers). -/
theorem C6_amended_row_codec (schema : TableSchema) (row : Row)
    (h : ∀ col ∈ schema.columns, ∃ v,
      row.get col.name = some v ∧ goodColumnValue col.type_ v) :
    ∃ bytes, encode_row schema row = .ok bytes ∧
      bytes.length = schema.get_row_size ∧
      ∃ row2, decode_row schema bytes = .ok row2 ∧
        (∀ col ∈ schema.columns, row2.get col.name = row.get col.name) ∧
        encode_row schema row2 = .ok bytes := by
  obtain ⟨encs, hfold, hall⟩ := encode_row_fold row schema.columns h []
  have hbytes : encode_row schema row = .ok encs.flatten := by
    unfold encode_row
    rw [hfold, List.nil_append]
  have hblen : encs.flatten.length = schema.get_row_size :=
    flatten_length_of_forall₂ row _ _ hall
  obtain ⟨st, hfold2, hget⟩ := decode_row_fold row encs.flatten schema.columns encs
    hall ⟨[]⟩ 0 (by simp) (by simp)
  have hgets : ∀ col ∈ schema.columns, st.1.get col.name = row.get col.name := by
    intro col hc
    rw [hget col.name, if_pos (by
      rw [List.any_eq_true]
      exact ⟨col, hc, by simp⟩)]
  have hdecode : decode_row schema encs.flatten = .ok st.1 := by
    unfold decode_row
    rw [if_neg (by simp [hblen])]
    rw [hfold2, except_bind_ok, except_pure_eq]
  refine ⟨encs.flatten, hbytes, hblen, st.1, hdecode, hgets, ?_⟩
  unfold encode_row
  rw [encode_row_fold_congr row st.1 schema.columns hgets []]
  show encode_row schema row = _
  rw [hbytes]

/-- Witness for the amended C6 statement on the built-in `SCHEMA`. -/
theorem C6_amended_row_codec_witness :
    ∃ bytes, encode_row SCHEMA wRow = .ok bytes ∧
      bytes.length = SCHEMA.get_row_size ∧
      ∃ row2, decode_row SCHEMA bytes = .ok row2 ∧
        (∀ col ∈ SCHEMA.columns, row2.get col.name = wRow.get col.name) ∧
        encode_row SCHEMA row2 = .ok bytes := by
  apply C6_amended_row_codec SCHEMA wRow
  intro col hc
  simp only [SCHEMA, List.mem_cons, List.not_mem_nil, or_false] at hc
  rcases hc with rfl | rfl | rfl
  · exact ⟨.Int 7, rfl, by constructor <;> norm_num⟩
  · refine ⟨.VarChar [103], rfl, ?_, ?_, ?_, ?_⟩ <;> decide
  · refine ⟨.VarChar [101], rfl, ?_, ?_, ?_, ?_⟩ <;> decide

/-! ## Symbolic-execution lemmas for the engine monad -/
theorem run_bind {α β : Type} (x : EngineM α) (f : α → EngineM β) (t : Table) :
    (x >>= f) t =
      match x t with
      | (.ok a, t') => f a t'
      | (.error e, t') => (.error e, t') := rfl

theorem run_bind_ok {α β : Type} {x : EngineM α} {t t' : Table} {a : α}
    (f : α → EngineM β) (hx : x t = (.ok a, t')) : (x >>= f) t = f a t' := by
  rw [run_bind, hx]

theorem run_liftE {α : Type} (x : Except Err α) (t : Table) :
    liftE x t = (x, t) := rfl

theorem run_getT (t : Table) : getT t = (.ok t, t) := rfl

theorem run_commitPage (p : Nat) (n : Node) (t : Table) :
    commitPage p n t = (.ok (), { t with pager := t.pager.commit p n }) := rfl

theorem run_pure {α : Type} (a : α) (t : Table) :
    (pure a : EngineM α) t = (.ok a, t) := rfl

theorem run_throwE {α : Type} (e : Err) (t : Table) :
    (throwE e : EngineM α) t = (.error e, t) := rfl

/-! ## Evaluation lemmas for the node accessors -/
theorem get_of_getElem (p : Pager) (i : Nat) (d : Bytes)
    (h : p.pages[i]? = some d) : p.get i = .ok (Node.mk d p.row_size) := by
  unfold Pager.get
  rw [h]

theorem internal_node_num_keys_eq (n : Node) :
    n.internal_node_num_keys = .ok (readU32 n.data INTERNAL_NODE_NUM_KEYS_OFFSET) := rfl

theorem internal_node_right_child_eq (n : Node) :
    n.internal_node_right_child = .ok (readU32 n.data INTERNAL_NODE_RIGHT_CHILD_OFFSET) := rfl

theorem leaf_node_num_cells_eq (n : Node) :
    n.leaf_node_num_cells = .ok (readU32 n.data LEAF_NODE_NUM_CELLS_OFFSET) := rfl

theorem leaf_node_next_leaf_eq (n : Node) :
    n.leaf_node_next_leaf = .ok (readU32 n.data LEAF_NODE_NEXT_LEAF_OFFSET) := rfl

theorem node_parent_eq (n : Node) :
    n.node_parent = .ok (readU32 n.data PARENT_POINTER_OFFSET) := rfl

theorem internal_node_key_eq (n : Node) (i : Nat) (h : i ≤ 509) :
    n.internal_node_key i =
      .ok (readU32 n.data (Node.internal_node_cell_offset i + INTERNAL_NODE_CHILD_SIZE)) := by
  unfold Node.internal_node_key Node.internal_node_cell Node.slice_at
  rw [if_neg (by
    simp only [Node.internal_node_cell_offset, INTERNAL_NODE_HEADER_SIZE,
      INTERNAL_NODE_CELL_SIZE, PAGE_SIZE, INTERNAL_NODE_CHILD_SIZE,
      INTERNAL_NODE_KEY_SIZE, COMMON_NODE_HEADER_SIZE, NODE_TYPE_SIZE, IS_ROOT_SIZE,
      PARENT_POINTER_SIZE, INTERNAL_NODE_NUM_KEYS_SIZE, INTERNAL_NODE_RIGHT_CHILD_SIZE]
    omega)]
  rfl

theorem set_internal_node_key_eq (n : Node) (i v : Nat) (h : i ≤ 509) :
    n.set_internal_node_key i v =
      .ok { n with data := (writeList n.data
        (Node.internal_node_cell_offset i + INTERNAL_NODE_CHILD_SIZE) (u32le v)) } := by
  unfold Node.set_internal_node_key
  rw [if_neg (by
    simp only [Node.internal_node_cell_offset, INTERNAL_NODE_HEADER_SIZE,
      INTERNAL_NODE_CELL_SIZE, PAGE_SIZE, INTERNAL_NODE_CHILD_SIZE,
      INTERNAL_NODE_KEY_SIZE, COMMON_NODE_HEADER_SIZE, NODE_TYPE_SIZE, IS_ROOT_SIZE,
      PARENT_POINTER_SIZE, INTERNAL_NODE_NUM_KEYS_SIZE, INTERNAL_NODE_RIGHT_CHILD_SIZE]
    omega)]

theorem readU32_lt (s : Bytes) (off : Nat) : readU32 s off < 2 ^ 32 := by
  unfold readU32 readByte
  have h0 : s off % 256 < 256 := Nat.mod_lt _ (by norm_num)
  have h1 : s (off + 1) % 256 < 256 := Nat.mod_lt _ (by norm_num)
  have h2 : s (off + 2) % 256 < 256 := Nat.mod_lt _ (by norm_num)
  have h3 : s (off + 3) % 256 < 256 := Nat.mod_lt _ (by norm_num)
  have hp : (2 : Nat) ^ 32 = 4294967296 := by norm_num
  omega

theorem internalFindChildLoop_ok (n : Node) (key : Nat) :
    ∀ (fuel mn mx : Nat), mn ≤ mx → mx ≤ 509 → mx - mn < fuel →
      ∃ idx, internalFindChildLoop n key fuel mn mx = .ok idx ∧
        mn ≤ idx ∧ idx ≤ mx := by
  intro fuel
  induction fuel with
  | zero => intro mn mx h1 h2 h3; exact absurd h3 (by omega)
  | succ fuel ih =>
    intro mn mx h1 h2 h3
    rw [show internalFindChildLoop n key (fuel + 1) mn mx =
      (if mn < mx then
        (n.internal_node_key ((mn + mx) / 2) >>= fun key_at_mid =>
          if key ≤ key_at_mid then
            internalFindChildLoop n key fuel mn ((mn + mx) / 2)
          else
            internalFindChildLoop n key fuel ((mn + mx) / 2 + 1) mx)
      else .ok mn) from rfl]
    by_cases hlt : mn < mx
    · rw [if_pos hlt, internal_node_key_eq n ((mn + mx) / 2) (by omega), except_bind_ok]
      by_cases hle : key ≤ readU32 n.data
          (Node.internal_node_cell_offset ((mn + mx) / 2) + INTERNAL_NODE_CHILD_SIZE)
      · rw [if_pos hle]
        obtain ⟨idx, hres, hlb, hub⟩ := ih mn ((mn + mx) / 2) (by omega) (by omega) (by omega)
        exact ⟨idx, hres, hlb, by omega⟩
      · rw [if_neg hle]
        obtain ⟨idx, hres, hlb, hub⟩ := ih ((mn + mx) / 2 + 1) mx (by omega) h2 (by omega)
        exact ⟨idx, hres, by omega, hub⟩
    · rw [if_neg hlt]
      exact ⟨mn, rfl, Nat.le_refl mn, by omega⟩

theorem internal_node_find_child_ok (n : Node) (key nk : Nat)
    (hn : readU32 n.data INTERNAL_NODE_NUM_KEYS_OFFSET = nk) (hnk : nk ≤ 509) :
    ∃ idx, n.internal_node_find_child key = .ok idx ∧ idx ≤ nk := by
  unfold Node.internal_node_find_child
  rw [internal_node_num_keys_eq, except_bind_ok, hn]
  obtain ⟨idx, hl, _, hub⟩ :=
    internalFindChildLoop_ok n key (nk + 1) 0 nk (by omega) hnk (by omega)
  exact ⟨idx, hl, hub⟩

theorem internal_node_cell_eq (n : Node) (i : Nat) (h : i ≤ 509) :
    n.internal_node_cell i =
      .ok (readBytes n.data (Node.internal_node_cell_offset i) INTERNAL_NODE_CELL_SIZE) := by
  unfold Node.internal_node_cell Node.slice_at
  rw [if_neg (by
    simp only [Node.internal_node_cell_offset, INTERNAL_NODE_HEADER_SIZE,
      INTERNAL_NODE_CELL_SIZE, PAGE_SIZE]
    omega)]

theorem write_internal_node_cell_eq (n : Node) (i : Nat) (src : List Nat)
    (h : i ≤ 509) :
    n.write_internal_node_cell i src =
      .ok { n with data := (writeList n.data (Node.internal_node_cell_offset i) src) } := by
  unfold Node.write_internal_node_cell
  rw [if_neg (by
    simp only [Node.internal_node_cell_offset, INTERNAL_NODE_HEADER_SIZE,
      INTERNAL_NODE_CELL_SIZE, PAGE_SIZE]
    omega)]

theorem readBytes_map_mod (s : Bytes) (off n : Nat) :
    (readBytes s off n).map (fun b => b % 256) = readBytes s off n := by
  unfold readBytes readByte
  rw [List.map_map]
  apply List.map_congr_left
  intro k _
  simp only [Function.comp]
  omega

/-- The "make room" loop of `internal_node_insert`: processing cells
`lo + m - 1` down to `lo`, each destination cell `j` receives the
source clone's cell `j - 1`; every byte outside those cells is kept. -/
theorem internalShiftLoop_spec (src : Node) :
    ∀ (m lo : Nat) (parent : Node), 1 ≤ lo → lo + m ≤ 510 →
      ∃ parent', internalShiftLoop src ((List.range' lo m).reverse) parent = .ok parent' ∧
        parent'.row_size = parent.row_size ∧
        (∀ b, ¬ inCellRange lo (lo + m - 1) b → parent'.data b = parent.data b) ∧
        (∀ j, lo ≤ j → j < lo + m →
          readBytes parent'.data (Node.internal_node_cell_offset j) INTERNAL_NODE_CELL_SIZE =
          readBytes src.data (Node.internal_node_cell_offset (j - 1)) INTERNAL_NODE_CELL_SIZE) := by
  intro m
  induction m with
  | zero =>
    intro lo parent hlo hcap
    exact ⟨parent, rfl, rfl, fun b _ => rfl, fun j h1 h2 => absurd (Nat.lt_of_le_of_lt h1 h2) (by omega)⟩
  | succ m ih =>
    intro lo parent hlo hcap
    have hrange : (List.range' lo (m + 1)).reverse =
        (lo + m) :: (List.range' lo m).reverse := by
      rw [List.range'_concat, List.reverse_append]
      simp
    rw [hrange]
    have hitop : lo + m ≤ 509 := by omega
    have hsrc : src.internal_node_cell (lo + m - 1) =
        .ok (readBytes src.data (Node.internal_node_cell_offset (lo + m - 1))
          INTERNAL_NODE_CELL_SIZE) := internal_node_cell_eq src _ (by omega)
    have hwrite := write_internal_node_cell_eq parent (lo + m)
      (readBytes src.data (Node.internal_node_cell_offset (lo + m - 1))
        INTERNAL_NODE_CELL_SIZE) hitop
    obtain ⟨parent', hloop, hrs, hframe, hcells⟩ := ih lo
      { parent with data := (writeList parent.data (Node.internal_node_cell_offset (lo + m))
          (readBytes src.data (Node.internal_node_cell_offset (lo + m - 1))
            INTERNAL_NODE_CELL_SIZE)) } hlo (by omega)
    refine ⟨parent', ?_, hrs, ?_, ?_⟩
    · show (src.internal_node_cell (lo + m - 1) >>= fun s =>
        parent.write_internal_node_cell (lo + m) s >>= fun parent2 =>
          internalShiftLoop src ((List.range' lo m).reverse) parent2) = _
      rw [hsrc, except_bind_ok, hwrite, except_bind_ok]
      exact hloop
    · intro b hb
      have hb' : ¬ inCellRange lo (lo + m - 1) b := by
        intro ⟨j, hj1, hj2, hj3, hj4⟩
        exact hb ⟨j, hj1, by omega, hj3, hj4⟩
      rw [hframe b hb']
      show writeList parent.data _ _ b = parent.data b
      apply writeList_outside
      have hlen : (readBytes src.data (Node.internal_node_cell_offset (lo + m - 1))
          INTERNAL_NODE_CELL_SIZE).length = INTERNAL_NODE_CELL_SIZE :=
        readBytes_length _ _ _
      rw [hlen]
      by_contra hcon
      push_neg at hcon
      exact hb ⟨lo + m, by omega, by omega, hcon.1, hcon.2⟩
    · intro j hj1 hj2
      by_cases hjtop : j = lo + m
      · subst hjtop
        have hout : ∀ k, k < INTERNAL_NODE_CELL_SIZE →
            parent'.data (Node.internal_node_cell_offset (lo + m) + k) =
            writeList parent.data (Node.internal_node_cell_offset (lo + m))
              (readBytes src.data (Node.internal_node_cell_offset (lo + m - 1))
                INTERNAL_NODE_CELL_SIZE)
              (Node.internal_node_cell_offset (lo + m) + k) := by
          intro k hk
          apply hframe
          intro ⟨j2, hj21, hj22, hj23, hj24⟩
          simp only [Node.internal_node_cell_offset, INTERNAL_NODE_HEADER_SIZE,
            INTERNAL_NODE_CELL_SIZE] at hj23 hj24 hk ⊢
          omega
        have : readBytes parent'.data (Node.internal_node_cell_offset (lo + m))
            INTERNAL_NODE_CELL_SIZE =
            readBytes (writeList parent.data (Node.internal_node_cell_offset (lo + m))
              (readBytes src.data (Node.internal_node_cell_offset (lo + m - 1))
                INTERNAL_NODE_CELL_SIZE))
              (Node.internal_node_cell_offset (lo + m)) INTERNAL_NODE_CELL_SIZE := by
          unfold readBytes readByte
          apply List.map_congr_left
          intro k hk
          simp only [List.mem_range] at hk
          rw [hout k hk]
          rfl
        rw [this]
        have hL : INTERNAL_NODE_CELL_SIZE = (readBytes src.data
            (Node.internal_node_cell_offset (lo + m - 1)) INTERNAL_NODE_CELL_SIZE).length :=
          (readBytes_length _ _ _).symm
        nth_rewrite 2 [hL]
        rw [readBytes_writeList_self, readBytes_map_mod]
      · exact hcells j hj1 (by omega)

/-! ## Symbolic execution of `internal_node_insert` on a non-full parent -/
theorem run_liftE_ok {α : Type} {x : Except Err α} {a : α}
    (hx : x = .ok a) (t : Table) : liftE x t = (.ok a, t) := by
  rw [run_liftE, hx]

theorem node_data_mk (d : Bytes) (r : Nat) : (Node.mk d r).data = d := rfl

theorem node_row_size_mk (d : Bytes) (r : Nat) : (Node.mk d r).row_size = r := rfl

theorem readU32_congr (s1 s2 : Bytes) (off : Nat)
    (h : ∀ k, k < 4 → s1 (off + k) = s2 (off + k)) :
    readU32 s1 off = readU32 s2 off := by
  have h0 := h 0 (by omega)
  have h1 := h 1 (by omega)
  have h2 := h 2 (by omega)
  have h3 := h 3 (by omega)
  rw [Nat.add_zero] at h0
  unfold readU32 readByte
  rw [h0, h1, h2, h3]

/-- Full characterization of `internal_node_insert` on a non-full internal
parent: three-way case split on `right_child` / max-key comparison; in every
branch the committed parent has `num_keys = nk + 1` (the pre-increment
happens before the empty-parent branch is examined), and only page `p` of
the pager is replaced (`commit p`). -/
theorem internal_node_insert_nonfull_spec
    (fuel p c nk rc kc idx krc : Nat) (t : Table) (Pd : Bytes)
    (child right_child : Node)
    (hp : t.pager.pages[p]? = some Pd)
    (hc : t.pager.get c = .ok child)
    (hkc : t.pager.node_max_key child = .ok kc)
    (hidx : (Node.mk Pd t.pager.row_size).internal_node_find_child kc = .ok idx)
    (hnk : readU32 Pd INTERNAL_NODE_NUM_KEYS_OFFSET = nk)
    (hrc : readU32 Pd INTERNAL_NODE_RIGHT_CHILD_OFFSET = rc)
    (hfull : nk < INTERNAL_NODE_MAX_CELLS)
    (hB : rc ≠ INVALID_PAGE_NUM →
      t.pager.get rc = .ok right_child ∧
      t.pager.node_max_key right_child = .ok krc) :
    ∃ d' : Bytes,
      internal_node_insert (fuel + 1) p c t =
        (.ok (), { t with pager := t.pager.commit p (Node.mk d' t.pager.row_size) }) ∧
      readU32 d' INTERNAL_NODE_NUM_KEYS_OFFSET = nk + 1 ∧
      (rc = INVALID_PAGE_NUM →
        readU32 d' INTERNAL_NODE_RIGHT_CHILD_OFFSET = c % 2 ^ 32 ∧
        ∀ b, INTERNAL_NODE_HEADER_SIZE ≤ b → d' b = Pd b) ∧
      (rc ≠ INVALID_PAGE_NUM → krc < kc →
        readU32 d' INTERNAL_NODE_RIGHT_CHILD_OFFSET = c % 2 ^ 32 ∧
        readU32 d' (Node.internal_node_cell_offset nk) = rc % 2 ^ 32 ∧
        readU32 d' (Node.internal_node_cell_offset nk + INTERNAL_NODE_CHILD_SIZE)
          = krc % 2 ^ 32 ∧
        (∀ b, INTERNAL_NODE_HEADER_SIZE ≤ b → b < Node.internal_node_cell_offset nk →
          d' b = Pd b)) ∧
      (rc ≠ INVALID_PAGE_NUM → kc ≤ krc →
        idx ≤ nk ∧
        readU32 d' INTERNAL_NODE_RIGHT_CHILD_OFFSET = rc ∧
        readU32 d' (Node.internal_node_cell_offset idx) = c % 2 ^ 32 ∧
        readU32 d' (Node.internal_node_cell_offset idx + INTERNAL_NODE_CHILD_SIZE)
          = kc % 2 ^ 32 ∧
        (∀ j, idx < j → j ≤ nk →
          readBytes d' (Node.internal_node_cell_offset j) INTERNAL_NODE_CELL_SIZE =
          readBytes Pd (Node.internal_node_cell_offset (j - 1)) INTERNAL_NODE_CELL_SIZE) ∧
        (∀ b, INTERNAL_NODE_HEADER_SIZE ≤ b → b < Node.internal_node_cell_offset idx →
          d' b = Pd b)) := by
  have hmax3 : INTERNAL_NODE_MAX_CELLS = 3 := rfl
  have hnk3 : nk < 3 := hmax3 ▸ hfull
  have hnotfull : ¬ nk ≥ INTERNAL_NODE_MAX_CELLS := by omega
  have hmod : (nk + 1) % 2 ^ 32 = nk + 1 :=
    Nat.mod_eq_of_lt (by rw [show (2 : Nat) ^ 32 = 4294967296 from by norm_num]; omega)
  have hgetp : t.pager.get p = .ok (Node.mk Pd t.pager.row_size) :=
    get_of_getElem _ _ _ hp
  have hnumk : (Node.mk Pd t.pager.row_size).internal_node_num_keys = .ok nk := by
    rw [internal_node_num_keys_eq]; exact congrArg Except.ok hnk
  have hrc1 : ((Node.mk Pd t.pager.row_size).set_internal_node_num_keys
      (nk + 1)).internal_node_right_child = .ok rc := by
    rw [internal_node_right_child_eq]
    refine congrArg Except.ok ?_
    show readU32 (writeList Pd INTERNAL_NODE_NUM_KEYS_OFFSET (u32le (nk + 1)))
      INTERNAL_NODE_RIGHT_CHILD_OFFSET = rc
    rw [readU32_writeList_outside _ _ _ _ (Or.inr (by rw [u32le_length]; decide))]
    exact hrc
  have hidxle : idx ≤ nk := by
    obtain ⟨idx2, hfind2, hub⟩ := internal_node_find_child_ok
      (Node.mk Pd t.pager.row_size) kc nk hnk (by omega)
    rw [hidx] at hfind2
    injection hfind2 with he
    omega
  by_cases hA : rc = INVALID_PAGE_NUM
  · -- empty internal parent: right_child := c, and num_keys is ALSO set to nk + 1
    refine ⟨writeList (writeList Pd INTERNAL_NODE_NUM_KEYS_OFFSET (u32le (nk + 1)))
      INTERNAL_NODE_RIGHT_CHILD_OFFSET (u32le c), ?_, ?_, ?_, ?_, ?_⟩
    · simp only [internal_node_insert, run_bind, run_liftE, run_getT, run_commitPage,
        hgetp, hc, hkc, hidx, hnumk, hrc1, if_neg hnotfull, if_pos hA]
      rfl
    · rw [readU32_writeList_outside _ _ _ _ (Or.inl (by decide)),
        readU32_writeList_u32le]
      exact hmod
    · intro _
      refine ⟨readU32_writeList_u32le _ _ _, ?_⟩
      intro b hb
      rw [writeList_outside _ _ _ _ (Or.inr (by
        simp only [u32le_length, INTERNAL_NODE_RIGHT_CHILD_OFFSET]
        simp only [INTERNAL_NODE_HEADER_SIZE] at hb
        omega))]
      rw [writeList_outside _ _ _ _ (Or.inr (by
        simp only [u32le_length, INTERNAL_NODE_NUM_KEYS_OFFSET]
        simp only [INTERNAL_NODE_HEADER_SIZE] at hb
        omega))]
    · intro h _; exact absurd hA h
    · intro h _; exact absurd hA h
  · obtain ⟨hgrc, hkrc⟩ := hB hA
    have hnumk2 : readU32 (writeList (writeList Pd INTERNAL_NODE_NUM_KEYS_OFFSET
        (u32le (nk + 1))) INTERNAL_NODE_NUM_KEYS_OFFSET (u32le (nk + 1)))
        INTERNAL_NODE_NUM_KEYS_OFFSET = nk + 1 := by
      rw [readU32_writeList_u32le]; exact hmod
    by_cases hgt : kc > krc
    · -- replace right child
      have h7 : (((Node.mk Pd t.pager.row_size).set_internal_node_num_keys
          (nk + 1)).set_internal_node_num_keys (nk + 1)).write_internal_node_child nk rc
          = .ok (Node.mk (writeList (writeList (writeList Pd
            INTERNAL_NODE_NUM_KEYS_OFFSET (u32le (nk + 1)))
            INTERNAL_NODE_NUM_KEYS_OFFSET (u32le (nk + 1)))
            (Node.internal_node_cell_offset nk) (u32le rc)) t.pager.row_size) := by
        unfold Node.write_internal_node_child
        simp only [internal_node_num_keys_eq, except_bind_ok]
        rw [show (((Node.mk Pd t.pager.row_size).set_internal_node_num_keys
          (nk + 1)).set_internal_node_num_keys (nk + 1)).data =
          writeList (writeList Pd INTERNAL_NODE_NUM_KEYS_OFFSET (u32le (nk + 1)))
            INTERNAL_NODE_NUM_KEYS_OFFSET (u32le (nk + 1)) from rfl]
        rw [hnumk2]
        rw [if_neg (by omega), if_neg (by omega), if_neg (by
          simp only [Node.internal_node_cell_offset, INTERNAL_NODE_HEADER_SIZE,
            INTERNAL_NODE_CELL_SIZE, INTERNAL_NODE_CHILD_SIZE, PAGE_SIZE]
          omega)]
        rfl
      have h9 : (Node.mk (writeList (writeList (writeList Pd
          INTERNAL_NODE_NUM_KEYS_OFFSET (u32le (nk + 1)))
          INTERNAL_NODE_NUM_KEYS_OFFSET (u32le (nk + 1)))
          (Node.internal_node_cell_offset nk) (u32le rc))
          t.pager.row_size).set_internal_node_key nk krc
          = .ok (Node.mk (writeList (writeList (writeList (writeList Pd
            INTERNAL_NODE_NUM_KEYS_OFFSET (u32le (nk + 1)))
            INTERNAL_NODE_NUM_KEYS_OFFSET (u32le (nk + 1)))
            (Node.internal_node_cell_offset nk) (u32le rc))
            (Node.internal_node_cell_offset nk + INTERNAL_NODE_CHILD_SIZE) (u32le krc))
            t.pager.row_size) := by
        rw [set_internal_node_key_eq _ _ _ (by omega)]
      refine ⟨writeList (writeList (writeList (writeList (writeList Pd
        INTERNAL_NODE_NUM_KEYS_OFFSET (u32le (nk + 1)))
        INTERNAL_NODE_NUM_KEYS_OFFSET (u32le (nk + 1)))
        (Node.internal_node_cell_offset nk) (u32le rc))
        (Node.internal_node_cell_offset nk + INTERNAL_NODE_CHILD_SIZE) (u32le krc))
        INTERNAL_NODE_RIGHT_CHILD_OFFSET (u32le c), ?_, ?_, ?_, ?_, ?_⟩
      · simp only [internal_node_insert, run_bind, run_liftE, run_getT, run_commitPage,
          hgetp, hc, hkc, hidx, hnumk, hrc1, if_neg hnotfull, if_neg hA,
          hgrc, hkrc, if_pos hgt, h7, h9]
        rfl
      · rw [readU32_writeList_outside _ _ _ _ (Or.inl (by decide))]
        rw [readU32_writeList_outside _ _ _ _ (Or.inl (by
          simp only [Node.internal_node_cell_offset, INTERNAL_NODE_HEADER_SIZE,
            INTERNAL_NODE_CELL_SIZE, INTERNAL_NODE_CHILD_SIZE,
            INTERNAL_NODE_NUM_KEYS_OFFSET]
          omega))]
        rw [readU32_writeList_outside _ _ _ _ (Or.inl (by
          simp only [Node.internal_node_cell_offset, INTERNAL_NODE_HEADER_SIZE,
            INTERNAL_NODE_CELL_SIZE, INTERNAL_NODE_NUM_KEYS_OFFSET]
          omega))]
        exact hnumk2
      · intro h; exact absurd h hA
      · intro _ _
        refine ⟨readU32_writeList_u32le _ _ _, ?_, ?_, ?_⟩
        · rw [readU32_writeList_outside _ _ _ _ (Or.inr (by
            simp only [u32le_length, Node.internal_node_cell_offset,
              INTERNAL_NODE_HEADER_SIZE, INTERNAL_NODE_CELL_SIZE,
              INTERNAL_NODE_RIGHT_CHILD_OFFSET]
            omega))]
          rw [readU32_writeList_outside _ _ _ _ (Or.inl (by
            simp only [u32le_length, Node.internal_node_cell_offset,
              INTERNAL_NODE_HEADER_SIZE, INTERNAL_NODE_CELL_SIZE,
              INTERNAL_NODE_CHILD_SIZE]
            omega))]
          exact readU32_writeList_u32le _ _ _
        · rw [readU32_writeList_outside _ _ _ _ (Or.inr (by
            simp only [u32le_length, Node.internal_node_cell_offset,
              INTERNAL_NODE_HEADER_SIZE, INTERNAL_NODE_CELL_SIZE,
              INTERNAL_NODE_CHILD_SIZE, INTERNAL_NODE_RIGHT_CHILD_OFFSET]
            omega))]
          exact readU32_writeList_u32le _ _ _
        · intro b hb1 hb2
          simp only [INTERNAL_NODE_HEADER_SIZE] at hb1
          simp only [Node.internal_node_cell_offset, INTERNAL_NODE_HEADER_SIZE,
            INTERNAL_NODE_CELL_SIZE] at hb2
          rw [writeList_outside _ _ _ _ (Or.inr (by
            simp only [u32le_length, INTERNAL_NODE_RIGHT_CHILD_OFFSET]; omega))]
          rw [writeList_outside _ _ _ _ (Or.inl (by
            simp only [Node.internal_node_cell_offset, INTERNAL_NODE_HEADER_SIZE,
              INTERNAL_NODE_CELL_SIZE, INTERNAL_NODE_CHILD_SIZE]
            omega))]
          rw [writeList_outside _ _ _ _ (Or.inl (by
            simp only [Node.internal_node_cell_offset, INTERNAL_NODE_HEADER_SIZE,
              INTERNAL_NODE_CELL_SIZE]
            omega))]
          rw [writeList_outside _ _ _ _ (Or.inr (by
            simp only [u32le_length, INTERNAL_NODE_NUM_KEYS_OFFSET]; omega))]
          rw [writeList_outside _ _ _ _ (Or.inr (by
            simp only [u32le_length, INTERNAL_NODE_NUM_KEYS_OFFSET]; omega))]
      · intro _ hle; exact absurd hle (by omega)
    · -- shift cells right and insert at idx
      obtain ⟨parent2, hloop, hprs, hframe, hcells⟩ :=
        internalShiftLoop_spec (((Node.mk Pd t.pager.row_size).set_internal_node_num_keys
            (nk + 1)).set_internal_node_num_keys (nk + 1)) (nk - idx) (idx + 1)
          (((Node.mk Pd t.pager.row_size).set_internal_node_num_keys
            (nk + 1)).set_internal_node_num_keys (nk + 1)) (by omega) (by omega)
      have hnomem2 : ∀ b, b < Node.internal_node_cell_offset idx →
          ¬ inCellRange (idx + 1) (idx + 1 + (nk - idx) - 1) b := by
        intro b hb hmem
        obtain ⟨j, hj1, hj2, hj3, hj4⟩ := hmem
        simp only [Node.internal_node_cell_offset, INTERNAL_NODE_HEADER_SIZE,
          INTERNAL_NODE_CELL_SIZE] at hj3 hj4 hb
        omega
      have hpnk : readU32 parent2.data INTERNAL_NODE_NUM_KEYS_OFFSET = nk + 1 := by
        rw [readU32_congr _ (writeList (writeList Pd INTERNAL_NODE_NUM_KEYS_OFFSET
          (u32le (nk + 1))) INTERNAL_NODE_NUM_KEYS_OFFSET (u32le (nk + 1))) _ (by
            intro k hk
            exact hframe _ (hnomem2 _ (by
              simp only [Node.internal_node_cell_offset, INTERNAL_NODE_NUM_KEYS_OFFSET,
                INTERNAL_NODE_HEADER_SIZE, INTERNAL_NODE_CELL_SIZE]
              omega)))]
        exact hnumk2
      have h10 : parent2.set_internal_node_child idx c =
          .ok (Node.mk (writeList parent2.data (Node.internal_node_cell_offset idx)
            (u32le c)) parent2.row_size) := by
        show parent2.write_internal_node_child idx c = _
        unfold Node.write_internal_node_child
        simp only [internal_node_num_keys_eq, except_bind_ok, hpnk]
        rw [if_neg (by omega), if_neg (by omega), if_neg (by
          simp only [Node.internal_node_cell_offset, INTERNAL_NODE_HEADER_SIZE,
            INTERNAL_NODE_CELL_SIZE, INTERNAL_NODE_CHILD_SIZE, PAGE_SIZE]
          omega)]
        rfl
      have h11 : (Node.mk (writeList parent2.data (Node.internal_node_cell_offset idx)
          (u32le c)) parent2.row_size).set_internal_node_key idx kc =
          .ok (Node.mk (writeList (writeList parent2.data
            (Node.internal_node_cell_offset idx) (u32le c))
            (Node.internal_node_cell_offset idx + INTERNAL_NODE_CHILD_SIZE) (u32le kc))
            parent2.row_size) := by
        rw [set_internal_node_key_eq _ _ _ (by omega)]
      refine ⟨writeList (writeList parent2.data (Node.internal_node_cell_offset idx)
        (u32le c)) (Node.internal_node_cell_offset idx + INTERNAL_NODE_CHILD_SIZE)
        (u32le kc), ?_, ?_, ?_, ?_, ?_⟩
      · simp only [internal_node_insert, run_bind, run_liftE, run_getT, run_commitPage,
          hgetp, hc, hkc, hidx, hnumk, hrc1, if_neg hnotfull, if_neg hA,
          hgrc, hkrc, if_neg hgt, hloop, h10, h11]
        rw [hprs]
        rfl
      · rw [readU32_writeList_outside _ _ _ _ (Or.inl (by
          simp only [u32le_length, Node.internal_node_cell_offset,
            INTERNAL_NODE_HEADER_SIZE, INTERNAL_NODE_CELL_SIZE,
            INTERNAL_NODE_CHILD_SIZE, INTERNAL_NODE_NUM_KEYS_OFFSET]
          omega))]
        rw [readU32_writeList_outside _ _ _ _ (Or.inl (by
          simp only [u32le_length, Node.internal_node_cell_offset,
            INTERNAL_NODE_HEADER_SIZE, INTERNAL_NODE_CELL_SIZE,
            INTERNAL_NODE_NUM_KEYS_OFFSET]
          omega))]
        exact hpnk
      · intro h; exact absurd h hA
      · intro _ hlt; exact absurd hlt (by omega)
      · intro _ _
        have hprc : readU32 parent2.data INTERNAL_NODE_RIGHT_CHILD_OFFSET = rc := by
          rw [readU32_congr _ (writeList (writeList Pd INTERNAL_NODE_NUM_KEYS_OFFSET
            (u32le (nk + 1))) INTERNAL_NODE_NUM_KEYS_OFFSET (u32le (nk + 1))) _ (by
              intro k hk
              exact hframe _ (hnomem2 _ (by
                simp only [Node.internal_node_cell_offset, INTERNAL_NODE_RIGHT_CHILD_OFFSET,
                  INTERNAL_NODE_HEADER_SIZE, INTERNAL_NODE_CELL_SIZE]
                omega)))]
          rw [readU32_writeList_outside _ _ _ _ (Or.inr (by rw [u32le_length]; decide))]
          rw [readU32_writeList_outside _ _ _ _ (Or.inr (by rw [u32le_length]; decide))]
          exact hrc
        refine ⟨hidxle, ?_, ?_, ?_, ?_, ?_⟩
        · rw [readU32_writeList_outside _ _ _ _ (Or.inl (by
            simp only [u32le_length, Node.internal_node_cell_offset,
              INTERNAL_NODE_HEADER_SIZE, INTERNAL_NODE_CELL_SIZE,
              INTERNAL_NODE_CHILD_SIZE, INTERNAL_NODE_RIGHT_CHILD_OFFSET]
            omega))]
          rw [readU32_writeList_outside _ _ _ _ (Or.inl (by
            simp only [u32le_length, Node.internal_node_cell_offset,
              INTERNAL_NODE_HEADER_SIZE, INTERNAL_NODE_CELL_SIZE,
              INTERNAL_NODE_RIGHT_CHILD_OFFSET]
            omega))]
          exact hprc
        · rw [readU32_writeList_outside _ _ _ _ (Or.inl (by
            simp only [u32le_length, Node.internal_node_cell_offset,
              INTERNAL_NODE_HEADER_SIZE, INTERNAL_NODE_CELL_SIZE,
              INTERNAL_NODE_CHILD_SIZE]
            omega))]
          exact readU32_writeList_u32le _ _ _
        · exact readU32_writeList_u32le _ _ _
        · intro j hj1 hj2
          rw [readBytes_writeList_outside _ _ _ _ _ (Or.inr (by
            simp only [u32le_length, Node.internal_node_cell_offset,
              INTERNAL_NODE_HEADER_SIZE, INTERNAL_NODE_CELL_SIZE,
              INTERNAL_NODE_CHILD_SIZE]
            omega))]
          rw [readBytes_writeList_outside _ _ _ _ _ (Or.inr (by
            simp only [u32le_length, Node.internal_node_cell_offset,
              INTERNAL_NODE_HEADER_SIZE, INTERNAL_NODE_CELL_SIZE]
            omega))]
          rw [hcells j (by omega) (by omega)]
          show readBytes (writeList (writeList Pd INTERNAL_NODE_NUM_KEYS_OFFSET
            (u32le (nk + 1))) INTERNAL_NODE_NUM_KEYS_OFFSET (u32le (nk + 1)))
            (Node.internal_node_cell_offset (j - 1)) INTERNAL_NODE_CELL_SIZE = _
          rw [readBytes_writeList_outside _ _ _ _ _ (Or.inr (by
            simp only [u32le_length, Node.internal_node_cell_offset,
              INTERNAL_NODE_HEADER_SIZE, INTERNAL_NODE_CELL_SIZE,
              INTERNAL_NODE_NUM_KEYS_OFFSET]
            omega))]
          rw [readBytes_writeList_outside _ _ _ _ _ (Or.inr (by
            simp only [u32le_length, Node.internal_node_cell_offset,
              INTERNAL_NODE_HEADER_SIZE, INTERNAL_NODE_CELL_SIZE,
              INTERNAL_NODE_NUM_KEYS_OFFSET]
            omega))]
        · intro b hb1 hb2
          rw [writeList_outside _ _ _ _ (Or.inl (by
            simp only [Node.internal_node_cell_offset, INTERNAL_NODE_HEADER_SIZE,
              INTERNAL_NODE_CELL_SIZE, INTERNAL_NODE_CHILD_SIZE] at hb2 ⊢
            omega))]
          rw [writeList_outside _ _ _ _ (Or.inl hb2)]
          rw [hframe _ (hnomem2 _ hb2)]
          show writeList (writeList Pd INTERNAL_NODE_NUM_KEYS_OFFSET (u32le (nk + 1)))
            INTERNAL_NODE_NUM_KEYS_OFFSET (u32le (nk + 1)) b = Pd b
          simp only [INTERNAL_NODE_HEADER_SIZE] at hb1
          rw [writeList_outside _ _ _ _ (Or.inr (by
            simp only [u32le_length, INTERNAL_NODE_NUM_KEYS_OFFSET]; omega))]
          rw [writeList_outside _ _ _ _ (Or.inr (by
            simp only [u32le_length, INTERNAL_NODE_NUM_KEYS_OFFSET]; omega))]

/-- Claim C5 (amended): on a non-full internal parent, `internal_node_insert`
follows the claimed three-way case split, and in the replace-right-child and
shift cases `num_keys` indeed becomes `nk + 1`; but in the empty case
(`right_child = INVALID_PAGE_NUM`) the code does NOT leave `num_keys`
unchanged: `set_internal_node_num_keys (nk + 1)` happens before the branch
is examined, so the committed parent has `num_keys = nk + 1` in every
branch.  Only page `p` of the pager is replaced (`commit p`). -/
theorem C5_amended_internal_node_insert
    (fuel p c nk rc kc idx krc : Nat) (t : Table) (Pd : Bytes)
    (child right_child : Node)
    (hp : t.pager.pages[p]? = some Pd)
    (hc : t.pager.get c = .ok child)
    (hkc : t.pager.node_max_key child = .ok kc)
    (hidx : (Node.mk Pd t.pager.row_size).internal_node_find_child kc = .ok idx)
    (hnk : readU32 Pd INTERNAL_NODE_NUM_KEYS_OFFSET = nk)
    (hrc : readU32 Pd INTERNAL_NODE_RIGHT_CHILD_OFFSET = rc)
    (hfull : nk < INTERNAL_NODE_MAX_CELLS)
    (hB : rc ≠ INVALID_PAGE_NUM →
      t.pager.get rc = .ok right_child ∧
      t.pager.node_max_key right_child = .ok krc) :
    ∃ d' : Bytes,
      internal_node_insert (fuel + 1) p c t =
        (.ok (), { t with pager := t.pager.commit p (Node.mk d' t.pager.row_size) }) ∧
      readU32 d' INTERNAL_NODE_NUM_KEYS_OFFSET = nk + 1 ∧
      (rc = INVALID_PAGE_NUM →
        readU32 d' INTERNAL_NODE_RIGHT_CHILD_OFFSET = c % 2 ^ 32 ∧
        ∀ b, INTERNAL_NODE_HEADER_SIZE ≤ b → d' b = Pd b) ∧
      (rc ≠ INVALID_PAGE_NUM → krc < kc →
        readU32 d' INTERNAL_NODE_RIGHT_CHILD_OFFSET = c % 2 ^ 32 ∧
        readU32 d' (Node.internal_node_cell_offset nk) = rc % 2 ^ 32 ∧
        readU32 d' (Node.internal_node_cell_offset nk + INTERNAL_NODE_CHILD_SIZE)
          = krc % 2 ^ 32 ∧
        (∀ b, INTERNAL_NODE_HEADER_SIZE ≤ b → b < Node.internal_node_cell_offset nk →
          d' b = Pd b)) ∧
      (rc ≠ INVALID_PAGE_NUM → kc ≤ krc →
        idx ≤ nk ∧
        readU32 d' INTERNAL_NODE_RIGHT_CHILD_OFFSET = rc ∧
        readU32 d' (Node.internal_node_cell_offset idx) = c % 2 ^ 32 ∧
        readU32 d' (Node.internal_node_cell_offset idx + INTERNAL_NODE_CHILD_SIZE)
          = kc % 2 ^ 32 ∧
        (∀ j, idx < j → j ≤ nk →
          readBytes d' (Node.internal_node_cell_offset j) INTERNAL_NODE_CELL_SIZE =
          readBytes Pd (Node.internal_node_cell_offset (j - 1)) INTERNAL_NODE_CELL_SIZE) ∧
        (∀ b, INTERNAL_NODE_HEADER_SIZE ≤ b → b < Node.internal_node_cell_offset idx →
          d' b = Pd b)) :=
  internal_node_insert_nonfull_spec fuel p c nk rc kc idx krc t Pd child right_child
    hp hc hkc hidx hnk hrc hfull hB

/-- Claim C5 (witness): the amended characterization applied to the
concrete empty internal parent (page `0`, `nk = 0`,
`right_child = INVALID_PAGE_NUM`) with leaf child page `1` (max key 7). -/
theorem C5_amended_internal_node_insert_witness :
    ∃ d' : Bytes,
      internal_node_insert (0 + 1) 0 1 emptyParentTable =
        (.ok (), { emptyParentTable with
                   pager := emptyParentTable.pager.commit 0
                     (Node.mk d' emptyParentTable.pager.row_size) }) ∧
      readU32 d' INTERNAL_NODE_NUM_KEYS_OFFSET = 0 + 1 ∧
      (INVALID_PAGE_NUM = INVALID_PAGE_NUM →
        readU32 d' INTERNAL_NODE_RIGHT_CHILD_OFFSET = 1 % 2 ^ 32 ∧
        ∀ b, INTERNAL_NODE_HEADER_SIZE ≤ b → d' b = pageEmptyInternal b) ∧
      (INVALID_PAGE_NUM ≠ INVALID_PAGE_NUM → 0 < 7 →
        readU32 d' INTERNAL_NODE_RIGHT_CHILD_OFFSET = 1 % 2 ^ 32 ∧
        readU32 d' (Node.internal_node_cell_offset 0) = INVALID_PAGE_NUM % 2 ^ 32 ∧
        readU32 d' (Node.internal_node_cell_offset 0 + INTERNAL_NODE_CHILD_SIZE)
          = 0 % 2 ^ 32 ∧
        (∀ b, INTERNAL_NODE_HEADER_SIZE ≤ b → b < Node.internal_node_cell_offset 0 →
          d' b = pageEmptyInternal b)) ∧
      (INVALID_PAGE_NUM ≠ INVALID_PAGE_NUM → 7 ≤ 0 →
        0 ≤ 0 ∧
        readU32 d' INTERNAL_NODE_RIGHT_CHILD_OFFSET = INVALID_PAGE_NUM ∧
        readU32 d' (Node.internal_node_cell_offset 0) = 1 % 2 ^ 32 ∧
        readU32 d' (Node.internal_node_cell_offset 0 + INTERNAL_NODE_CHILD_SIZE)
          = 7 % 2 ^ 32 ∧
        (∀ j, 0 < j → j ≤ 0 →
          readBytes d' (Node.internal_node_cell_offset j) INTERNAL_NODE_CELL_SIZE =
          readBytes pageEmptyInternal (Node.internal_node_cell_offset (j - 1))
            INTERNAL_NODE_CELL_SIZE) ∧
        (∀ b, INTERNAL_NODE_HEADER_SIZE ≤ b → b < Node.internal_node_cell_offset 0 →
          d' b = pageEmptyInternal b)) :=
  C5_amended_internal_node_insert 0 0 1 0 INVALID_PAGE_NUM 7 0 0
    emptyParentTable pageEmptyInternal (Node.mk leafPage7 8) (Node.mk zeroBytes 8)
    rfl rfl (by decide) (by decide) (by decide) (by decide) (by decide)
    (fun h => absurd rfl h)

/-! ## Leaf-cell geometry and the split-loop characterization -/
theorem writeList_append (s : Bytes) (off : Nat) (l1 l2 : List Nat) :
    writeList s off (l1 ++ l2) = writeList (writeList s off l1) (off + l1.length) l2 := by
  induction l1 generalizing s off with
  | nil => simp [writeList]
  | cons b bs ih =>
    simp only [List.cons_append, writeList, List.length_cons, List.append_eq]
    rw [ih, show off + (bs.length + 1) = off + 1 + bs.length from by omega]

theorem leaf_cell_size_pos (n : Node) : 1 ≤ n.leaf_node_cell_size := by
  simp only [Node.leaf_node_cell_size, LEAF_NODE_KEY_SIZE]
  omega

theorem leaf_max_cells_mul_le (n : Node) :
    n.leaf_node_max_cells * n.leaf_node_cell_size ≤ LEAF_NODE_SPACE_FOR_CELLS := by
  unfold Node.leaf_node_max_cells
  exact Nat.div_mul_le_self _ _

theorem get_leaf_node_cell_offset_eval (n : Node) (i : Nat)
    (h : i < n.leaf_node_max_cells) :
    n.get_leaf_node_cell_offset i =
      .ok (LEAF_NODE_HEADER_SIZE + i * n.leaf_node_cell_size) := by
  have h1 : (i + 1) * n.leaf_node_cell_size ≤
      n.leaf_node_max_cells * n.leaf_node_cell_size :=
    Nat.mul_le_mul_right _ h
  have h2 := leaf_max_cells_mul_le n
  have h3 : (i + 1) * n.leaf_node_cell_size = i * n.leaf_node_cell_size +
      n.leaf_node_cell_size := Nat.succ_mul _ _
  have hbound : ¬ (LEAF_NODE_HEADER_SIZE + i * n.leaf_node_cell_size +
      n.leaf_node_cell_size > PAGE_SIZE) := by
    simp only [LEAF_NODE_SPACE_FOR_CELLS, PAGE_SIZE, LEAF_NODE_HEADER_SIZE] at h2 ⊢
    omega
  unfold Node.get_leaf_node_cell_offset
  simp only [if_neg (by omega : ¬ i ≥ n.leaf_node_max_cells), if_neg hbound]

theorem leaf_node_cell_eval (n : Node) (i : Nat)
    (h : i < n.leaf_node_max_cells) :
    n.leaf_node_cell i = .ok (readBytes n.data
      (LEAF_NODE_HEADER_SIZE + i * n.leaf_node_cell_size) n.leaf_node_cell_size) := by
  unfold Node.leaf_node_cell
  rw [get_leaf_node_cell_offset_eval n i h, except_bind_ok]
  rfl

theorem write_leaf_node_cell_eval (n : Node) (i : Nat) (src : List Nat)
    (h : i < n.leaf_node_max_cells) :
    n.write_leaf_node_cell i src = .ok (Node.mk
      (writeList n.data (LEAF_NODE_HEADER_SIZE + i * n.leaf_node_cell_size) src)
      n.row_size) := by
  unfold Node.write_leaf_node_cell
  rw [get_leaf_node_cell_offset_eval n i h, except_bind_ok]
  rfl

theorem leafVirtualCell_length (old : Node) (cc row_id : Nat) (row_bin : List Nat)
    (i : Nat) (hrow : row_bin.length = old.row_size) :
    (leafVirtualCell old cc row_id row_bin i).length = old.leaf_node_cell_size := by
  unfold leafVirtualCell
  by_cases h1 : i = cc
  · simp only [if_pos h1, List.length_append, u32le, hrow]
    unfold Node.leaf_node_cell_size Node.leaf_node_value_size LEAF_NODE_KEY_SIZE
    simp
  · by_cases h2 : cc < i
    · simp only [if_neg h1, if_pos h2, readBytes_length]
    · simp only [if_neg h1, if_neg h2, readBytes_length]

theorem leafSplitStep_eval (old dest : Node) (cc row_id : Nat)
    (row_bin : List Nat) (left i : Nat)
    (hrs : dest.row_size = old.row_size)
    (hcn : i % left < old.leaf_node_max_cells)
    (hsrc : ¬ i = cc → (if cc < i then i - 1 else i) < old.leaf_node_max_cells)
    (hrow : row_bin.length = old.row_size) :
    leafSplitStep old cc row_id row_bin left i dest = .ok (Node.mk
      (writeList dest.data
        (LEAF_NODE_HEADER_SIZE + (i % left) * old.leaf_node_cell_size)
        (leafVirtualCell old cc row_id row_bin i)) dest.row_size) := by
  have hgeo : dest.leaf_node_max_cells = old.leaf_node_max_cells := by
    unfold Node.leaf_node_max_cells Node.leaf_node_cell_size Node.leaf_node_value_size
    rw [hrs]
  have hgeo2 : dest.leaf_node_cell_size = old.leaf_node_cell_size := by
    unfold Node.leaf_node_cell_size Node.leaf_node_value_size
    rw [hrs]
  have hcn' : i % left < dest.leaf_node_max_cells := by rw [hgeo]; exact hcn
  have hoff : dest.get_leaf_node_cell_offset (i % left) =
      .ok (LEAF_NODE_HEADER_SIZE + (i % left) * dest.leaf_node_cell_size) :=
    get_leaf_node_cell_offset_eval dest _ hcn'
  have hoff2 : ∀ W : Bytes, (Node.mk W dest.row_size).get_leaf_node_cell_offset
      (i % left) = .ok (LEAF_NODE_HEADER_SIZE + (i % left) * dest.leaf_node_cell_size) :=
    fun W => get_leaf_node_cell_offset_eval _ _ hcn'
  simp only [leafSplitStep, hoff, except_bind_ok]
  by_cases h1 : i = cc
  · have hrow2 : ¬ row_bin.length ≠ dest.row_size := by
      intro h; exact h (by rw [hrs]; exact hrow)
    simp only [if_pos h1, Node.set_leaf_node_key, hoff, hoff2, except_bind_ok,
      except_pure_eq, Node.set_leaf_node_value, Node.leaf_node_value_size,
      node_row_size_mk, node_data_mk]
    rw [if_neg hrow2]
    simp only [leafVirtualCell, if_pos h1]
    rw [writeList_append]
    simp only [u32le_length, LEAF_NODE_KEY_SIZE, hgeo2]
  · have h2 := hsrc h1
    by_cases h3 : cc < i
    · simp only [if_neg h1, if_pos h3,
        leaf_node_cell_eval old (i - 1) (by rw [if_pos h3] at h2; exact h2),
        except_bind_ok, write_leaf_node_cell_eval dest _ _ hcn']
      simp only [leafVirtualCell, if_neg h1, if_pos h3, hgeo2]
    · simp only [if_neg h1, if_neg h3,
        leaf_node_cell_eval old i (by rw [if_neg h3] at h2; exact h2),
        except_bind_ok, write_leaf_node_cell_eval dest _ _ hcn']
      simp only [leafVirtualCell, if_neg h1, if_neg h3, hgeo2]

/-- First phase of the split loop: the indices `left + m - 1` down to
`left` all land in the new (right) node at destination index `i - left`. -/
theorem leafSplitLoop_newPhase (old : Node) (cc row_id : Nat) (row_bin : List Nat)
    (left : Nat) (rest : List Nat) :
    ∀ (m : Nat) (accL accR : Node),
      accR.row_size = old.row_size →
      1 ≤ left →
      left + m ≤ old.leaf_node_max_cells + 1 →
      m ≤ left →
      left ≤ old.leaf_node_max_cells →
      cc ≤ old.leaf_node_max_cells →
      row_bin.length = old.row_size →
      ∃ accR' : Node,
        leafSplitLoop old cc row_id row_bin left
          ((List.range' left m).reverse ++ rest) (accL, accR) =
          leafSplitLoop old cc row_id row_bin left rest (accL, accR') ∧
        accR'.row_size = accR.row_size ∧
        (∀ b, ¬ inLeafCellRange old.leaf_node_cell_size m b →
          accR'.data b = accR.data b) ∧
        (∀ j, j < m →
          readBytes accR'.data
            (LEAF_NODE_HEADER_SIZE + j * old.leaf_node_cell_size)
            old.leaf_node_cell_size =
          (leafVirtualCell old cc row_id row_bin (left + j)).map (fun x => x % 256)) := by
  intro m
  induction m with
  | zero =>
    intro accL accR _ _ _ _ _ _ _
    exact ⟨accR, rfl, rfl, fun b _ => rfl, fun j hj => absurd hj (by omega)⟩
  | succ m ih =>
    intro accL accR hrs hl1 hcap hml hlm hcc hrow
    have hrange : ((List.range' left (m + 1)).reverse : List Nat) =
        (left + m) :: (List.range' left m).reverse := by
      rw [List.range'_concat, List.reverse_append]
      simp
    rw [hrange, List.cons_append]
    have hmodm : (left + m) % left = m := by
      rw [Nat.add_mod_left]
      exact Nat.mod_eq_of_lt (by omega)
    have hstep := leafSplitStep_eval old accR cc row_id row_bin left (left + m)
      hrs (by rw [hmodm]; omega)
      (by
        intro h1
        by_cases h3 : cc < left + m
        · rw [if_pos h3]; omega
        · rw [if_neg h3]; omega)
      hrow
    rw [hmodm] at hstep
    obtain ⟨accR', hloop, hrs', hframe, hcells⟩ := ih accL
      (Node.mk (writeList accR.data
        (LEAF_NODE_HEADER_SIZE + m * old.leaf_node_cell_size)
        (leafVirtualCell old cc row_id row_bin (left + m))) accR.row_size)
      hrs hl1 (by omega) (by omega) hlm hcc hrow
    refine ⟨accR', ?_, ?_, ?_, ?_⟩
    · show (if left + m ≥ left then
          (leafSplitStep old cc row_id row_bin left (left + m) accR >>= fun nn =>
            leafSplitLoop old cc row_id row_bin left
              ((List.range' left m).reverse ++ rest) (accL, nn))
        else
          (leafSplitStep old cc row_id row_bin left (left + m) accL >>= fun onn =>
            leafSplitLoop old cc row_id row_bin left
              ((List.range' left m).reverse ++ rest) (onn, accR))) = _
      rw [if_pos (by omega), hstep, except_bind_ok, hloop]
    · rw [hrs']
    · intro b hb
      have hb' : ¬ inLeafCellRange old.leaf_node_cell_size m b := by
        intro ⟨j, hj1, hj2, hj3⟩
        exact hb ⟨j, by omega, hj2, hj3⟩
      rw [hframe b hb']
      show writeList accR.data _ _ b = accR.data b
      apply writeList_outside
      rw [leafVirtualCell_length old cc row_id row_bin _ hrow]
      by_contra hcon
      push_neg at hcon
      exact hb ⟨m, by omega, hcon.1, hcon.2⟩
    · intro j hj
      by_cases hjm : j = m
      · subst hjm
        have hout : ∀ k, k < old.leaf_node_cell_size →
            accR'.data (LEAF_NODE_HEADER_SIZE + j * old.leaf_node_cell_size + k) =
            writeList accR.data
              (LEAF_NODE_HEADER_SIZE + j * old.leaf_node_cell_size)
              (leafVirtualCell old cc row_id row_bin (left + j))
              (LEAF_NODE_HEADER_SIZE + j * old.leaf_node_cell_size + k) := by
          intro k hk
          apply hframe
          intro ⟨j2, hj21, hj22, hj23⟩
          have hm1 : (j2 + 1) * old.leaf_node_cell_size ≤ j * old.leaf_node_cell_size :=
            Nat.mul_le_mul_right _ (by omega)
          have hm2 : (j2 + 1) * old.leaf_node_cell_size =
              j2 * old.leaf_node_cell_size + old.leaf_node_cell_size :=
            Nat.succ_mul _ _
          omega
        have hcell : readBytes accR'.data
            (LEAF_NODE_HEADER_SIZE + j * old.leaf_node_cell_size)
            old.leaf_node_cell_size =
            readBytes (writeList accR.data
              (LEAF_NODE_HEADER_SIZE + j * old.leaf_node_cell_size)
              (leafVirtualCell old cc row_id row_bin (left + j)))
            (LEAF_NODE_HEADER_SIZE + j * old.leaf_node_cell_size)
            old.leaf_node_cell_size := by
          unfold readBytes readByte
          apply List.map_congr_left
          intro k hk
          simp only [List.mem_range] at hk
          rw [hout k hk]
        rw [hcell]
        rw [show old.leaf_node_cell_size =
          (leafVirtualCell old cc row_id row_bin (left + j)).length from
          (leafVirtualCell_length old cc row_id row_bin _ hrow).symm]
        rw [readBytes_writeList_self]
      · exact hcells j (by omega)

/-- Second phase of the split loop: the indices `m - 1` down to `0`
(`m ≤ left`) all land in the old (left) node at destination index `i`. -/
theorem leafSplitLoop_oldPhase (old : Node) (cc row_id : Nat) (row_bin : List Nat)
    (left : Nat) (rest : List Nat) :
    ∀ (m : Nat) (accL accR : Node),
      accL.row_size = old.row_size →
      m ≤ left →
      left ≤ old.leaf_node_max_cells →
      cc ≤ old.leaf_node_max_cells →
      row_bin.length = old.row_size →
      ∃ accL' : Node,
        leafSplitLoop old cc row_id row_bin left
          ((List.range m).reverse ++ rest) (accL, accR) =
          leafSplitLoop old cc row_id row_bin left rest (accL', accR) ∧
        accL'.row_size = accL.row_size ∧
        (∀ b, ¬ inLeafCellRange old.leaf_node_cell_size m b →
          accL'.data b = accL.data b) ∧
        (∀ j, j < m →
          readBytes accL'.data
            (LEAF_NODE_HEADER_SIZE + j * old.leaf_node_cell_size)
            old.leaf_node_cell_size =
          (leafVirtualCell old cc row_id row_bin j).map (fun x => x % 256)) := by
  intro m
  induction m with
  | zero =>
    intro accL accR _ _ _ _ _
    exact ⟨accL, rfl, rfl, fun b _ => rfl, fun j hj => absurd hj (by omega)⟩
  | succ m ih =>
    intro accL accR hrs hml hlm hcc hrow
    have hrange : ((List.range (m + 1)).reverse : List Nat) =
        m :: (List.range m).reverse := by
      rw [List.range_succ, List.reverse_append]
      simp
    rw [hrange, List.cons_append]
    have hmodm : m % left = m := Nat.mod_eq_of_lt (by omega)
    have hstep := leafSplitStep_eval old accL cc row_id row_bin left m
      hrs (by rw [hmodm]; omega)
      (by
        intro h1
        by_cases h3 : cc < m
        · rw [if_pos h3]; omega
        · rw [if_neg h3]; omega)
      hrow
    rw [hmodm] at hstep
    obtain ⟨accL', hloop, hrs', hframe, hcells⟩ := ih
      (Node.mk (writeList accL.data
        (LEAF_NODE_HEADER_SIZE + m * old.leaf_node_cell_size)
        (leafVirtualCell old cc row_id row_bin m)) accL.row_size)
      accR hrs (by omega) hlm hcc hrow
    refine ⟨accL', ?_, ?_, ?_, ?_⟩
    · show (if m ≥ left then
          (leafSplitStep old cc row_id row_bin left m accR >>= fun nn =>
            leafSplitLoop old cc row_id row_bin left
              ((List.range m).reverse ++ rest) (accL, nn))
        else
          (leafSplitStep old cc row_id row_bin left m accL >>= fun onn =>
            leafSplitLoop old cc row_id row_bin left
              ((List.range m).reverse ++ rest) (onn, accR))) = _
      rw [if_neg (by omega), hstep, except_bind_ok, hloop]
    · rw [hrs']
    · intro b hb
      have hb' : ¬ inLeafCellRange old.leaf_node_cell_size m b := by
        intro ⟨j, hj1, hj2, hj3⟩
        exact hb ⟨j, by omega, hj2, hj3⟩
      rw [hframe b hb']
      show writeList accL.data _ _ b = accL.data b
      apply writeList_outside
      rw [leafVirtualCell_length old cc row_id row_bin _ hrow]
      by_contra hcon
      push_neg at hcon
      exact hb ⟨m, by omega, hcon.1, hcon.2⟩
    · intro j hj
      by_cases hjm : j = m
      · subst hjm
        have hout : ∀ k, k < old.leaf_node_cell_size →
            accL'.data (LEAF_NODE_HEADER_SIZE + j * old.leaf_node_cell_size + k) =
            writeList accL.data
              (LEAF_NODE_HEADER_SIZE + j * old.leaf_node_cell_size)
              (leafVirtualCell old cc row_id row_bin j)
              (LEAF_NODE_HEADER_SIZE + j * old.leaf_node_cell_size + k) := by
          intro k hk
          apply hframe
          intro ⟨j2, hj21, hj22, hj23⟩
          have hm1 : (j2 + 1) * old.leaf_node_cell_size ≤ j * old.leaf_node_cell_size :=
            Nat.mul_le_mul_right _ (by omega)
          have hm2 : (j2 + 1) * old.leaf_node_cell_size =
              j2 * old.leaf_node_cell_size + old.leaf_node_cell_size :=
            Nat.succ_mul _ _
          omega
        have hcell : readBytes accL'.data
            (LEAF_NODE_HEADER_SIZE + j * old.leaf_node_cell_size)
            old.leaf_node_cell_size =
            readBytes (writeList accL.data
              (LEAF_NODE_HEADER_SIZE + j * old.leaf_node_cell_size)
              (leafVirtualCell old cc row_id row_bin j))
            (LEAF_NODE_HEADER_SIZE + j * old.leaf_node_cell_size)
            old.leaf_node_cell_size := by
          unfold readBytes readByte
          apply List.map_congr_left
          intro k hk
          simp only [List.mem_range] at hk
          rw [hout k hk]
        rw [hcell]
        rw [show old.leaf_node_cell_size =
          (leafVirtualCell old cc row_id row_bin j).length from
          (leafVirtualCell_length old cc row_id row_bin _ hrow).symm]
        rw [readBytes_writeList_self]
      · exact hcells j (by omega)

theorem range_reverse_split (a n : Nat) (h : a ≤ n) :
    (List.range n).reverse = (List.range' a (n - a)).reverse ++ (List.range a).reverse := by
  have h1 : List.range (a + (n - a)) = List.range a ++ List.range' a (n - a) := by
    rw [List.range_add]
    congr 1
    rw [List.range'_eq_map_range]
  calc (List.range n).reverse
      = (List.range (a + (n - a))).reverse := by rw [Nat.add_sub_cancel' h]
    _ = (List.range a ++ List.range' a (n - a)).reverse := by rw [h1]
    _ = (List.range' a (n - a)).reverse ++ (List.range a).reverse :=
        List.reverse_append _ _

theorem run_modifyPager (f : Pager → Pager) (t : Table) :
    modifyPager f t = (.ok (), { t with pager := f t.pager }) := rfl

theorem cursor_page_num_mk (a b : Nat) (e : Bool) : (Cursor.mk a b e).page_num = a := rfl

theorem cursor_cell_num_mk (a b : Nat) (e : Bool) : (Cursor.mk a b e).cell_num = b := rfl

theorem u32le_map_mod (v : Nat) :
    (u32le v).map (fun x => x % 256) = u32le v := by
  simp only [u32le, List.map_cons, List.map_nil, List.cons.injEq, and_true]
  refine ⟨?_, ?_, ?_, ?_⟩ <;> omega

/-- Claim C4: `leaf_node_split_and_insert` on a full non-root leaf (with a
non-full, empty-right-child internal parent) partitions the `max_cells + 1`
virtual cells: afterwards the old leaf holds exactly
`LEFT_SPLIT_COUNT = (max_cells + 2) / 2 = ⌈(max_cells + 1) / 2⌉` cells and
the new leaf exactly `RIGHT_SPLIT_COUNT = (max_cells + 1) / 2 =
⌊(max_cells + 1) / 2⌋` cells, the two `num_cells` words are set to those
counts, and every cell sits at the destination dictated by the
virtual-array rule (`leafVirtualCell`): old cell `i` holds virtual cell
`i`, new cell `j` holds virtual cell `LEFT_SPLIT_COUNT + j`. -/
theorem C4_leaf_split_partition
    (fuel o cc row_id pp qnk old_max : Nat) (eot : Bool)
    (row_bin : List Nat) (t : Table) (Pd Qd : Bytes)
    (ho : t.pager.pages[o]? = some Pd)
    (hcap : t.pager.pages.length < TABLE_MAX_PAGES)
    (htype : readByte Pd NODE_TYPE_OFFSET = 0)
    (hroot : readByte Pd IS_ROOT_OFFSET ≠ 1)
    (hnum : readU32 Pd LEAF_NODE_NUM_CELLS_OFFSET =
      (Node.mk Pd t.pager.row_size).leaf_node_max_cells)
    (homax : (Node.mk Pd t.pager.row_size).get_node_max_key = .ok old_max)
    (hmax1 : 1 ≤ (Node.mk Pd t.pager.row_size).leaf_node_max_cells)
    (hcc : cc ≤ (Node.mk Pd t.pager.row_size).leaf_node_max_cells)
    (hrow : row_bin.length = t.pager.row_size)
    (hbytes : ∀ b ∈ row_bin, b < 256)
    (hpp : readU32 Pd PARENT_POINTER_OFFSET = pp)
    (hppo : pp ≠ o)
    (hq : t.pager.pages[pp]? = some Qd)
    (hqnk : readU32 Qd INTERNAL_NODE_NUM_KEYS_OFFSET = qnk)
    (hqfull : qnk < INTERNAL_NODE_MAX_CELLS)
    (hqrc : readU32 Qd INTERNAL_NODE_RIGHT_CHILD_OFFSET = INVALID_PAGE_NUM) :
    ∃ (t' : Table) (oldD newD : Bytes),
      leaf_node_split_and_insert (fuel + 1) (Cursor.mk o cc eot) row_id row_bin t =
        (.ok (), t') ∧
      t'.pager.pages.length = t.pager.pages.length + 1 ∧
      t'.pager.pages[o]? = some oldD ∧
      t'.pager.pages[t.pager.pages.length]? = some newD ∧
      (Node.mk Pd t.pager.row_size).leaf_node_left_split_count =
        ((Node.mk Pd t.pager.row_size).leaf_node_max_cells + 2) / 2 ∧
      (Node.mk Pd t.pager.row_size).leaf_node_right_split_count =
        ((Node.mk Pd t.pager.row_size).leaf_node_max_cells + 1) / 2 ∧
      readU32 oldD LEAF_NODE_NUM_CELLS_OFFSET =
        (Node.mk Pd t.pager.row_size).leaf_node_left_split_count ∧
      readU32 newD LEAF_NODE_NUM_CELLS_OFFSET =
        (Node.mk Pd t.pager.row_size).leaf_node_right_split_count ∧
      readU32 oldD LEAF_NODE_NEXT_LEAF_OFFSET = t.pager.pages.length % 2 ^ 32 ∧
      readU32 newD LEAF_NODE_NEXT_LEAF_OFFSET =
        readU32 Pd LEAF_NODE_NEXT_LEAF_OFFSET ∧
      (∀ i, i < (Node.mk Pd t.pager.row_size).leaf_node_left_split_count →
        readBytes oldD (LEAF_NODE_HEADER_SIZE +
            i * (Node.mk Pd t.pager.row_size).leaf_node_cell_size)
          (Node.mk Pd t.pager.row_size).leaf_node_cell_size =
        leafVirtualCell (Node.mk Pd t.pager.row_size) cc row_id row_bin i) ∧
      (∀ j, j < (Node.mk Pd t.pager.row_size).leaf_node_right_split_count →
        readBytes newD (LEAF_NODE_HEADER_SIZE +
            j * (Node.mk Pd t.pager.row_size).leaf_node_cell_size)
          (Node.mk Pd t.pager.row_size).leaf_node_cell_size =
        leafVirtualCell (Node.mk Pd t.pager.row_size) cc row_id row_bin
          ((Node.mk Pd t.pager.row_size).leaf_node_left_split_count + j)) := by
  clear hnum
  -- geometry and arithmetic facts
  have hcs1 : 1 ≤ (Node.mk Pd t.pager.row_size).leaf_node_cell_size :=
    leaf_cell_size_pos _
  have hmc4082 : (Node.mk Pd t.pager.row_size).leaf_node_max_cells ≤ 4082 := by
    have h1 := leaf_max_cells_mul_le (Node.mk Pd t.pager.row_size)
    have h2 : (Node.mk Pd t.pager.row_size).leaf_node_max_cells * 1 ≤
        (Node.mk Pd t.pager.row_size).leaf_node_max_cells *
          (Node.mk Pd t.pager.row_size).leaf_node_cell_size :=
      Nat.mul_le_mul_left _ hcs1
    simp only [LEAF_NODE_SPACE_FOR_CELLS, PAGE_SIZE, LEAF_NODE_HEADER_SIZE] at h1
    omega
  have hLf : (Node.mk Pd t.pager.row_size).leaf_node_left_split_count =
      ((Node.mk Pd t.pager.row_size).leaf_node_max_cells + 2) / 2 := by
    unfold Node.leaf_node_left_split_count Node.leaf_node_right_split_count
    omega
  have hRf : (Node.mk Pd t.pager.row_size).leaf_node_right_split_count =
      ((Node.mk Pd t.pager.row_size).leaf_node_max_cells + 1) / 2 := by
    unfold Node.leaf_node_right_split_count
    omega
  have hL1 : 1 ≤ (Node.mk Pd t.pager.row_size).leaf_node_left_split_count := by
    rw [hLf]; omega
  have hLle : (Node.mk Pd t.pager.row_size).leaf_node_left_split_count ≤
      (Node.mk Pd t.pager.row_size).leaf_node_max_cells := by
    rw [hLf]; omega
  have hR1 : 1 ≤ (Node.mk Pd t.pager.row_size).leaf_node_right_split_count := by
    rw [hRf]; omega
  have hRle : (Node.mk Pd t.pager.row_size).leaf_node_right_split_count ≤
      (Node.mk Pd t.pager.row_size).leaf_node_left_split_count := by
    rw [hLf, hRf]; omega
  have hLR : (Node.mk Pd t.pager.row_size).leaf_node_left_split_count +
      (Node.mk Pd t.pager.row_size).leaf_node_right_split_count =
      (Node.mk Pd t.pager.row_size).leaf_node_max_cells + 1 := by
    rw [hLf, hRf]; omega
  have holen : o < t.pager.pages.length := by
    rcases Nat.lt_or_ge o t.pager.pages.length with h | h
    · exact h
    · rw [List.getElem?_eq_none h] at ho; cases ho
  have hpplen : pp < t.pager.pages.length := by
    rcases Nat.lt_or_ge pp t.pager.pages.length with h | h
    · exact h
    · rw [List.getElem?_eq_none h] at hq; cases hq
  have hq3 : qnk < 3 := hqfull
  -- page allocation
  obtain ⟨zd, htc⟩ : ∃ zd, t.pager.try_create t.pager.pages.length =
      Pager.mk (t.pager.pages ++ [zd]) t.pager.row_size := by
    refine ⟨((((Node.mk zeroBytes t.pager.row_size).set_node_type
      .NodeLeaf).set_leaf_node_num_cells 0).set_node_root
      (decide (t.pager.pages.length = 0))).data, ?_⟩
    simp only [Pager.try_create, Pager.push,
      if_pos (Nat.le_refl t.pager.pages.length), if_pos hcap]
  have hget_o2 : (Pager.mk (t.pager.pages ++ [zd]) t.pager.row_size).get o =
      .ok (Node.mk Pd t.pager.row_size) := by
    unfold Pager.get
    rw [List.getElem?_append_left holen, ho]
  have hget_N2 : (Pager.mk (t.pager.pages ++ [zd]) t.pager.row_size).get
      t.pager.pages.length = .ok (Node.mk zd t.pager.row_size) := by
    unfold Pager.get
    rw [List.getElem?_append_right (Nat.le_refl _)]
    simp
  have hpar : (Node.mk Pd t.pager.row_size).node_parent = .ok pp := by
    rw [node_parent_eq]; exact congrArg Except.ok hpp
  have hnl : (Node.mk Pd t.pager.row_size).leaf_node_next_leaf =
      .ok (readU32 Pd LEAF_NODE_NEXT_LEAF_OFFSET) := leaf_node_next_leaf_eq _
  have hml : (Node.mk Pd t.pager.row_size).leaf_node_max_cells + 1 -
      (Node.mk Pd t.pager.row_size).leaf_node_left_split_count ≤
      (Node.mk Pd t.pager.row_size).leaf_node_left_split_count := by
    rw [hLf]; omega
  have hlm2 : (Node.mk Pd t.pager.row_size).leaf_node_left_split_count +
      ((Node.mk Pd t.pager.row_size).leaf_node_max_cells + 1 -
        (Node.mk Pd t.pager.row_size).leaf_node_left_split_count) ≤
      (Node.mk Pd t.pager.row_size).leaf_node_max_cells + 1 := by omega
  have hLmc1 : (Node.mk Pd t.pager.row_size).leaf_node_left_split_count ≤
      (Node.mk Pd t.pager.row_size).leaf_node_max_cells + 1 := by omega
  -- run the split loop: first the new (right) node, then the old (left) node
  obtain ⟨newL, h1loop, h1rs, h1frame, h1cells⟩ :=
    leafSplitLoop_newPhase ((Node.mk Pd t.pager.row_size).set_leaf_node_next_leaf t.pager.pages.length) cc row_id row_bin
      ((Node.mk Pd t.pager.row_size).set_leaf_node_next_leaf t.pager.pages.length).leaf_node_left_split_count
      ((List.range ((Node.mk Pd t.pager.row_size).set_leaf_node_next_leaf t.pager.pages.length).leaf_node_left_split_count).reverse)
      (((Node.mk Pd t.pager.row_size).set_leaf_node_next_leaf t.pager.pages.length).leaf_node_max_cells + 1 - ((Node.mk Pd t.pager.row_size).set_leaf_node_next_leaf t.pager.pages.length).leaf_node_left_split_count)
      ((Node.mk Pd t.pager.row_size).set_leaf_node_next_leaf t.pager.pages.length) (((initialize_leaf_node (Node.mk zd t.pager.row_size)).set_node_parent pp).set_leaf_node_next_leaf (readU32 Pd LEAF_NODE_NEXT_LEAF_OFFSET))
      rfl hL1 hlm2 hml hLle hcc hrow
  obtain ⟨oldL, h2loop, h2rs, h2frame, h2cells⟩ :=
    leafSplitLoop_oldPhase ((Node.mk Pd t.pager.row_size).set_leaf_node_next_leaf t.pager.pages.length) cc row_id row_bin
      ((Node.mk Pd t.pager.row_size).set_leaf_node_next_leaf t.pager.pages.length).leaf_node_left_split_count ([] : List Nat)
      ((Node.mk Pd t.pager.row_size).set_leaf_node_next_leaf t.pager.pages.length).leaf_node_left_split_count
      ((Node.mk Pd t.pager.row_size).set_leaf_node_next_leaf t.pager.pages.length) newL
      rfl (Nat.le_refl _) hLle hcc hrow
  have hloopfull : leafSplitLoop ((Node.mk Pd t.pager.row_size).set_leaf_node_next_leaf t.pager.pages.length) cc row_id row_bin
      ((Node.mk Pd t.pager.row_size).set_leaf_node_next_leaf t.pager.pages.length).leaf_node_left_split_count
      ((List.range (((Node.mk Pd t.pager.row_size).set_leaf_node_next_leaf t.pager.pages.length).leaf_node_max_cells + 1)).reverse) (((Node.mk Pd t.pager.row_size).set_leaf_node_next_leaf t.pager.pages.length), (((initialize_leaf_node (Node.mk zd t.pager.row_size)).set_node_parent pp).set_leaf_node_next_leaf (readU32 Pd LEAF_NODE_NEXT_LEAF_OFFSET))) =
      .ok (oldL, newL) := by
    rw [range_reverse_split ((Node.mk Pd t.pager.row_size).set_leaf_node_next_leaf t.pager.pages.length).leaf_node_left_split_count
      (((Node.mk Pd t.pager.row_size).set_leaf_node_next_leaf t.pager.pages.length).leaf_node_max_cells + 1) hLmc1]
    rw [h1loop]
    rw [show ((List.range ((Node.mk Pd t.pager.row_size).set_leaf_node_next_leaf t.pager.pages.length).leaf_node_left_split_count).reverse : List Nat) =
      (List.range ((Node.mk Pd t.pager.row_size).set_leaf_node_next_leaf t.pager.pages.length).leaf_node_left_split_count).reverse ++ [] from
      (List.append_nil _).symm]
    rw [h2loop]
    rfl
  have hsmall : ∀ cs mm b, b < LEAF_NODE_HEADER_SIZE → ¬ inLeafCellRange cs mm b := by
    intro cs mm b hb hmem
    obtain ⟨j, hj1, hj2, hj3⟩ := hmem
    simp only [LEAF_NODE_HEADER_SIZE] at hb hj2
    omega
  have hOD_low : ∀ b, b < LEAF_NODE_NUM_CELLS_OFFSET →
      (oldL.set_leaf_node_num_cells ((Node.mk Pd t.pager.row_size).set_leaf_node_next_leaf t.pager.pages.length).leaf_node_left_split_count).data b = Pd b := by
    intro b hb
    show writeList oldL.data LEAF_NODE_NUM_CELLS_OFFSET (u32le ((Node.mk Pd t.pager.row_size).set_leaf_node_next_leaf t.pager.pages.length).leaf_node_left_split_count) b = Pd b
    rw [writeList_outside _ _ _ _ (Or.inl hb)]
    rw [h2frame b (hsmall _ _ _ (by
      simp only [LEAF_NODE_NUM_CELLS_OFFSET] at hb
      simp only [LEAF_NODE_HEADER_SIZE]
      omega))]
    show writeList Pd LEAF_NODE_NEXT_LEAF_OFFSET (u32le t.pager.pages.length) b = Pd b
    rw [writeList_outside _ _ _ _ (Or.inl (by
      simp only [LEAF_NODE_NUM_CELLS_OFFSET] at hb
      simp only [LEAF_NODE_NEXT_LEAF_OFFSET]
      omega))]
  have hisroot : (oldL.set_leaf_node_num_cells ((Node.mk Pd t.pager.row_size).set_leaf_node_next_leaf t.pager.pages.length).leaf_node_left_split_count).is_node_root = .ok false := by
    unfold Node.is_node_root Node.slice_at
    rw [if_neg (by decide), except_bind_ok]
    refine congrArg Except.ok ?_
    apply decide_eq_false
    intro hcon
    apply hroot
    simp only [readByte] at hcon ⊢
    rw [hOD_low IS_ROOT_OFFSET (by decide)] at hcon
    exact hcon
  have hpar3 : (oldL.set_leaf_node_num_cells ((Node.mk Pd t.pager.row_size).set_leaf_node_next_leaf t.pager.pages.length).leaf_node_left_split_count).node_parent = .ok pp := by
    rw [node_parent_eq]
    refine congrArg Except.ok ?_
    rw [readU32_congr ((oldL.set_leaf_node_num_cells ((Node.mk Pd t.pager.row_size).set_leaf_node_next_leaf t.pager.pages.length).leaf_node_left_split_count).data) Pd PARENT_POINTER_OFFSET (by
      intro k hk
      exact hOD_low _ (by
        simp only [PARENT_POINTER_OFFSET, LEAF_NODE_NUM_CELLS_OFFSET]
        omega))]
    exact hpp
  have hnt3 : (oldL.set_leaf_node_num_cells ((Node.mk Pd t.pager.row_size).set_leaf_node_next_leaf t.pager.pages.length).leaf_node_left_split_count).get_node_type = .ok .NodeLeaf := by
    unfold Node.get_node_type Node.slice_at
    rw [if_neg (by decide), except_bind_ok]
    rw [show readByte (oldL.set_leaf_node_num_cells ((Node.mk Pd t.pager.row_size).set_leaf_node_next_leaf t.pager.pages.length).leaf_node_left_split_count).data NODE_TYPE_OFFSET = 0 from by
      simp only [readByte]
      rw [hOD_low NODE_TYPE_OFFSET (by decide)]
      simpa [readByte] using htype]
  have hX4082 : ((Node.mk Pd t.pager.row_size).set_leaf_node_next_leaf t.pager.pages.length).leaf_node_left_split_count ≤ 4082 := le_trans hLle hmc4082
  have hnum3 : (oldL.set_leaf_node_num_cells ((Node.mk Pd t.pager.row_size).set_leaf_node_next_leaf t.pager.pages.length).leaf_node_left_split_count).leaf_node_num_cells = .ok ((Node.mk Pd t.pager.row_size).set_leaf_node_next_leaf t.pager.pages.length).leaf_node_left_split_count := by
    rw [leaf_node_num_cells_eq]
    refine congrArg Except.ok ?_
    show readU32 (writeList oldL.data LEAF_NODE_NUM_CELLS_OFFSET (u32le ((Node.mk Pd t.pager.row_size).set_leaf_node_next_leaf t.pager.pages.length).leaf_node_left_split_count))
      LEAF_NODE_NUM_CELLS_OFFSET = ((Node.mk Pd t.pager.row_size).set_leaf_node_next_leaf t.pager.pages.length).leaf_node_left_split_count
    rw [readU32_writeList_u32le]
    exact Nat.mod_eq_of_lt (by
      rw [show (2 : Nat) ^ 32 = 4294967296 from by norm_num]
      omega)
  have hgeo3mc : (oldL.set_leaf_node_num_cells ((Node.mk Pd t.pager.row_size).set_leaf_node_next_leaf t.pager.pages.length).leaf_node_left_split_count).leaf_node_max_cells =
      (Node.mk Pd t.pager.row_size).leaf_node_max_cells := by
    unfold Node.leaf_node_max_cells Node.leaf_node_cell_size Node.leaf_node_value_size
    rw [show (oldL.set_leaf_node_num_cells ((Node.mk Pd t.pager.row_size).set_leaf_node_next_leaf t.pager.pages.length).leaf_node_left_split_count).row_size = oldL.row_size from rfl, h2rs]
    rfl
  have hkey3 : (oldL.set_leaf_node_num_cells ((Node.mk Pd t.pager.row_size).set_leaf_node_next_leaf t.pager.pages.length).leaf_node_left_split_count).leaf_node_key (((Node.mk Pd t.pager.row_size).set_leaf_node_next_leaf t.pager.pages.length).leaf_node_left_split_count - 1) =
      .ok (readU32 (oldL.set_leaf_node_num_cells ((Node.mk Pd t.pager.row_size).set_leaf_node_next_leaf t.pager.pages.length).leaf_node_left_split_count).data (LEAF_NODE_HEADER_SIZE +
        (((Node.mk Pd t.pager.row_size).set_leaf_node_next_leaf t.pager.pages.length).leaf_node_left_split_count - 1) * (oldL.set_leaf_node_num_cells ((Node.mk Pd t.pager.row_size).set_leaf_node_next_leaf t.pager.pages.length).leaf_node_left_split_count).leaf_node_cell_size)) := by
    unfold Node.leaf_node_key
    rw [get_leaf_node_cell_offset_eval _ _ (by
      rw [hgeo3mc]
      show (Node.mk Pd t.pager.row_size).leaf_node_left_split_count - 1 <
        (Node.mk Pd t.pager.row_size).leaf_node_max_cells
      omega), except_bind_ok]
    rfl
  have hmax3x : (oldL.set_leaf_node_num_cells ((Node.mk Pd t.pager.row_size).set_leaf_node_next_leaf t.pager.pages.length).leaf_node_left_split_count).get_node_max_key =
      .ok (readU32 (oldL.set_leaf_node_num_cells ((Node.mk Pd t.pager.row_size).set_leaf_node_next_leaf t.pager.pages.length).leaf_node_left_split_count).data (LEAF_NODE_HEADER_SIZE +
        (((Node.mk Pd t.pager.row_size).set_leaf_node_next_leaf t.pager.pages.length).leaf_node_left_split_count - 1) * (oldL.set_leaf_node_num_cells ((Node.mk Pd t.pager.row_size).set_leaf_node_next_leaf t.pager.pages.length).leaf_node_left_split_count).leaf_node_cell_size)) := by
    unfold Node.get_node_max_key
    rw [hnt3, except_bind_ok]
    show ((oldL.set_leaf_node_num_cells ((Node.mk Pd t.pager.row_size).set_leaf_node_next_leaf t.pager.pages.length).leaf_node_left_split_count).leaf_node_num_cells >>= fun c =>
      if c = 0 then .error (.Storage "Cell index underflow")
      else (oldL.set_leaf_node_num_cells ((Node.mk Pd t.pager.row_size).set_leaf_node_next_leaf t.pager.pages.length).leaf_node_left_split_count).leaf_node_key (c - 1)) = _
    rw [hnum3, except_bind_ok]
    rw [if_neg (by
      show ¬ (Node.mk Pd t.pager.row_size).leaf_node_left_split_count = 0
      omega)]
    exact hkey3
  obtain ⟨nmx, hmax3⟩ : ∃ v, (oldL.set_leaf_node_num_cells ((Node.mk Pd t.pager.row_size).set_leaf_node_next_leaf t.pager.pages.length).leaf_node_left_split_count).get_node_max_key = .ok v := ⟨_, hmax3x⟩
  have hrbmap : row_bin.map (fun x => x % 256) = row_bin := by
    have h1 : row_bin.map (fun x => x % 256) = row_bin.map id :=
      List.map_congr_left (fun a ha => Nat.mod_eq_of_lt (hbytes a ha))
    rw [h1, List.map_id]
  have hvirt : ∀ i2, (leafVirtualCell ((Node.mk Pd t.pager.row_size).set_leaf_node_next_leaf t.pager.pages.length) cc row_id row_bin i2).map
      (fun x => x % 256) =
      leafVirtualCell (Node.mk Pd t.pager.row_size) cc row_id row_bin i2 := by
    intro i2
    unfold leafVirtualCell
    by_cases h1 : i2 = cc
    · simp only [if_pos h1, List.map_append, u32le_map_mod, hrbmap]
    · by_cases h2 : cc < i2
      · simp only [if_neg h1, if_pos h2, readBytes_map_mod]
        show readBytes (writeList Pd LEAF_NODE_NEXT_LEAF_OFFSET
          (u32le t.pager.pages.length)) (LEAF_NODE_HEADER_SIZE +
            (i2 - 1) * ((Node.mk Pd t.pager.row_size).set_leaf_node_next_leaf t.pager.pages.length).leaf_node_cell_size) ((Node.mk Pd t.pager.row_size).set_leaf_node_next_leaf t.pager.pages.length).leaf_node_cell_size = _
        rw [readBytes_writeList_outside _ _ _ _ _ (Or.inr (by
          simp only [u32le_length, LEAF_NODE_NEXT_LEAF_OFFSET, LEAF_NODE_HEADER_SIZE]
          omega))]
        rfl
      · simp only [if_neg h1, if_neg h2, readBytes_map_mod]
        show readBytes (writeList Pd LEAF_NODE_NEXT_LEAF_OFFSET
          (u32le t.pager.pages.length)) (LEAF_NODE_HEADER_SIZE +
            i2 * ((Node.mk Pd t.pager.row_size).set_leaf_node_next_leaf t.pager.pages.length).leaf_node_cell_size) ((Node.mk Pd t.pager.row_size).set_leaf_node_next_leaf t.pager.pages.length).leaf_node_cell_size = _
        rw [readBytes_writeList_outside _ _ _ _ _ (Or.inr (by
          simp only [u32le_length, LEAF_NODE_NEXT_LEAF_OFFSET, LEAF_NODE_HEADER_SIZE]
          omega))]
        rfl
  have hoN : o ≠ t.pager.pages.length := by omega
  have hppN : pp ≠ t.pager.pages.length := by omega
  have hlen3 : ((t.pager.pages ++ [zd]).set o (writeList oldL.data LEAF_NODE_NUM_CELLS_OFFSET (u32le ((Node.mk Pd t.pager.row_size).set_leaf_node_next_leaf t.pager.pages.length).leaf_node_left_split_count))).length =
      t.pager.pages.length + 1 := by simp
  have hlenPG3 : ((((t.pager.pages ++ [zd]).set o (writeList oldL.data LEAF_NODE_NUM_CELLS_OFFSET (u32le ((Node.mk Pd t.pager.row_size).set_leaf_node_next_leaf t.pager.pages.length).leaf_node_left_split_count))).set t.pager.pages.length (writeList newL.data LEAF_NODE_NUM_CELLS_OFFSET (u32le ((Node.mk Pd t.pager.row_size).set_leaf_node_next_leaf t.pager.pages.length).leaf_node_right_split_count))) : List Bytes).length = t.pager.pages.length + 1 := by simp
  have hget_pp3 : (Pager.mk (((t.pager.pages ++ [zd]).set o (writeList oldL.data LEAF_NODE_NUM_CELLS_OFFSET (u32le ((Node.mk Pd t.pager.row_size).set_leaf_node_next_leaf t.pager.pages.length).leaf_node_left_split_count))).set t.pager.pages.length (writeList newL.data LEAF_NODE_NUM_CELLS_OFFSET (u32le ((Node.mk Pd t.pager.row_size).set_leaf_node_next_leaf t.pager.pages.length).leaf_node_right_split_count))) t.pager.row_size).get pp =
      .ok (Node.mk Qd t.pager.row_size) := by
    unfold Pager.get
    rw [List.getElem?_set_ne (Ne.symm hppN), List.getElem?_set_ne (Ne.symm hppo),
      List.getElem?_append_left hpplen, hq]
  obtain ⟨qidx, hqfind, hqle⟩ := internal_node_find_child_ok
    (Node.mk Qd t.pager.row_size) old_max qnk hqnk (by omega)
  have hupd : (Node.mk Qd t.pager.row_size).update_internal_node_key old_max nmx =
      .ok (Node.mk (writeList Qd (Node.internal_node_cell_offset qidx + INTERNAL_NODE_CHILD_SIZE) (u32le nmx)) t.pager.row_size) := by
    unfold Node.update_internal_node_key
    rw [hqfind, except_bind_ok, set_internal_node_key_eq _ _ _ (by omega)]
  have hQd1nk : readU32 (writeList Qd (Node.internal_node_cell_offset qidx + INTERNAL_NODE_CHILD_SIZE) (u32le nmx)) INTERNAL_NODE_NUM_KEYS_OFFSET = qnk := by
    rw [readU32_writeList_outside _ _ _ _ (Or.inl (by
      simp only [Node.internal_node_cell_offset, INTERNAL_NODE_HEADER_SIZE,
        INTERNAL_NODE_CELL_SIZE, INTERNAL_NODE_CHILD_SIZE, INTERNAL_NODE_NUM_KEYS_OFFSET]
      omega))]
    exact hqnk
  have hQd1rc : readU32 (writeList Qd (Node.internal_node_cell_offset qidx + INTERNAL_NODE_CHILD_SIZE) (u32le nmx)) INTERNAL_NODE_RIGHT_CHILD_OFFSET = INVALID_PAGE_NUM := by
    rw [readU32_writeList_outside _ _ _ _ (Or.inl (by
      simp only [Node.internal_node_cell_offset, INTERNAL_NODE_HEADER_SIZE,
        INTERNAL_NODE_CELL_SIZE, INTERNAL_NODE_CHILD_SIZE,
        INTERNAL_NODE_RIGHT_CHILD_OFFSET]
      omega))]
    exact hqrc
  have hND_b0 : (writeList newL.data LEAF_NODE_NUM_CELLS_OFFSET (u32le ((Node.mk Pd t.pager.row_size).set_leaf_node_next_leaf t.pager.pages.length).leaf_node_right_split_count)) NODE_TYPE_OFFSET = 0 := by
    rw [writeList_outside _ _ _ _ (Or.inl (by decide))]
    rw [h1frame NODE_TYPE_OFFSET (hsmall _ _ _ (by decide))]
    show (writeList (writeList (writeList (writeList (setByte (setByte zd NODE_TYPE_OFFSET 0) IS_ROOT_OFFSET 0) LEAF_NODE_NUM_CELLS_OFFSET (u32le 0)) LEAF_NODE_NEXT_LEAF_OFFSET (u32le 0)) PARENT_POINTER_OFFSET (u32le pp)) LEAF_NODE_NEXT_LEAF_OFFSET (u32le (readU32 Pd LEAF_NODE_NEXT_LEAF_OFFSET))) NODE_TYPE_OFFSET = 0
    rw [writeList_outside _ _ _ _ (Or.inl (by decide))]
    rw [writeList_outside _ _ _ _ (Or.inl (by decide))]
    rw [writeList_outside _ _ _ _ (Or.inl (by decide))]
    rw [writeList_outside _ _ _ _ (Or.inl (by decide))]
    rw [setByte_other _ _ _ _ (by decide)]
    rw [setByte_self]
  have hget_nt_N : (Node.mk (writeList newL.data LEAF_NODE_NUM_CELLS_OFFSET (u32le ((Node.mk Pd t.pager.row_size).set_leaf_node_next_leaf t.pager.pages.length).leaf_node_right_split_count)) t.pager.row_size).get_node_type = .ok .NodeLeaf := by
    unfold Node.get_node_type Node.slice_at
    rw [if_neg (by decide), except_bind_ok]
    rw [show readByte (Node.mk (writeList newL.data LEAF_NODE_NUM_CELLS_OFFSET (u32le ((Node.mk Pd t.pager.row_size).set_leaf_node_next_leaf t.pager.pages.length).leaf_node_right_split_count)) t.pager.row_size).data NODE_TYPE_OFFSET = 0 from by
      simp only [readByte, node_data_mk]
      rw [hND_b0]]
  have hnum_N : (Node.mk (writeList newL.data LEAF_NODE_NUM_CELLS_OFFSET (u32le ((Node.mk Pd t.pager.row_size).set_leaf_node_next_leaf t.pager.pages.length).leaf_node_right_split_count)) t.pager.row_size).leaf_node_num_cells = .ok ((Node.mk Pd t.pager.row_size).set_leaf_node_next_leaf t.pager.pages.length).leaf_node_right_split_count := by
    rw [leaf_node_num_cells_eq]
    refine congrArg Except.ok ?_
    show readU32 (writeList newL.data LEAF_NODE_NUM_CELLS_OFFSET (u32le ((Node.mk Pd t.pager.row_size).set_leaf_node_next_leaf t.pager.pages.length).leaf_node_right_split_count))
      LEAF_NODE_NUM_CELLS_OFFSET = ((Node.mk Pd t.pager.row_size).set_leaf_node_next_leaf t.pager.pages.length).leaf_node_right_split_count
    rw [readU32_writeList_u32le]
    refine Nat.mod_eq_of_lt ?_
    show (Node.mk Pd t.pager.row_size).leaf_node_right_split_count < 2 ^ 32
    rw [show (2 : Nat) ^ 32 = 4294967296 from by norm_num]
    omega
  have hkey_N : (Node.mk (writeList newL.data LEAF_NODE_NUM_CELLS_OFFSET (u32le ((Node.mk Pd t.pager.row_size).set_leaf_node_next_leaf t.pager.pages.length).leaf_node_right_split_count)) t.pager.row_size).leaf_node_key (((Node.mk Pd t.pager.row_size).set_leaf_node_next_leaf t.pager.pages.length).leaf_node_right_split_count - 1) =
      .ok (readU32 (Node.mk (writeList newL.data LEAF_NODE_NUM_CELLS_OFFSET (u32le ((Node.mk Pd t.pager.row_size).set_leaf_node_next_leaf t.pager.pages.length).leaf_node_right_split_count)) t.pager.row_size).data (LEAF_NODE_HEADER_SIZE +
        (((Node.mk Pd t.pager.row_size).set_leaf_node_next_leaf t.pager.pages.length).leaf_node_right_split_count - 1) * (Node.mk (writeList newL.data LEAF_NODE_NUM_CELLS_OFFSET (u32le ((Node.mk Pd t.pager.row_size).set_leaf_node_next_leaf t.pager.pages.length).leaf_node_right_split_count)) t.pager.row_size).leaf_node_cell_size)) := by
    unfold Node.leaf_node_key
    rw [get_leaf_node_cell_offset_eval _ _ (by
      show (Node.mk Pd t.pager.row_size).leaf_node_right_split_count - 1 <
        (Node.mk Pd t.pager.row_size).leaf_node_max_cells
      omega), except_bind_ok]
    rfl
  have hkcN : (Pager.mk ((((t.pager.pages ++ [zd]).set o (writeList oldL.data LEAF_NODE_NUM_CELLS_OFFSET (u32le ((Node.mk Pd t.pager.row_size).set_leaf_node_next_leaf t.pager.pages.length).leaf_node_left_split_count))).set t.pager.pages.length (writeList newL.data LEAF_NODE_NUM_CELLS_OFFSET (u32le ((Node.mk Pd t.pager.row_size).set_leaf_node_next_leaf t.pager.pages.length).leaf_node_right_split_count))).set pp (writeList Qd (Node.internal_node_cell_offset qidx + INTERNAL_NODE_CHILD_SIZE) (u32le nmx))) t.pager.row_size).node_max_key
      (Node.mk (writeList newL.data LEAF_NODE_NUM_CELLS_OFFSET (u32le ((Node.mk Pd t.pager.row_size).set_leaf_node_next_leaf t.pager.pages.length).leaf_node_right_split_count)) t.pager.row_size) =
      .ok (readU32 (Node.mk (writeList newL.data LEAF_NODE_NUM_CELLS_OFFSET (u32le ((Node.mk Pd t.pager.row_size).set_leaf_node_next_leaf t.pager.pages.length).leaf_node_right_split_count)) t.pager.row_size).data (LEAF_NODE_HEADER_SIZE +
        (((Node.mk Pd t.pager.row_size).set_leaf_node_next_leaf t.pager.pages.length).leaf_node_right_split_count - 1) * (Node.mk (writeList newL.data LEAF_NODE_NUM_CELLS_OFFSET (u32le ((Node.mk Pd t.pager.row_size).set_leaf_node_next_leaf t.pager.pages.length).leaf_node_right_split_count)) t.pager.row_size).leaf_node_cell_size)) := by
    unfold Pager.node_max_key
    simp only [Pager.get_node_max_key]
    rw [hget_nt_N, except_bind_ok, if_pos rfl]
    rw [hnum_N, except_bind_ok]
    rw [if_neg (by
      show ¬ (Node.mk Pd t.pager.row_size).leaf_node_right_split_count = 0
      omega)]
    exact hkey_N
  obtain ⟨kcv, hkcN2⟩ : ∃ v, (Pager.mk ((((t.pager.pages ++ [zd]).set o (writeList oldL.data LEAF_NODE_NUM_CELLS_OFFSET (u32le ((Node.mk Pd t.pager.row_size).set_leaf_node_next_leaf t.pager.pages.length).leaf_node_left_split_count))).set t.pager.pages.length (writeList newL.data LEAF_NODE_NUM_CELLS_OFFSET (u32le ((Node.mk Pd t.pager.row_size).set_leaf_node_next_leaf t.pager.pages.length).leaf_node_right_split_count))).set pp (writeList Qd (Node.internal_node_cell_offset qidx + INTERNAL_NODE_CHILD_SIZE) (u32le nmx))) t.pager.row_size).node_max_key
      (Node.mk (writeList newL.data LEAF_NODE_NUM_CELLS_OFFSET (u32le ((Node.mk Pd t.pager.row_size).set_leaf_node_next_leaf t.pager.pages.length).leaf_node_right_split_count)) t.pager.row_size) = .ok v := ⟨_, hkcN⟩
  obtain ⟨idx5, hfind5, hidx5le⟩ := internal_node_find_child_ok
    (Node.mk (writeList Qd (Node.internal_node_cell_offset qidx + INTERNAL_NODE_CHILD_SIZE) (u32le nmx)) t.pager.row_size) kcv qnk hQd1nk (by omega)
  have hp4 : (((((t.pager.pages ++ [zd]).set o (writeList oldL.data LEAF_NODE_NUM_CELLS_OFFSET (u32le ((Node.mk Pd t.pager.row_size).set_leaf_node_next_leaf t.pager.pages.length).leaf_node_left_split_count))).set t.pager.pages.length (writeList newL.data LEAF_NODE_NUM_CELLS_OFFSET (u32le ((Node.mk Pd t.pager.row_size).set_leaf_node_next_leaf t.pager.pages.length).leaf_node_right_split_count))).set pp (writeList Qd (Node.internal_node_cell_offset qidx + INTERNAL_NODE_CHILD_SIZE) (u32le nmx))) : List Bytes)[pp]? = some (writeList Qd (Node.internal_node_cell_offset qidx + INTERNAL_NODE_CHILD_SIZE) (u32le nmx)) :=
    List.getElem?_set_self (by rw [hlenPG3]; omega)
  have hc4 : (Pager.mk ((((t.pager.pages ++ [zd]).set o (writeList oldL.data LEAF_NODE_NUM_CELLS_OFFSET (u32le ((Node.mk Pd t.pager.row_size).set_leaf_node_next_leaf t.pager.pages.length).leaf_node_left_split_count))).set t.pager.pages.length (writeList newL.data LEAF_NODE_NUM_CELLS_OFFSET (u32le ((Node.mk Pd t.pager.row_size).set_leaf_node_next_leaf t.pager.pages.length).leaf_node_right_split_count))).set pp (writeList Qd (Node.internal_node_cell_offset qidx + INTERNAL_NODE_CHILD_SIZE) (u32le nmx))) t.pager.row_size).get t.pager.pages.length =
      .ok (Node.mk (writeList newL.data LEAF_NODE_NUM_CELLS_OFFSET (u32le ((Node.mk Pd t.pager.row_size).set_leaf_node_next_leaf t.pager.pages.length).leaf_node_right_split_count)) t.pager.row_size) := by
    unfold Pager.get
    rw [List.getElem?_set_ne hppN, List.getElem?_set_self (by rw [hlen3]; omega)]
  obtain ⟨d5, hins, hnk5, hA5, hB15, hB25⟩ :=
    internal_node_insert_nonfull_spec fuel pp t.pager.pages.length qnk
      INVALID_PAGE_NUM kcv idx5 0 (Table.mk t.root_page_num (Pager.mk ((((t.pager.pages ++ [zd]).set o (writeList oldL.data LEAF_NODE_NUM_CELLS_OFFSET (u32le ((Node.mk Pd t.pager.row_size).set_leaf_node_next_leaf t.pager.pages.length).leaf_node_left_split_count))).set t.pager.pages.length (writeList newL.data LEAF_NODE_NUM_CELLS_OFFSET (u32le ((Node.mk Pd t.pager.row_size).set_leaf_node_next_leaf t.pager.pages.length).leaf_node_right_split_count))).set pp (writeList Qd (Node.internal_node_cell_offset qidx + INTERNAL_NODE_CHILD_SIZE) (u32le nmx))) t.pager.row_size) t.schema) (writeList Qd (Node.internal_node_cell_offset qidx + INTERNAL_NODE_CHILD_SIZE) (u32le nmx)) (Node.mk (writeList newL.data LEAF_NODE_NUM_CELLS_OFFSET (u32le ((Node.mk Pd t.pager.row_size).set_leaf_node_next_leaf t.pager.pages.length).leaf_node_right_split_count)) t.pager.row_size)
      (Node.mk zeroBytes 0) hp4 hc4 hkcN2 hfind5 hQd1nk hQd1rc hqfull
      (fun h => absurd rfl h)
  have hdataDO : (oldL.set_leaf_node_num_cells ((Node.mk Pd t.pager.row_size).set_leaf_node_next_leaf t.pager.pages.length).leaf_node_left_split_count).data = (writeList oldL.data LEAF_NODE_NUM_CELLS_OFFSET (u32le ((Node.mk Pd t.pager.row_size).set_leaf_node_next_leaf t.pager.pages.length).leaf_node_left_split_count)) := rfl
  have hdataDN : (newL.set_leaf_node_num_cells ((Node.mk Pd t.pager.row_size).set_leaf_node_next_leaf t.pager.pages.length).leaf_node_right_split_count).data = (writeList newL.data LEAF_NODE_NUM_CELLS_OFFSET (u32le ((Node.mk Pd t.pager.row_size).set_leaf_node_next_leaf t.pager.pages.length).leaf_node_right_split_count)) := rfl
  refine ⟨(Table.mk t.root_page_num (Pager.mk (((((t.pager.pages ++ [zd]).set o (writeList oldL.data LEAF_NODE_NUM_CELLS_OFFSET (u32le ((Node.mk Pd t.pager.row_size).set_leaf_node_next_leaf t.pager.pages.length).leaf_node_left_split_count))).set t.pager.pages.length (writeList newL.data LEAF_NODE_NUM_CELLS_OFFSET (u32le ((Node.mk Pd t.pager.row_size).set_leaf_node_next_leaf t.pager.pages.length).leaf_node_right_split_count))).set pp (writeList Qd (Node.internal_node_cell_offset qidx + INTERNAL_NODE_CHILD_SIZE) (u32le nmx))).set pp d5) t.pager.row_size) t.schema), (writeList oldL.data LEAF_NODE_NUM_CELLS_OFFSET (u32le ((Node.mk Pd t.pager.row_size).set_leaf_node_next_leaf t.pager.pages.length).leaf_node_left_split_count)), (writeList newL.data LEAF_NODE_NUM_CELLS_OFFSET (u32le ((Node.mk Pd t.pager.row_size).set_leaf_node_next_leaf t.pager.pages.length).leaf_node_right_split_count)), ?_, ?_, ?_, ?_, hLf, hRf, ?_, ?_, ?_, ?_, ?_, ?_⟩
  · simp only [leaf_node_split_and_insert, run_bind, run_liftE, run_getT,
      run_modifyPager, run_commitPage, Pager.commit, Pager.get_unused_page_num,
      node_data_mk, cursor_page_num_mk, cursor_cell_num_mk, htc, hget_o2, homax,
      hget_N2, hpar, hnl, hloopfull, hdataDO, hdataDN, hisroot,
      Bool.false_eq_true, if_false, hpar3, hmax3, hget_pp3, hupd]
    exact hins
  · show ((((((t.pager.pages ++ [zd]).set o (writeList oldL.data LEAF_NODE_NUM_CELLS_OFFSET (u32le ((Node.mk Pd t.pager.row_size).set_leaf_node_next_leaf t.pager.pages.length).leaf_node_left_split_count))).set t.pager.pages.length (writeList newL.data LEAF_NODE_NUM_CELLS_OFFSET (u32le ((Node.mk Pd t.pager.row_size).set_leaf_node_next_leaf t.pager.pages.length).leaf_node_right_split_count))).set pp (writeList Qd (Node.internal_node_cell_offset qidx + INTERNAL_NODE_CHILD_SIZE) (u32le nmx))).set pp d5) : List Bytes).length = t.pager.pages.length + 1
    simp [hlenPG3]
  · show ((((((t.pager.pages ++ [zd]).set o (writeList oldL.data LEAF_NODE_NUM_CELLS_OFFSET (u32le ((Node.mk Pd t.pager.row_size).set_leaf_node_next_leaf t.pager.pages.length).leaf_node_left_split_count))).set t.pager.pages.length (writeList newL.data LEAF_NODE_NUM_CELLS_OFFSET (u32le ((Node.mk Pd t.pager.row_size).set_leaf_node_next_leaf t.pager.pages.length).leaf_node_right_split_count))).set pp (writeList Qd (Node.internal_node_cell_offset qidx + INTERNAL_NODE_CHILD_SIZE) (u32le nmx))).set pp d5) : List Bytes)[o]? = some (writeList oldL.data LEAF_NODE_NUM_CELLS_OFFSET (u32le ((Node.mk Pd t.pager.row_size).set_leaf_node_next_leaf t.pager.pages.length).leaf_node_left_split_count))
    rw [List.getElem?_set_ne hppo, List.getElem?_set_ne hppo,
      List.getElem?_set_ne (Ne.symm hoN),
      List.getElem?_set_self (by simp only [List.length_append, List.length_singleton]; omega)]
  · show ((((((t.pager.pages ++ [zd]).set o (writeList oldL.data LEAF_NODE_NUM_CELLS_OFFSET (u32le ((Node.mk Pd t.pager.row_size).set_leaf_node_next_leaf t.pager.pages.length).leaf_node_left_split_count))).set t.pager.pages.length (writeList newL.data LEAF_NODE_NUM_CELLS_OFFSET (u32le ((Node.mk Pd t.pager.row_size).set_leaf_node_next_leaf t.pager.pages.length).leaf_node_right_split_count))).set pp (writeList Qd (Node.internal_node_cell_offset qidx + INTERNAL_NODE_CHILD_SIZE) (u32le nmx))).set pp d5) : List Bytes)[t.pager.pages.length]? = some (writeList newL.data LEAF_NODE_NUM_CELLS_OFFSET (u32le ((Node.mk Pd t.pager.row_size).set_leaf_node_next_leaf t.pager.pages.length).leaf_node_right_split_count))
    rw [List.getElem?_set_ne hppN, List.getElem?_set_ne hppN,
      List.getElem?_set_self (by rw [hlen3]; omega)]
  · rw [readU32_writeList_u32le]
    show (Node.mk Pd t.pager.row_size).leaf_node_left_split_count % 2 ^ 32 =
      (Node.mk Pd t.pager.row_size).leaf_node_left_split_count
    refine Nat.mod_eq_of_lt ?_
    rw [show (2 : Nat) ^ 32 = 4294967296 from by norm_num]
    omega
  · rw [readU32_writeList_u32le]
    show (Node.mk Pd t.pager.row_size).leaf_node_right_split_count % 2 ^ 32 =
      (Node.mk Pd t.pager.row_size).leaf_node_right_split_count
    refine Nat.mod_eq_of_lt ?_
    rw [show (2 : Nat) ^ 32 = 4294967296 from by norm_num]
    omega
  · rw [readU32_writeList_outside _ _ _ _ (Or.inr (by
      simp only [u32le_length, LEAF_NODE_NUM_CELLS_OFFSET, LEAF_NODE_NEXT_LEAF_OFFSET]
      omega))]
    rw [readU32_congr oldL.data ((Node.mk Pd t.pager.row_size).set_leaf_node_next_leaf t.pager.pages.length).data LEAF_NODE_NEXT_LEAF_OFFSET (by
      intro k hk
      exact h2frame _ (hsmall _ _ _ (by
        simp only [LEAF_NODE_NEXT_LEAF_OFFSET, LEAF_NODE_HEADER_SIZE]
        omega)))]
    show readU32 (writeList Pd LEAF_NODE_NEXT_LEAF_OFFSET
      (u32le t.pager.pages.length)) LEAF_NODE_NEXT_LEAF_OFFSET = _
    rw [readU32_writeList_u32le]
  · rw [readU32_writeList_outside _ _ _ _ (Or.inr (by
      simp only [u32le_length, LEAF_NODE_NUM_CELLS_OFFSET, LEAF_NODE_NEXT_LEAF_OFFSET]
      omega))]
    rw [readU32_congr newL.data (((initialize_leaf_node (Node.mk zd
      t.pager.row_size)).set_node_parent pp).set_leaf_node_next_leaf
      (readU32 Pd LEAF_NODE_NEXT_LEAF_OFFSET)).data LEAF_NODE_NEXT_LEAF_OFFSET (by
      intro k hk
      exact h1frame _ (hsmall _ _ _ (by
        simp only [LEAF_NODE_NEXT_LEAF_OFFSET, LEAF_NODE_HEADER_SIZE]
        omega)))]
    show readU32 (writeList (writeList (writeList (writeList (setByte (setByte zd
      NODE_TYPE_OFFSET 0) IS_ROOT_OFFSET 0) LEAF_NODE_NUM_CELLS_OFFSET (u32le 0))
      LEAF_NODE_NEXT_LEAF_OFFSET (u32le 0)) PARENT_POINTER_OFFSET (u32le pp))
      LEAF_NODE_NEXT_LEAF_OFFSET (u32le (readU32 Pd LEAF_NODE_NEXT_LEAF_OFFSET)))
      LEAF_NODE_NEXT_LEAF_OFFSET = readU32 Pd LEAF_NODE_NEXT_LEAF_OFFSET
    rw [readU32_writeList_u32le]
    exact Nat.mod_eq_of_lt (readU32_lt _ _)
  · intro i hi
    rw [readBytes_writeList_outside _ _ _ _ _ (Or.inr (by
      simp only [u32le_length, LEAF_NODE_NUM_CELLS_OFFSET, LEAF_NODE_HEADER_SIZE]
      omega))]
    show readBytes oldL.data (LEAF_NODE_HEADER_SIZE +
        i * ((Node.mk Pd t.pager.row_size).set_leaf_node_next_leaf t.pager.pages.length).leaf_node_cell_size) ((Node.mk Pd t.pager.row_size).set_leaf_node_next_leaf t.pager.pages.length).leaf_node_cell_size =
      leafVirtualCell (Node.mk Pd t.pager.row_size) cc row_id row_bin i
    rw [h2cells i hi]
    exact hvirt i
  · intro j hj
    rw [readBytes_writeList_outside _ _ _ _ _ (Or.inr (by
      simp only [u32le_length, LEAF_NODE_NUM_CELLS_OFFSET, LEAF_NODE_HEADER_SIZE]
      omega))]
    show readBytes newL.data (LEAF_NODE_HEADER_SIZE +
        j * ((Node.mk Pd t.pager.row_size).set_leaf_node_next_leaf t.pager.pages.length).leaf_node_cell_size) ((Node.mk Pd t.pager.row_size).set_leaf_node_next_leaf t.pager.pages.length).leaf_node_cell_size =
      leafVirtualCell (Node.mk Pd t.pager.row_size) cc row_id row_bin
        ((Node.mk Pd t.pager.row_size).leaf_node_left_split_count + j)
    rw [h1cells j (by
      show j < (Node.mk Pd t.pager.row_size).leaf_node_max_cells + 1 -
        (Node.mk Pd t.pager.row_size).leaf_node_left_split_count
      omega)]
    exact hvirt (((Node.mk Pd t.pager.row_size).set_leaf_node_next_leaf t.pager.pages.length).leaf_node_left_split_count + j)

/-- Claim C4 (witness): the split-partition characterization applied to the
concrete full leaf `c4OldPage` (`max_cells = 2`, split `2 + 1`), inserting
key `12` at cell `2`. -/
theorem C4_leaf_split_partition_witness :
    ∃ (t' : Table) (oldD newD : Bytes),
      leaf_node_split_and_insert (0 + 1) (Cursor.mk 0 2 false) 12
        (List.replicate 2000 7) c4Table = (.ok (), t') ∧
      t'.pager.pages.length = c4Table.pager.pages.length + 1 ∧
      t'.pager.pages[0]? = some oldD ∧
      t'.pager.pages[c4Table.pager.pages.length]? = some newD ∧
      (Node.mk c4OldPage c4Table.pager.row_size).leaf_node_left_split_count =
        ((Node.mk c4OldPage c4Table.pager.row_size).leaf_node_max_cells + 2) / 2 ∧
      (Node.mk c4OldPage c4Table.pager.row_size).leaf_node_right_split_count =
        ((Node.mk c4OldPage c4Table.pager.row_size).leaf_node_max_cells + 1) / 2 ∧
      readU32 oldD LEAF_NODE_NUM_CELLS_OFFSET =
        (Node.mk c4OldPage c4Table.pager.row_size).leaf_node_left_split_count ∧
      readU32 newD LEAF_NODE_NUM_CELLS_OFFSET =
        (Node.mk c4OldPage c4Table.pager.row_size).leaf_node_right_split_count ∧
      readU32 oldD LEAF_NODE_NEXT_LEAF_OFFSET =
        c4Table.pager.pages.length % 2 ^ 32 ∧
      readU32 newD LEAF_NODE_NEXT_LEAF_OFFSET =
        readU32 c4OldPage LEAF_NODE_NEXT_LEAF_OFFSET ∧
      (∀ i, i < (Node.mk c4OldPage c4Table.pager.row_size).leaf_node_left_split_count →
        readBytes oldD (LEAF_NODE_HEADER_SIZE +
            i * (Node.mk c4OldPage c4Table.pager.row_size).leaf_node_cell_size)
          (Node.mk c4OldPage c4Table.pager.row_size).leaf_node_cell_size =
        leafVirtualCell (Node.mk c4OldPage c4Table.pager.row_size) 2 12
          (List.replicate 2000 7) i) ∧
      (∀ j, j < (Node.mk c4OldPage c4Table.pager.row_size).leaf_node_right_split_count →
        readBytes newD (LEAF_NODE_HEADER_SIZE +
            j * (Node.mk c4OldPage c4Table.pager.row_size).leaf_node_cell_size)
          (Node.mk c4OldPage c4Table.pager.row_size).leaf_node_cell_size =
        leafVirtualCell (Node.mk c4OldPage c4Table.pager.row_size) 2 12
          (List.replicate 2000 7)
          ((Node.mk c4OldPage c4Table.pager.row_size).leaf_node_left_split_count + j)) :=
  C4_leaf_split_partition 0 0 2 12 1 0 9 false (List.replicate 2000 7)
    c4Table c4OldPage pageEmptyInternal rfl (by decide) (by decide) (by decide)
    (by decide) (by decide) (by decide) (by decide)
    (by rw [List.length_replicate]; rfl)
    (by intro b hb; rw [List.eq_of_mem_replicate hb]; decide)
    (by decide) (by decide) rfl (by decide) (by decide) (by decide)

end MySqlite
